import Mathlib

/-!
Shallow embedding of the RAIMan maze core (grid model, wrap tunnels,
level parser/validator, seeded PRNGs, Pac-Rogue level generator, and the
Vibe reorg-shift mutation engine), together with proofs of the spec-level
properties of these components.

Conventions of the embedding:
* JavaScript 32-bit integer bit patterns are modelled as `Nat` values
  below `2 ^ 32`; `Math.imul`, `^`, `<<`, `>>>`, `|` become arithmetic on
  those patterns.
* JavaScript `number` values produced by the PRNGs (`x / 0xffffffff`,
  `t / 2 ^ 32`) are modelled as exact rationals.  All uses in the code
  are of the form `floor(r * n)` or weighted-threshold comparisons, and
  the modelled values are exact at every such use.
* Tile coordinates are `Int` (the code freely forms `x - 1` and compares
  with `0`/`width`); grid dimensions are `Nat`.
* Mutable 2D arrays become `List (List _)` with out-of-range reads giving
  a default and out-of-range writes ignored; every read/write performed
  by the modelled code is in range on the inputs the theorems speak
  about, so the defaults are never load-bearing.
* The stateful `Rng` consumed by the mutation engine is modelled as an
  abstract stream `Nat → Nat` of draws together with a cursor; the draw
  for `nextInt(0, n)` is taken modulo `n`, which realises exactly the
  value range `[0, n)` the real generator can produce.
* Unbounded `while` loops whose termination rests on a strictly
  decreasing measure in the code (wall count, queue discipline) are given
  explicit fuel larger than that measure.
-/

namespace RaiMan

/-- Tile vocabulary of `levelTypes.ts` (`TileType`). -/
inductive TileType where
  | wall
  | pellet
  | power
  | playerStart
  | ghostStart
  | empty
deriving DecidableEq, Repr, Inhabited

/-- `isWalkable` from `levelTypes.ts`: every tile but a wall is walkable. -/
def isWalkable (t : TileType) : Bool :=
  t != TileType.wall

/-- Integer grid position (`GridPos` of `levelTypes.ts`). -/
structure GridPos where
  x : Int
  y : Int
deriving DecidableEq, Repr, Inhabited

/-- Movement directions (`directions.ts`). -/
inductive Direction where
  | dnone
  | up
  | down
  | left
  | right
deriving DecidableEq, Repr, Inhabited

/-- `vec` from `directions.ts`. -/
def vec : Direction → Int × Int
  | Direction.up => (0, -1)
  | Direction.down => (0, 1)
  | Direction.left => (-1, 0)
  | Direction.right => (1, 0)
  | Direction.dnone => (0, 0)

/-! ## Generic 2D-array primitives

The TS code stores grids as arrays of rows indexed `m[y][x]`. -/

/-- Read `m[y][x]`; `none` when out of range. -/
def cellAt (m : List (List α)) (x y : Int) : Option α :=
  if x < 0 ∨ y < 0 then none
  else (m.get? y.toNat).bind fun row => row.get? x.toNat

/-- Read with a default (the TS code's non-null assertion; all modelled
reads are in range where it matters). -/
def cellAtD (m : List (List α)) (x y : Int) (d : α) : α :=
  (cellAt m x y).getD d

/-- Write `m[y][x] = v`; out-of-range writes are dropped. -/
def setCell (m : List (List α)) (x y : Int) (v : α) : List (List α) :=
  if x < 0 ∨ y < 0 then m
  else
    match m.get? y.toNat with
    | none => m
    | some row => m.set y.toNat (row.set x.toNat v)

/-- A `height × width` boolean matrix of `false`
(`Array.from({length}, () => ... false)`). -/
def falseGrid (width height : Nat) : List (List Bool) :=
  List.replicate height (List.replicate width false)

/-- The parsed level record (`ParsedLevel` of `levelTypes.ts`). -/
structure ParsedLevel where
  id : Option String
  width : Nat
  height : Nat
  rawGrid : List String
  tileMatrix : List (List TileType)
  startPos : Option GridPos
  playerStartCount : Nat
  playerStarts : List GridPos
  ghostStarts : List GridPos
  pelletCount : Nat
  powerCount : Nat
  pelletPositions : List GridPos
  bombPickupPositions : List GridPos
  boxPositions : List GridPos
  fruitSpawnPositions : List GridPos
deriving DecidableEq, Repr, Inhabited

/-- Tile read `level.tileMatrix[y]![x]!` with the wall default (never hit
in range). -/
def tileAt (lvl : ParsedLevel) (x y : Int) : TileType :=
  cellAtD lvl.tileMatrix x y TileType.wall

/-- Well-formedness invariant stated by the data model: the tile matrix
really is `height` rows of length `width`. -/
def Wf (lvl : ParsedLevel) : Prop :=
  lvl.tileMatrix.length = lvl.height ∧
    ∀ row ∈ lvl.tileMatrix, row.length = lvl.width

instance (lvl : ParsedLevel) : Decidable (Wf lvl) := by
  unfold Wf; infer_instance

/-- Position in range of the level dimensions. -/
def InB (lvl : ParsedLevel) (p : GridPos) : Prop :=
  0 ≤ p.x ∧ p.x < (lvl.width : Int) ∧ 0 ≤ p.y ∧ p.y < (lvl.height : Int)

instance (lvl : ParsedLevel) (p : GridPos) : Decidable (InB lvl p) := by
  unfold InB; infer_instance

/-! ## Wrap tunnels (`wrapTunnels.ts`) -/

/-- `isAllowedBorderTunnelChar` from `wrapTunnels.ts`. -/
def isAllowedBorderTunnelChar (ch : Char) : Bool :=
  ch == ' ' || ch == '.' || ch == 'o' || ch == 'A' || ch == '5'

/-- `getWrapDestination` from `wrapTunnels.ts`. -/
def getWrapDestination (lvl : ParsedLevel) (tileX tileY : Int)
    (dir : Direction) : Option GridPos :=
  if dir = Direction.dnone then none
  else
    let v := vec dir
    let nx := tileX + v.1
    let ny := tileY + v.2
    if 0 ≤ nx ∧ 0 ≤ ny ∧ nx < (lvl.width : Int) ∧ ny < (lvl.height : Int) then
      none
    else if dir = Direction.left ∧ tileX = 0 then
      let destX : Int := (lvl.width : Int) - 1
      if ¬ isWalkable (tileAt lvl tileX tileY) then none
      else if ¬ isWalkable (tileAt lvl destX tileY) then none
      else some ⟨destX, tileY⟩
    else if dir = Direction.right ∧ tileX = (lvl.width : Int) - 1 then
      let destX : Int := 0
      if ¬ isWalkable (tileAt lvl tileX tileY) then none
      else if ¬ isWalkable (tileAt lvl destX tileY) then none
      else some ⟨destX, tileY⟩
    else if dir = Direction.up ∧ tileY = 0 then
      let destY : Int := (lvl.height : Int) - 1
      if ¬ isWalkable (tileAt lvl tileX tileY) then none
      else if ¬ isWalkable (tileAt lvl tileX destY) then none
      else some ⟨tileX, destY⟩
    else if dir = Direction.down ∧ tileY = (lvl.height : Int) - 1 then
      let destY : Int := 0
      if ¬ isWalkable (tileAt lvl tileX tileY) then none
      else if ¬ isWalkable (tileAt lvl tileX destY) then none
      else some ⟨tileX, destY⟩
    else none

/-- `nextTileWithWrap` from `wrapTunnels.ts`. -/
def nextTileWithWrap (lvl : ParsedLevel) (tileX tileY : Int)
    (dir : Direction) : Option GridPos :=
  if dir = Direction.dnone then none
  else
    let v := vec dir
    let nx := tileX + v.1
    let ny := tileY + v.2
    if 0 ≤ nx ∧ 0 ≤ ny ∧ nx < (lvl.width : Int) ∧ ny < (lvl.height : Int) then
      if ¬ isWalkable (tileAt lvl nx ny) then none else some ⟨nx, ny⟩
    else
      getWrapDestination lvl tileX tileY dir

/-! ## Vibe reorg shift (`vibeReorgShift.ts`) -/

/-- `ReorgShiftConfig`. -/
structure ReorgShiftConfig where
  mutations : Nat
  maxTriesPerMutation : Nat
  softlockMaxSteps : Nat
deriving DecidableEq, Repr

/-- `ReorgShiftResult`. -/
structure ReorgShiftResult where
  ok : Bool
  mutatedTiles : List GridPos
deriving DecidableEq, Repr

/-- A swap candidate (`SwapCandidate`). -/
structure SwapCandidate where
  ax : Int
  ay : Int
  bx : Int
  by' : Int
deriving DecidableEq, Repr

/-- `isMutableWalkable`: walkable and not a start marker. -/
def isMutableWalkable (t : TileType) : Bool :=
  isWalkable t && t != TileType.playerStart && t != TileType.ghostStart

/-- `hasProtected`: `Boolean(mask[y]?.[x])`. -/
def hasProtected (mask : List (List Bool)) (x y : Int) : Bool :=
  cellAtD mask x y false

/-- `tileKey` is modelled as the coordinate pair itself (the string
round-trip through `"x,y"` is injective on the keys the code builds). -/
def tileKey (x y : Int) : GridPos := ⟨x, y⟩

/-- Insertion-ordered set add (JS `Set.add`). -/
def keyAdd (s : List GridPos) (p : GridPos) : List GridPos :=
  if p ∈ s then s else s ++ [p]

/-- `collectAdjacentSwapCandidates`: all right/down-adjacent unused,
unprotected pairs with exactly one wall and a mutable walkable partner,
in row-major scan order. -/
def collectAdjacentSwapCandidates (lvl : ParsedLevel)
    (protectedMask : List (List Bool)) (used : List GridPos) :
    List SwapCandidate :=
  (List.range lvl.height).flatMap fun yn =>
    (List.range lvl.width).flatMap fun xn =>
      let x : Int := xn
      let y : Int := yn
      if tileKey x y ∈ used then []
      else if hasProtected protectedMask x y then []
      else
        [(1, 0), (0, 1)].flatMap fun d =>
          let nx := x + d.1
          let ny := y + d.2
          if nx < 0 ∨ ny < 0 ∨ (lvl.width : Int) ≤ nx ∨ (lvl.height : Int) ≤ ny then []
          else if tileKey nx ny ∈ used then []
          else if hasProtected protectedMask nx ny then []
          else
            let a := tileAt lvl x y
            let b := tileAt lvl nx ny
            let aWall := a == TileType.wall
            let bWall := b == TileType.wall
            if aWall == bWall then []
            else
              let aWalk := isMutableWalkable a
              let bWalk := isMutableWalkable b
              if ¬ aWalk ∧ ¬ bWalk then []
              else [⟨x, y, nx, ny⟩]

/-- `swapTiles`: exchange two tiles in place. -/
def swapTiles (lvl : ParsedLevel) (a b : GridPos) : ParsedLevel :=
  let tA := tileAt lvl a.x a.y
  let tB := tileAt lvl b.x b.y
  { lvl with
    tileMatrix := setCell (setCell lvl.tileMatrix a.x a.y tB) b.x b.y tA }

/-- One BFS step worklist pass for `reachableFromStart`: `fuel` bounds the
number of dequeues (each enqueue marks its cell visited first, so at most
`width * height` cells ever enter the queue). -/
def bfsLoop (lvl : ParsedLevel) : Nat → List GridPos → List (List Bool) →
    List (List Bool)
  | 0, _, visited => visited
  | _ + 1, [], visited => visited
  | fuel + 1, cur :: queue, visited =>
    let step := fun (st : List (List Bool) × List GridPos) (d : Direction) =>
      match nextTileWithWrap lvl cur.x cur.y d with
      | none => st
      | some nxt =>
        if cellAtD st.1 nxt.x nxt.y false then st
        else (setCell st.1 nxt.x nxt.y true, st.2 ++ [nxt])
    let st :=
      [Direction.right, Direction.left, Direction.down, Direction.up].foldl
        step (visited, queue)
    bfsLoop lvl fuel st.2 st.1

/-- `reachableFromStart`: wrap-aware BFS flood fill from one start. -/
def reachableFromStart (lvl : ParsedLevel) (start : GridPos) :
    List (List Bool) :=
  let visited := falseGrid lvl.width lvl.height
  if start.x < 0 ∨ start.y < 0 ∨ (lvl.width : Int) ≤ start.x ∨
      (lvl.height : Int) ≤ start.y ∨
      ¬ isWalkable (tileAt lvl start.x start.y) then
    visited
  else
    bfsLoop lvl (lvl.width * lvl.height + 1) [start]
      (setCell visited start.x start.y true)

/-- `neighborCount`: number of legal wrap-aware moves out of a tile. -/
def neighborCount (lvl : ParsedLevel) (x y : Int) : Nat :=
  [Direction.up, Direction.down, Direction.left, Direction.right].countP
    fun d => (nextTileWithWrap lvl x y d).isSome

/-- Bounded-depth BFS of `hasNearbyBranch`; same fuel discipline as
`bfsLoop`. -/
def branchLoop (lvl : ParsedLevel) (maxSteps : Nat) :
    Nat → List (GridPos × Nat) → List (List Bool) → Bool
  | 0, _, _ => false
  | _ + 1, [], _ => false
  | fuel + 1, (cur, steps) :: queue, visited =>
    if 0 < steps ∧ 3 ≤ neighborCount lvl cur.x cur.y then true
    else if maxSteps ≤ steps then branchLoop lvl maxSteps fuel queue visited
    else
      let step := fun (st : List (List Bool) × List (GridPos × Nat))
          (d : Direction) =>
        match nextTileWithWrap lvl cur.x cur.y d with
        | none => st
        | some nxt =>
          if cellAtD st.1 nxt.x nxt.y false then st
          else (setCell st.1 nxt.x nxt.y true, st.2 ++ [(nxt, steps + 1)])
      let st :=
        [Direction.right, Direction.left, Direction.down, Direction.up].foldl
          step (visited, queue)
      branchLoop lvl maxSteps fuel st.2 st.1

/-- `hasNearbyBranch`: a tile of degree ≥ 3 within `maxSteps` moves. -/
def hasNearbyBranch (lvl : ParsedLevel) (start : GridPos) (maxSteps : Nat) :
    Bool :=
  let visited := setCell (falseGrid lvl.width lvl.height) start.x start.y true
  branchLoop lvl maxSteps (lvl.width * lvl.height + 1) [(start, 0)] visited

/-- `passesChecks`: the mutation engine's full fairness re-validation. -/
def passesChecks (lvl : ParsedLevel) (starts critical : List GridPos)
    (softlockMaxSteps : Nat) : Bool :=
  match starts with
  | [] => false
  | s0 :: _ =>
    let visited := reachableFromStart lvl s0
    -- Ensure remaining pellets/powers stay reachable.
    ((List.range lvl.height).all fun yn =>
      (List.range lvl.width).all fun xn =>
        let t := tileAt lvl xn yn
        if t != TileType.pellet && t != TileType.power then true
        else cellAtD visited (xn : Int) (yn : Int) false) &&
    -- All player tiles must remain connected to the primary.
    (starts.all fun s =>
      decide (InB lvl s) && isWalkable (tileAt lvl s.x s.y) &&
        cellAtD visited s.x s.y false) &&
    (critical.all fun p =>
      if ¬ InB lvl p then true
      else isWalkable (tileAt lvl p.x p.y) && cellAtD visited p.x p.y false) &&
    -- No-softlock: each start tile should not be a deep dead-end.
    (starts.all fun s =>
      if ¬ InB lvl s then true
      else if ¬ isWalkable (tileAt lvl s.x s.y) then false
      else
        let deg := neighborCount lvl s.x s.y
        if deg = 0 then false
        else if 2 ≤ deg then true
        else hasNearbyBranch lvl s softlockMaxSteps)

/-- State threaded through `applyReorgShift`'s loops. -/
structure EngSt where
  lvl : ParsedLevel
  used : List GridPos
  accepted : List (GridPos × GridPos)
  mutatedKeys : List GridPos
  k : Nat
deriving Repr

/-- The inner retry loop of one mutation slot: find one accepted atomic
swap within `tries` attempts; `none` means the slot was not applied (the
grid is exactly as at entry). -/
def tryMutation (rng : Nat → Nat) (cfg : ReorgShiftConfig)
    (mask : List (List Bool)) (starts critical : List GridPos) :
    Nat → EngSt → Option EngSt
  | 0, _ => none
  | tries + 1, st =>
    let cands := collectAdjacentSwapCandidates st.lvl mask st.used
    if cands.length = 0 then none
    else
      let pick := (cands.get? (rng st.k % cands.length)).getD ⟨0, 0, 0, 0⟩
      let a : GridPos := ⟨pick.ax, pick.ay⟩
      let b : GridPos := ⟨pick.bx, pick.by'⟩
      let tA := tileAt st.lvl a.x a.y
      let tB := tileAt st.lvl b.x b.y
      -- Enforce wall <-> walkable swap.
      let okPair := (tA == TileType.wall && isMutableWalkable tB) ||
        (tB == TileType.wall && isMutableWalkable tA)
      if ¬ okPair then
        tryMutation rng cfg mask starts critical tries { st with k := st.k + 1 }
      else
        let lvl' := swapTiles st.lvl a b
        if passesChecks lvl' starts critical cfg.softlockMaxSteps then
          some
            { lvl := lvl'
              used := keyAdd (keyAdd st.used a) b
              accepted := st.accepted ++ [(a, b)]
              mutatedKeys := keyAdd (keyAdd st.mutatedKeys a) b
              k := st.k + 1 }
        else
          tryMutation rng cfg mask starts critical tries
            { st with lvl := swapTiles lvl' a b, k := st.k + 1 }

/-- Revert every accepted swap in reverse order. -/
def revertAccepted (accepted : List (GridPos × GridPos))
    (lvl : ParsedLevel) : ParsedLevel :=
  accepted.reverse.foldl (fun l p => swapTiles l p.1 p.2) lvl

/-- The outer mutation loop: `n` remaining mutation slots. -/
def runShift (rng : Nat → Nat) (cfg : ReorgShiftConfig)
    (mask : List (List Bool)) (starts critical : List GridPos) :
    Nat → EngSt → Bool × EngSt
  | 0, st => (true, st)
  | n + 1, st =>
    match tryMutation rng cfg mask starts critical cfg.maxTriesPerMutation st with
    | some st' => runShift rng cfg mask starts critical n st'
    | none =>
      -- Revert full shift to keep maze stable.
      (false, { st with lvl := revertAccepted st.accepted st.lvl })

/-- `applyReorgShift`: the public mutation-engine entry point.  Returns
the result record and the (possibly mutated) level. -/
def applyReorgShift (lvl : ParsedLevel) (rng : Nat → Nat)
    (cfg : ReorgShiftConfig) (protectedMask : List (List Bool))
    (starts critical : List GridPos) : ReorgShiftResult × ParsedLevel :=
  let st0 : EngSt := ⟨lvl, [], [], [], 0⟩
  let r := runShift rng cfg protectedMask starts critical cfg.mutations st0
  if r.1 then ({ ok := true, mutatedTiles := r.2.mutatedKeys }, r.2.lvl)
  else ({ ok := false, mutatedTiles := [] }, r.2.lvl)

/-! ## Level parsing (`levelParser.ts`) and validation (`levelValidator.ts`) -/

/-- Textual level (`LevelJson`). -/
structure LevelJson where
  id : Option String
  grid : List String
deriving DecidableEq, Repr, Inhabited

/-- `LEVEL_LEGEND`: legend characters to tiles. -/
def levelLegend : Char → Option TileType
  | '#' => some TileType.wall
  | '.' => some TileType.pellet
  | 'o' => some TileType.power
  | 'P' => some TileType.playerStart
  | 'G' => some TileType.ghostStart
  | ' ' => some TileType.empty
  -- Special markers (handled by gameplay systems).
  | 'A' => some TileType.empty
  | 'B' => some TileType.empty
  | '5' => some TileType.empty
  | _ => none

/-- `isLegendChar`. -/
def isLegendChar (c : Char) : Bool :=
  (levelLegend c).isSome

/-- A single-quote character, used to reproduce the code's error-message
text. -/
def sq : String :=
  String.singleton (Char.ofNat 39)

/-- The printable form of an offending character used by `parseLevel`. -/
def charPrintable (c : Char) : String :=
  if c = '\t' then "\\t"
  else if c = '\n' then "\\n"
  else if c = Char.ofNat 13 then "\\r"
  else String.singleton c

/-- Character `i` of a row string (`row[x]`), with a placeholder default
(reads are in range wherever the code performs them). -/
def strGet (s : String) (i : Nat) : Char :=
  s.data.getD i '?'

/-- The row-length error message of `parseLevel`. -/
def rowLengthMsg (y rowLen width : Nat) : String :=
  "Level.grid[" ++ toString y ++ "] length " ++ toString rowLen ++
    " does not match width " ++ toString width ++ "."

/-- The invalid-character error message of `parseLevel`. -/
def invalidCharMsg (c : Char) (x y : Nat) : String :=
  "Invalid char " ++ sq ++ charPrintable c ++ sq ++ " at (" ++ toString x ++
    ", " ++ toString y ++ ")."

/-- The per-row error collection pass of `parseLevel` (row-length check
followed by the per-character legend check). -/
def rowErrors (width : Nat) (y : Nat) (row : String) : List String :=
  (if row.length ≠ width then [rowLengthMsg y row.length width] else []) ++
    ((List.range row.length).flatMap fun x =>
      let ch := strGet row x
      if ¬ isLegendChar ch then [invalidCharMsg ch x y] else [])

/-- Accumulator of the index-building pass of `parseLevel`. -/
structure ParseAcc where
  tileMatrix : List (List TileType)
  ghostStarts : List GridPos
  pelletPositions : List GridPos
  bombPickupPositions : List GridPos
  boxPositions : List GridPos
  fruitSpawnPositions : List GridPos
  playerStarts : List GridPos
  startPos : Option GridPos
  playerStartCount : Nat
  pelletCount : Nat
  powerCount : Nat

/-- One cell of the index-building pass. -/
def parseCell (acc : ParseAcc) (x y : Nat) (ch : Char) : ParseAcc :=
  let p : GridPos := ⟨(x : Int), (y : Int)⟩
  if ch = 'P' then
    { acc with
      playerStartCount := acc.playerStartCount + 1
      playerStarts := acc.playerStarts ++ [p]
      startPos := if acc.startPos.isNone then some p else acc.startPos }
  else if ch = 'G' then { acc with ghostStarts := acc.ghostStarts ++ [p] }
  else if ch = '.' then
    { acc with
      pelletCount := acc.pelletCount + 1
      pelletPositions := acc.pelletPositions ++ [p] }
  else if ch = 'o' then
    { acc with
      powerCount := acc.powerCount + 1
      pelletPositions := acc.pelletPositions ++ [p] }
  else if ch = 'A' then
    { acc with bombPickupPositions := acc.bombPickupPositions ++ [p] }
  else if ch = 'B' then { acc with boxPositions := acc.boxPositions ++ [p] }
  else if ch = '5' then
    { acc with fruitSpawnPositions := acc.fruitSpawnPositions ++ [p] }
  else acc

/-- `parseLevel`: parse a textual grid into a `ParsedLevel`, or fail with
the complete list of collected errors (`LevelParseError.errors`). -/
def parseLevel (level : LevelJson) : Except (List String) ParsedLevel :=
  if level.grid.length = 0 then
    Except.error ["Level.grid must be a non-empty string array."]
  else
    let rawGrid := level.grid
    let height := rawGrid.length
    let width := (rawGrid.headD "").length
    let errors :=
      (if width = 0 then ["Level.grid rows must not be empty."] else []) ++
        (rawGrid.enum.flatMap fun rowIdx => rowErrors width rowIdx.1 rowIdx.2)
    if errors ≠ [] then Except.error errors
    else
      let acc0 : ParseAcc := ⟨[], [], [], [], [], [], [], none, 0, 0, 0⟩
      let acc := rawGrid.enum.foldl
        (fun (acc : ParseAcc) rowIdx =>
          let y := rowIdx.1
          let row := rowIdx.2
          let tileRow := (List.range width).map fun x =>
            (levelLegend (strGet row x)).getD TileType.empty
          let acc' := (List.range width).foldl
            (fun a x => parseCell a x y (strGet row x)) acc
          { acc' with tileMatrix := acc'.tileMatrix ++ [tileRow] })
        acc0
      Except.ok
        { id := level.id
          width := width
          height := height
          rawGrid := rawGrid
          tileMatrix := acc.tileMatrix
          startPos := acc.startPos
          playerStartCount := acc.playerStartCount
          playerStarts := acc.playerStarts
          ghostStarts := acc.ghostStarts
          pelletCount := acc.pelletCount
          powerCount := acc.powerCount
          pelletPositions := acc.pelletPositions
          bombPickupPositions := acc.bombPickupPositions
          boxPositions := acc.boxPositions
          fruitSpawnPositions := acc.fruitSpawnPositions }

/-- `ValidationResult`. -/
structure ValidationResult where
  ok : Bool
  errors : List String
deriving DecidableEq, Repr

/-- The tunnel-pair message of `borderRules.checkPair`. -/
def tunnelMismatchMsg (axis : String) (a : Char) (ax ay : Nat) (b : Char)
    (bx bY : Nat) : String :=
  "Tunnel mismatch (" ++ axis ++ "): (" ++ toString ax ++ ", " ++
    toString ay ++ ") is " ++ sq ++ String.singleton a ++ sq ++ ", but (" ++
    toString bx ++ ", " ++ toString bY ++ ") is " ++ sq ++
    String.singleton b ++ sq ++ " (both must be wall or tunnel)."

/-- The invalid-tunnel-tile message of `borderRules.checkPair`. -/
def invalidTunnelMsg (a : Char) (ax ay : Nat) : String :=
  "Invalid tunnel tile at (" ++ toString ax ++ ", " ++ toString ay ++ "): " ++
    sq ++ String.singleton a ++ sq ++ ". Use " ++ sq ++ " " ++ sq ++ " or " ++
    sq ++ "." ++ sq ++ ", " ++ sq ++ "o" ++ sq ++ ", " ++ sq ++ "A" ++ sq ++
    ", " ++ sq ++ "5" ++ sq ++ "."

/-- `checkPair` of `borderRules`. -/
def checkPair (a : Char) (ax ay : Nat) (b : Char) (bx bY : Nat)
    (axis : String) : List String :=
  let aWall := a == '#'
  let bWall := b == '#'
  if aWall && bWall then []
  else if aWall != bWall then [tunnelMismatchMsg axis a ax ay b bx bY]
  else
    -- Both are tunnels: must be allowed tunnel chars.
    (if ¬ isAllowedBorderTunnelChar a then [invalidTunnelMsg a ax ay] else []) ++
      (if ¬ isAllowedBorderTunnelChar b then [invalidTunnelMsg b bx bY] else [])

/-- `borderRules` of `levelValidator.ts`. -/
def borderRules (grid : List String) (width height : Nat) : List String :=
  if width < 3 ∨ height < 3 then
    ["Level must be at least 3x3, got " ++ toString width ++ "x" ++
      toString height ++ "."]
  else
    -- Left/right pairing per row.
    ((List.range height).flatMap fun y =>
      let row := grid.getD y ""
      checkPair (strGet row 0) 0 y (strGet row (width - 1)) (width - 1) y
        "horizontal") ++
      -- Top/bottom pairing per column.
      ((List.range width).flatMap fun x =>
        checkPair (strGet (grid.headD "") x) x 0
          (strGet (grid.getD (height - 1) "") x) x (height - 1) "vertical")

/-- The unreachable-pellet message of `pelletsReachableFromStart`. -/
def pelletUnreachableMsg (x y : Int) : String :=
  "Pellet at (" ++ toString x ++ ", " ++ toString y ++
    ") is not reachable from PlayerStart."

/-- `pelletsReachableFromStart`: BFS (wrap-aware) from every player
start, then one error per unreached pellet position. -/
def pelletsReachableFromStart (parsed : ParsedLevel) (starts : List GridPos)
    (pelletPositions : List GridPos) : List String :=
  let seed := starts.foldl
    (fun (st : List (List Bool) × List GridPos) s =>
      if s.x < 0 ∨ s.y < 0 ∨ (parsed.width : Int) ≤ s.x ∨
          (parsed.height : Int) ≤ s.y then st
      else if cellAtD st.1 s.x s.y false then st
      else (setCell st.1 s.x s.y true, st.2 ++ [s]))
    (falseGrid parsed.width parsed.height, [])
  let visited := bfsLoop parsed (parsed.width * parsed.height + 1) seed.2 seed.1
  pelletPositions.flatMap fun pellet =>
    if ¬ cellAtD visited pellet.x pellet.y false then
      [pelletUnreachableMsg pellet.x pellet.y]
    else []

/-- `validateLevel` of `levelValidator.ts`: parse, then collect every
rule violation. -/
def validateLevel (level : LevelJson) : ValidationResult :=
  match parseLevel level with
  | Except.error errs => { ok := false, errors := errs }
  | Except.ok parsed =>
    let errors :=
      borderRules parsed.rawGrid parsed.width parsed.height ++
        (if parsed.playerStartCount < 1 ∨ 2 < parsed.playerStartCount then
          ["Expected 1 or 2 PlayerStart " ++ sq ++ "P" ++ sq ++ ", found " ++
            toString parsed.playerStartCount ++ "."]
        else []) ++
        (if parsed.pelletCount < 1 then
          ["Expected at least 1 Pellet " ++ sq ++ "." ++ sq ++ "."]
        else []) ++
        (if parsed.ghostStarts.length < 1 then
          ["Expected at least 1 GhostStart " ++ sq ++ "G" ++ sq ++ "."]
        else []) ++
        (if 0 < parsed.playerStarts.length ∧ 0 < parsed.pelletCount then
          pelletsReachableFromStart parsed parsed.playerStarts
            parsed.pelletPositions
        else [])
    { ok := errors.length = 0, errors := errors }

/-! ## Seeded PRNGs

`rng.ts` (xmur3 string hash + mulberry32, used by the game loop and the
mutation engine) and the generator-local `seededRng` of `pacRogue.ts`
(FNV-1a-style string hash + xorshift32).  32-bit JS bit patterns are
`Nat` values below `2 ^ 32`; `Math.imul`, `x | 0` and `>>> 0` all reduce
to arithmetic modulo `2 ^ 32` on those patterns. -/

def u32 : Nat := 2 ^ 32

/-- `Math.imul` at the bit-pattern level. -/
def imul32 (a b : Nat) : Nat := (a * b) % u32

/-- `<<` (with the implicit 32-bit truncation of JS bitwise ops). -/
def shl32 (a n : Nat) : Nat := (a <<< n) % u32

/-- Character codes of a string (`charCodeAt`; for the BMP characters
appearing in seeds this is the code point). -/
def charCodes (s : String) : List Nat :=
  s.data.map Char.toNat

/-- `stringToSeed32` (xmur3) from `rng.ts`. -/
def stringToSeed32 (str : String) : Nat :=
  let h0 := Nat.xor 1779033703 (str.length % u32)
  let h := (charCodes str).foldl
    (fun h c =>
      let h1 := imul32 (Nat.xor h c) 3432918353
      Nat.lor (shl32 h1 13) (h1 >>> 19))
    h0
  let h1 := imul32 (Nat.xor h (h >>> 16)) 2246822507
  let h2 := imul32 (Nat.xor h1 (h1 >>> 13)) 3266489909
  Nat.xor h2 (h2 >>> 16)

/-- One `mulberry32` step: new state and output pattern. -/
def mulberry32Step (a : Nat) : Nat × Nat :=
  let a1 := (a + 0x6d2b79f5) % u32
  let t1 := imul32 (Nat.xor a1 (a1 >>> 15)) (Nat.lor a1 1)
  let sum := (t1 + imul32 (Nat.xor t1 (t1 >>> 7)) (Nat.lor t1 61)) % u32
  let t2 := Nat.xor t1 sum
  (a1, Nat.xor t2 (t2 >>> 14))

/-- State of `mulberry32` after `n` outputs for a given 32-bit seed. -/
def mulberry32State (seed : Nat) : Nat → Nat
  | 0 => seed % u32
  | n + 1 => (mulberry32Step (mulberry32State seed n)).1

/-- The `n`-th (0-based) raw 32-bit output of `mulberry32(seed)`. -/
def mulberry32Out (seed : Nat) (n : Nat) : Nat :=
  (mulberry32Step (mulberry32State seed n)).2

/-- The `n`-th float of `createRng(seedString).nextFloat()`:
`mulberry32(stringToSeed32(seedString))` scaled to `[0,1)`. -/
def createRngFloat (seedString : String) (n : Nat) : ℚ :=
  (mulberry32Out (stringToSeed32 seedString) n : ℚ) / (u32 : ℚ)

/-- `nextInt(minInclusive, maxExclusive)` of `createRng` for integer
bounds (the game always passes integers): `min + floor(frac * (max - min))`. -/
def createRngNextInt (seedString : String) (n : Nat) (lo hi : Int) : Int :=
  if hi ≤ lo then lo
  else lo + ⌊createRngFloat seedString n * ((hi - lo : Int) : ℚ)⌋

/-- The FNV-1a-style string hash inside `seededRng` of `pacRogue.ts`,
including the zero-state fixup. -/
def fnvSeed (seed : String) : Nat :=
  let x := (charCodes seed).foldl
    (fun x c => imul32 (Nat.xor x c) 0x01000193) 0x811c9dc5
  if x = 0 then 0x12345678 else x

/-- One xorshift32 step (`x ^= x << 13; x ^= x >>> 17; x ^= x << 5`). -/
def xorshiftStep (x : Nat) : Nat :=
  let x1 := Nat.xor x (shl32 x 13)
  let x2 := Nat.xor x1 (x1 >>> 17)
  Nat.xor x2 (shl32 x2 5)

/-- State of the generator's `seededRng` stream after `n` draws. -/
def xorshiftState (seed : String) : Nat → Nat
  | 0 => fnvSeed seed
  | n + 1 => xorshiftStep (xorshiftState seed n)

/-- The `n`-th (0-based) float drawn from `seededRng(seed)`:
`x / 0xffffffff` after the `n + 1`-st state update. -/
def seededRngFloat (seed : String) (n : Nat) : ℚ :=
  (xorshiftState seed (n + 1) : ℚ) / ((u32 - 1 : Nat) : ℚ)

/-- One draw of the generator rng from an explicit state: output float
and successor state (the closure mutates `x` then divides). -/
def genRngStep (x : Nat) : ℚ × Nat :=
  let x1 := xorshiftStep x
  (((x1 : ℚ) / ((u32 - 1 : Nat) : ℚ)), x1)

/-! ## Pac-Rogue generator (`pacRogue.ts`) -/

/-- Difficulty levels (`settings.ts`). -/
inductive Difficulty where
  | easy
  | normal
  | hard
deriving DecidableEq, Repr, Inhabited

/-- The difficulty's string form. -/
def Difficulty.str : Difficulty → String
  | Difficulty.easy => "easy"
  | Difficulty.normal => "normal"
  | Difficulty.hard => "hard"

/-- Tile-group connection directions of the generator (`Direction` local
to `pacRogue.ts`; `y` grows upward in generator space). -/
inductive GenDir where
  | north
  | south
  | east
  | west
deriving DecidableEq, Repr

/-- The 12 predefined 3x3 micro-pattern shapes (`Shape`). -/
inductive Shape where
  | plus
  | triNorth
  | triSouth
  | triEast
  | triWest
  | cornerNE
  | cornerSE
  | cornerNW
  | cornerSW
  | lineV
  | lineH
  | empty
deriving DecidableEq, Repr, Inhabited

/-- `ALL_SHAPES` in source order. -/
def ALL_SHAPES : List Shape :=
  [Shape.plus, Shape.triNorth, Shape.triSouth, Shape.triEast, Shape.triWest,
    Shape.cornerNE, Shape.cornerSE, Shape.cornerNW, Shape.cornerSW,
    Shape.lineV, Shape.lineH, Shape.empty]

/-- `CONNECTIONS`: which shapes connect outward in each direction. -/
def CONNECTIONS : GenDir → List Shape
  | GenDir.north =>
    [Shape.plus, Shape.triNorth, Shape.triEast, Shape.triWest,
      Shape.cornerNE, Shape.cornerNW, Shape.lineV]
  | GenDir.south =>
    [Shape.plus, Shape.triSouth, Shape.triEast, Shape.triWest,
      Shape.cornerSE, Shape.cornerSW, Shape.lineV]
  | GenDir.east =>
    [Shape.plus, Shape.triNorth, Shape.triSouth, Shape.triEast,
      Shape.cornerNE, Shape.cornerSE, Shape.lineH]
  | GenDir.west =>
    [Shape.plus, Shape.triNorth, Shape.triSouth, Shape.triWest,
      Shape.cornerNW, Shape.cornerSW, Shape.lineH]

/-- `opposite` on generator directions. -/
def oppositeG : GenDir → GenDir
  | GenDir.north => GenDir.south
  | GenDir.south => GenDir.north
  | GenDir.east => GenDir.west
  | GenDir.west => GenDir.east

/-- `nonConnections`: the complement of `CONNECTIONS[dir]`. -/
def nonConnections (dir : GenDir) : List Shape :=
  ALL_SHAPES.filter fun s => s ∉ CONNECTIONS dir

/-- `invalidNeighborShapes`. -/
def invalidNeighborShapes (current : Shape) (neighborDir : GenDir) :
    List Shape :=
  if current ∈ CONNECTIONS neighborDir then nonConnections (oppositeG neighborDir)
  else CONNECTIONS (oppositeG neighborDir)

/-- `intersectRemovals`: shapes invalid for every current possibility. -/
def intersectRemovals (currentOptions : List Shape) (dir : GenDir) :
    List Shape :=
  if currentOptions.isEmpty then []
  else
    ALL_SHAPES.filter fun sh =>
      currentOptions.all fun s => sh ∈ invalidNeighborShapes s dir

/-- Candidate-shape grid of the constraint pass, indexed `[x][y]`. -/
abbrev OptGrid := List (List (List Shape))

/-- Read `options[x][y]` (empty when out of range; never hit in range). -/
def oget (o : OptGrid) (x y : Int) : List Shape :=
  if x < 0 ∨ y < 0 then []
  else ((o.get? x.toNat).bind fun col => col.get? y.toNat).getD []

/-- Write `options[x][y]`. -/
def oset (o : OptGrid) (x y : Int) (v : List Shape) : OptGrid :=
  if x < 0 ∨ y < 0 then o
  else
    match o.get? x.toNat with
    | none => o
    | some col => o.set x.toNat (col.set y.toNat v)

/-- Group-lattice bounds check (`inBounds`). -/
def inBoundsG (gw gh : Nat) (x y : Int) : Bool :=
  0 ≤ x && 0 ≤ y && x < (gw : Int) && y < (gh : Int)

/-- The arc-consistency work-queue of `updateNeighbors`.  The fuel
strictly exceeds `2 * 12 * gw * gh + 1`: every dequeue removes one entry
and every enqueue is paired with a strict shrink of some cell's
candidate set, whose total size starts at `12 * gw * gh`. -/
def updateNeighborsLoop (gw gh : Nat) :
    Nat → List (Int × Int) → OptGrid → OptGrid
  | 0, _, o => o
  | _ + 1, [], o => o
  | fuel + 1, cur :: queue, o =>
    let currentOpts := oget o cur.1 cur.2
    let neighbors : List (GenDir × Int × Int) :=
      [(GenDir.north, cur.1, cur.2 + 1), (GenDir.south, cur.1, cur.2 - 1),
        (GenDir.east, cur.1 + 1, cur.2), (GenDir.west, cur.1 - 1, cur.2)]
    let st := neighbors.foldl
      (fun (st : OptGrid × List (Int × Int)) n =>
        if ¬ inBoundsG gw gh n.2.1 n.2.2 then st
        else
          let nextOpts := oget st.1 n.2.1 n.2.2
          if nextOpts.length ≤ 1 then st
          else
            let rem := intersectRemovals currentOpts (oppositeG n.1)
            if rem.length = 0 then st
            else
              let reduced := nextOpts.filter fun s => s ∉ rem
              if reduced.length = 0 ∨ reduced.length = nextOpts.length then st
              else (oset st.1 n.2.1 n.2.2 reduced, st.2 ++ [(n.2.1, n.2.2)]))
      (o, queue)
    updateNeighborsLoop gw gh fuel st.2 st.1

/-- `updateNeighbors(x, y)`. -/
def updateNeighbors (gw gh : Nat) (o : OptGrid) (x y : Int) : OptGrid :=
  updateNeighborsLoop gw gh (24 * gw * gh + 2) [(x, y)] o

/-- One conditional border restriction (`removeAll` + shrink check). -/
def borderRestrict (o : OptGrid) (x y : Int) (conns : List Shape) :
    OptGrid × Bool :=
  let before := oget o x y
  let after := before.filter fun s => s ∉ conns
  if 0 < after.length ∧ after.length ≠ before.length then
    (oset o x y after, true)
  else (o, false)

/-- The border-constraint pass of `generateTileGroups`. -/
def applyBorderConstraints (gw gh : Nat) (o : OptGrid) : OptGrid :=
  (List.range gw).foldl
    (fun o xn =>
      (List.range gh).foldl
        (fun o yn =>
          let x : Int := xn
          let y : Int := yn
          let s1 :=
            if x = 0 then borderRestrict o x y (CONNECTIONS GenDir.west)
            else (o, false)
          let s2 :=
            if y = 0 then borderRestrict s1.1 x y (CONNECTIONS GenDir.south)
            else (s1.1, false)
          let s3 :=
            if y = (gh : Int) - 1 then
              borderRestrict s2.1 x y (CONNECTIONS GenDir.north)
            else (s2.1, false)
          if s1.2 || s2.2 || s3.2 then updateNeighbors gw gh s3.1 x y
          else s3.1)
        o)
    o

/-- Per-shape base weight of `pickWeightedShape` (exact rationals for
the JS float literals). -/
def shapeBase : Shape → ℚ
  | Shape.empty => 1 / 4
  | Shape.plus => 27 / 20
  | Shape.lineV => 23 / 20
  | Shape.lineH => 23 / 20
  | _ => 1

/-- The difficulty-dependent factor on the `empty` shape's weight. -/
def emptyFactor : Difficulty → ℚ
  | Difficulty.easy => 1 / 4
  | Difficulty.hard => 13 / 10
  | Difficulty.normal => 7 / 10

/-- The subtract-until-nonpositive scan of `pickWeightedShape`. -/
def pickLoop : List (Shape × ℚ) → ℚ → Option Shape
  | [], _ => none
  | (s, w) :: rest, r => if r - w ≤ 0 then some s else pickLoop rest (r - w)

/-- `pickWeightedShape`: difficulty-weighted random pick; consumes one
draw of the generator rng (state `x`). -/
def pickWeightedShape (difficulty : Difficulty) (available : List Shape)
    (x : Nat) : Shape × Nat :=
  let weights := available.map fun s =>
    let w := shapeBase s
    if s = Shape.empty then w * emptyFactor difficulty else w
  let total := weights.sum
  if total ≤ 0 then
    let d := genRngStep x
    (((available.get? (⌊d.1 * available.length⌋).toNat).getD Shape.empty), d.2)
  else
    let d := genRngStep x
    ((pickLoop (available.zip weights) (d.1 * total)).getD
      ((available.getLast?).getD Shape.empty), d.2)

/-- The random resolution loop of `generateTileGroups`: visit unresolved
groups in rng order, committing one shape per group.  One list entry is
spliced away per iteration, so `remaining.length` bounds the recursion. -/
def resolveLoop (gw gh : Nat) (difficulty : Difficulty) :
    Nat → List (Int × Int) → OptGrid → Nat → OptGrid × Nat
  | 0, _, o, x => (o, x)
  | _ + 1, [], o, x => (o, x)
  | fuel + 1, remaining, o, x =>
    let d := genRngStep x
    let idx := (⌊d.1 * remaining.length⌋).toNat
    let pos := (remaining.get? idx).getD (0, 0)
    let remaining' := remaining.eraseIdx idx
    let cur := oget o pos.1 pos.2
    if 1 < cur.length then
      let pk := pickWeightedShape difficulty cur d.2
      let o' := oset o pos.1 pos.2 [pk.1]
      resolveLoop gw gh difficulty fuel remaining'
        (updateNeighbors gw gh o' pos.1 pos.2) pk.2
    else resolveLoop gw gh difficulty fuel remaining' o d.2

/-- `generateTileGroups`: constraint propagation plus rng-driven
resolution; returns the committed shape per group and the rng state. -/
def generateTileGroups (gw gh : Nat) (difficulty : Difficulty) (x : Nat) :
    List (List Shape) × Nat :=
  let options : OptGrid :=
    List.replicate gw (List.replicate gh ALL_SHAPES)
  let options := applyBorderConstraints gw gh options
  let remaining : List (Int × Int) :=
    (List.range gw).flatMap fun xn =>
      (List.range gh).map fun yn => ((xn : Int), (yn : Int))
  let r := resolveLoop gw gh difficulty (remaining.length + 1) remaining
    options x
  (r.1.map fun col => col.map fun cell => cell.headD Shape.empty, r.2)

/-- 3x3 pellet layout per shape (`shapeDefinition`), indexed `[x][y]`
with `y` growing upward; `true` = walkable (pellet). -/
def shapeDefinition (shape : Shape) : List (List Bool) :=
  match shape with
  | Shape.plus => [[false, true, false], [true, true, true], [false, true, false]]
  | Shape.triNorth => [[false, true, false], [false, true, true], [false, true, false]]
  | Shape.triSouth => [[false, true, false], [true, true, false], [false, true, false]]
  | Shape.triEast => [[false, false, false], [true, true, true], [false, true, false]]
  | Shape.triWest => [[false, true, false], [true, true, true], [false, false, false]]
  | Shape.cornerNE => [[false, false, false], [false, true, true], [false, true, false]]
  | Shape.cornerSE => [[false, false, false], [true, true, false], [false, true, false]]
  | Shape.cornerNW => [[false, true, false], [false, true, true], [false, false, false]]
  | Shape.cornerSW => [[false, true, false], [true, true, false], [false, false, false]]
  | Shape.lineV => [[false, false, false], [true, true, true], [false, false, false]]
  | Shape.lineH => [[false, true, false], [false, true, false], [false, true, false]]
  | Shape.empty => [[false, false, false], [false, false, false], [false, false, false]]

/-- The generator's character grid: rows top to bottom, as emitted. -/
abbrev GenGrid := List (List Char)

/-- The generator's `get(x, y)` (bottom-left origin: row `height-1-y`). -/
def gget (width height : Nat) (g : GenGrid) (x y : Int) : Option Char :=
  if x < 0 ∨ y < 0 ∨ (width : Int) ≤ x ∨ (height : Int) ≤ y then none
  else cellAt g x ((height : Int) - 1 - y)

/-- The generator's `set(x, y, v)`. -/
def gset (width height : Nat) (g : GenGrid) (x y : Int) (v : Char) : GenGrid :=
  if x < 0 ∨ y < 0 ∨ (width : Int) ≤ x ∨ (height : Int) ≤ y then g
  else setCell g x ((height : Int) - 1 - y) v

/-- The generator's `isWall(x, y)`. -/
def isWallG (width height : Nat) (g : GenGrid) (x y : Int) : Bool :=
  gget width height g x y == some '#'

/-- The generator's `setPellet(x, y)`: open a wall into a pellet. -/
def setPelletAt (width height : Nat) (g : GenGrid) (x y : Int) : GenGrid :=
  match gget width height g x y with
  | none => g
  | some c => if c = '#' then gset width height g x y '.' else g

/-- Inclusive integer range `[a..b]` in ascending order. -/
def intRange (a b : Int) : List Int :=
  (List.range (b - a + 1).toNat).map fun i => a + (i : Int)

/-- Step 2: expand each committed group shape into its 3x3 tiles. -/
def expandGroups (width height gw gh : Nat) (defs : List (List Shape))
    (g : GenGrid) : GenGrid :=
  (List.range gw).foldl
    (fun g gx =>
      (List.range gh).foldl
        (fun g gy =>
          let dfn := shapeDefinition
            (((defs.get? gx).bind fun col => col.get? gy).getD Shape.empty)
          (List.range 3).foldl
            (fun g (lx : Nat) =>
              (List.range 3).foldl
                (fun g (ly : Nat) =>
                  let x : Int := (lx : Int) + (gx : Int) * 3
                  let y : Int := (ly : Int) + (gy : Int) * 3
                  let v := ((dfn.get? lx).bind fun col => col.get? ly).getD false
                  gset width height g x y (if v then '.' else '#'))
                g)
            g)
        g)
    g

/-- `mirrorLeftToRight`: copy the left half onto the right half. -/
def mirrorLeftToRight (width height : Nat) (g : GenGrid) : GenGrid :=
  (List.range height).foldl
    (fun g yn =>
      (List.range width).foldl
        (fun g xn =>
          let x : Int := xn
          let y : Int := yn
          let mx : Int := (width : Int) - 1 - x
          if mx < x then g
          else
            match gget width height g x y with
            | none => g
            | some v => gset width height g mx y v)
        g)
    g

/-- `enforceBorderWalls`: force all four border edges to walls. -/
def enforceBorderWalls (width height : Nat) (g : GenGrid) : GenGrid :=
  let g1 := (List.range width).foldl
    (fun g xn =>
      gset width height (gset width height g (xn : Int) 0 '#') (xn : Int)
        ((height : Int) - 1) '#')
    g
  (List.range height).foldl
    (fun g yn =>
      gset width height (gset width height g 0 (yn : Int) '#')
        ((width : Int) - 1) (yn : Int) '#')
    g1

/-- `clampInt` (for the integer values the generator passes around). -/
def clampInt (v lo hi : Int) : Int :=
  max lo (min hi v)

/-- The ghost-house rectangle returned by `carveGhostBox`. -/
structure GhostBox where
  x0 : Int
  y0 : Int
  x1 : Int
  y1 : Int
deriving DecidableEq, Repr

/-- The ghost-box rectangle as a function of the grid dimensions (the
arithmetic prelude of `carveGhostBox`; the box does not depend on the
grid contents). -/
def ghostBoxRect (width height : Nat) : GhostBox :=
  let boxWidth := clampInt 14 7 (max 7 ((width : Int) - 2))
  let boxHeight := clampInt 11 7 (max 7 ((height : Int) - 2))
  let halfHeight := ((height : Int) - 1) / 2
  let halfWidth := (width : Int) / 2
  let ghostBoxHalfHeight := (boxHeight - 1) / 2
  let ghostBoxHalfWidth := boxWidth / 2
  let startX := halfWidth - ghostBoxHalfWidth
  let startY := halfHeight - ghostBoxHalfHeight + 1
  let x0 := clampInt startX 1 ((width : Int) - 2)
  let y0 := clampInt startY 1 ((height : Int) - 2)
  let x1 := clampInt (startX + boxWidth - 1) 1 ((width : Int) - 2)
  let y1 := clampInt (startY + boxHeight - 1) 1 ((height : Int) - 2)
  ⟨x0, y0, x1, y1⟩

/-- `carveGhostBox`: hollow walled box with a door and a short corridor;
also returns the protected interior ("ghost space") tile list. -/
def carveGhostBox (width height : Nat) (g : GenGrid) :
    GenGrid × List GridPos × GhostBox :=
  let x0 := (ghostBoxRect width height).x0
  let y0 := (ghostBoxRect width height).y0
  let x1 := (ghostBoxRect width height).x1
  let y1 := (ghostBoxRect width height).y1
  let st := (intRange y0 y1).foldl
    (fun (st : GenGrid × List GridPos) y =>
      (intRange x0 x1).foldl
        (fun (st : GenGrid × List GridPos) x =>
          let onBorder := x = x0 ∨ x = x1 ∨ y = y0 ∨ y = y1
          let g' := gset width height st.1 x y (if onBorder then '#' else ' ')
          if onBorder then (g', st.2) else (g', st.2 ++ [⟨x, y⟩]))
        st)
    (g, [])
  -- Door opening (top edge), plus a short corridor above it.
  let doorX := (x0 + x1) / 2
  let g' := gset width height st.1 doorX y1 ' '
  let g' := gset width height g' doorX (y1 + 1) '.'
  let g' := gset width height g' doorX (y1 + 2) '.'
  (g', st.2, ⟨x0, y0, x1, y1⟩)

/-- Incorrect-pattern codes (`[C, NW, N, NE, W, E, SW, S, SE]`, `1` =
occupied). -/
def INCORRECT_BIG_C : String := "111110111"
def INCORRECT_SMALL_C : String := "101100011"
def INCORRECT_TL : String := "111100011"
def INCORRECT_CRANE : String := "101100111"
def INCORRECT_BIG_C_REVERSE : String := "111101111"
def INCORRECT_SMALL_C_REVERSE : String := "111000110"
def INCORRECT_TL_REVERSE : String := "111100110"
def INCORRECT_CRANE_REVERSE : String := "111000111"
def INCORRECT_U : String := "110111111"
def INCORRECT_U_UPSIDEDOWN : String := "111111101"
def INCORRECT_OCCUPIED : String := "101000010"

/-- `determineTileCode`: the 9-character occupancy code around a tile. -/
def determineTileCode (width height : Nat) (g : GenGrid) (x y : Int) :
    String :=
  let coords : List (Int × Int) :=
    [(x, y), (x - 1, y + 1), (x, y + 1), (x + 1, y + 1), (x - 1, y),
      (x + 1, y), (x - 1, y - 1), (x, y - 1), (x + 1, y - 1)]
  coords.foldl
    (fun code c =>
      if c.1 < 0 ∨ c.2 < 0 ∨ (width : Int) ≤ c.1 ∨ (height : Int) ≤ c.2 then
        code ++ "1"
      else code ++ (if isWallG width height g c.1 c.2 then "1" else "0"))
    ""

/-- One full-grid sweep of `addPelletsToWidth` (returns the re-update
flag set by the big-C case). -/
def scanWidthOnce (width height : Nat) (st : GenGrid × Bool) :
    GenGrid × Bool :=
  (List.range width).foldl
    (fun st xn =>
      (List.range height).foldl
        (fun (st : GenGrid × Bool) yn =>
          let x : Int := xn
          let y : Int := yn
          if ¬ isWallG width height st.1 x y then st
          else
            let code := determineTileCode width height st.1 x y
            if code = INCORRECT_BIG_C then
              (setPelletAt width height (setPelletAt width height st.1 x y)
                (x - 1) y, true)
            else if code = INCORRECT_SMALL_C ∨ code = INCORRECT_TL ∨
                code = INCORRECT_CRANE then
              (setPelletAt width height st.1 x y, st.2)
            else if code = INCORRECT_BIG_C_REVERSE then
              (setPelletAt width height (setPelletAt width height st.1 x y)
                (x + 1) y, st.2)
            else if code = INCORRECT_SMALL_C_REVERSE ∨
                code = INCORRECT_TL_REVERSE ∨
                code = INCORRECT_CRANE_REVERSE then
              (setPelletAt width height st.1 x y, st.2)
            else st)
        st)
    st

/-- The do/while around `scanWidthOnce`; every repeating sweep opens at
least one wall, so `width * height + 1` sweeps of fuel always suffice. -/
def addPelletsToWidth (width height : Nat) : Nat → GenGrid → GenGrid
  | 0, g => g
  | fuel + 1, g =>
    let st := scanWidthOnce width height (g, false)
    if st.2 then addPelletsToWidth width height fuel st.1 else st.1

/-- The downward chain walk of the `INCORRECT_U` case. -/
def uWalkDown (width height : Nat) : Nat → GenGrid → Int → Int → GenGrid
  | 0, g, _, _ => g
  | fuel + 1, g, x, cy =>
    let sy := cy - 1
    if sy ≤ 0 then g
    else
      let inside := (gget width height g x sy).isSome ∧
        (gget width height g (x + 1) sy).isSome ∧
        (gget width height g (x - 1) sy).isSome
      if ¬ inside then g
      else
        let allOccupied := isWallG width height g x sy &&
          isWallG width height g (x + 1) sy &&
          isWallG width height g (x - 1) sy
        let g' := setPelletAt width height g x sy
        if ¬ allOccupied then g'
        else uWalkDown width height fuel g' x (cy - 1)

/-- The upward chain walk of the `INCORRECT_U_UPSIDEDOWN` case. -/
def uWalkUp (width height : Nat) : Nat → GenGrid → Int → Int → GenGrid
  | 0, g, _, _ => g
  | fuel + 1, g, x, cy =>
    let ny := cy + 1
    if (height : Int) - 1 ≤ ny then g
    else
      let inside := (gget width height g x ny).isSome ∧
        (gget width height g (x + 1) ny).isSome ∧
        (gget width height g (x - 1) ny).isSome
      if ¬ inside then g
      else
        let allOccupied := isWallG width height g x ny &&
          isWallG width height g (x + 1) ny &&
          isWallG width height g (x - 1) ny
        let g' := setPelletAt width height g x ny
        if ¬ allOccupied then g'
        else uWalkUp width height fuel g' x (cy + 1)

/-- One full-grid sweep of `addPelletsToHeight`. -/
def scanHeightOnce (width height : Nat) (st : GenGrid × Bool) :
    GenGrid × Bool :=
  (List.range width).foldl
    (fun st xn =>
      (List.range height).foldl
        (fun (st : GenGrid × Bool) yn =>
          let x : Int := xn
          let y : Int := yn
          if ¬ isWallG width height st.1 x y then st
          else
            let code := determineTileCode width height st.1 x y
            if code = INCORRECT_U then
              (uWalkDown width height (height + 1)
                (setPelletAt width height st.1 x y) x y, true)
            else if code = INCORRECT_U_UPSIDEDOWN then
              (uWalkUp width height (height + 1)
                (setPelletAt width height st.1 x y) x y, true)
            else st)
        st)
    st

/-- The do/while around `scanHeightOnce`. -/
def addPelletsToHeight (width height : Nat) : Nat → GenGrid → GenGrid
  | 0, g => g
  | fuel + 1, g =>
    let st := scanHeightOnce width height (g, false)
    if st.2 then addPelletsToHeight width height fuel st.1 else st.1

/-- `addMissingPellets`: both fixpoint repair phases. -/
def addMissingPellets (width height : Nat) (g : GenGrid) : GenGrid :=
  addPelletsToHeight width height (width * height + 1)
    (addPelletsToWidth width height (width * height + 1) g)

/-- Insertion-ordered key add used by `removeIncorrectTiles.add`
(bounds-checked). -/
def addOpenKey (width height : Nat) (acc : List GridPos) (x y : Int) :
    List GridPos :=
  if x < 0 ∨ y < 0 ∨ (width : Int) ≤ x ∨ (height : Int) ≤ y then acc
  else if (⟨x, y⟩ : GridPos) ∈ acc then acc
  else acc ++ [⟨x, y⟩]

/-- `removeIncorrectTiles`: open the `INCORRECT_OCCUPIED` pockets
(center plus vertical neighbors), skipping ghost-space-adjacent tiles. -/
def removeIncorrectTiles (width height : Nat) (ghostSpace : List GridPos)
    (g : GenGrid) : GenGrid :=
  let toOpen := (List.range width).foldl
    (fun acc xn =>
      (List.range height).foldl
        (fun acc yn =>
          let x : Int := xn
          let y : Int := yn
          if ¬ isWallG width height g x y then acc
          else if determineTileCode width height g x y ≠ INCORRECT_OCCUPIED then
            acc
          else
            addOpenKey width height
              (addOpenKey width height (addOpenKey width height acc x y) x
                (y + 1)) x (y - 1))
        acc)
    []
  toOpen.foldl
    (fun g k =>
      let ghostTile := (⟨k.x + 1, k.y⟩ : GridPos) ∈ ghostSpace ∨
        (⟨k.x - 1, k.y⟩ : GridPos) ∈ ghostSpace
      if ghostTile then g
      else if gget width height g k.x k.y = some '#' then
        gset width height g k.x k.y '.'
      else g)
    g

/-- `dirVec` on generator directions (`y` grows upward). -/
def dirVecG : GenDir → Int × Int
  | GenDir.north => (0, 1)
  | GenDir.south => (0, -1)
  | GenDir.east => (1, 0)
  | GenDir.west => (-1, 0)

/-- The interior flood fill of `findComponent`: visits 4-neighbors
strictly inside the border ring.  Returns (component, visited), both in
insertion order. -/
def compBfs (width height : Nat) (g : GenGrid) :
    Nat → List GridPos → List GridPos → List GridPos →
    List GridPos × List GridPos
  | 0, _, comp, visited => (comp, visited)
  | _ + 1, [], comp, visited => (comp, visited)
  | fuel + 1, cur :: queue, comp, visited =>
    let neigh : List GridPos :=
      [⟨cur.x, cur.y + 1⟩, ⟨cur.x, cur.y - 1⟩, ⟨cur.x + 1, cur.y⟩,
        ⟨cur.x - 1, cur.y⟩]
    let st := neigh.foldl
      (fun (st : List GridPos × List GridPos × List GridPos) n =>
        if n.x ≤ 0 ∨ n.y ≤ 0 ∨ (width : Int) - 1 ≤ n.x ∨
            (height : Int) - 1 ≤ n.y then st
        else if isWallG width height g n.x n.y then st
        else if n ∈ st.2.2 then st
        else (st.1 ++ [n], st.2.1 ++ [n], st.2.2 ++ [n]))
      (queue, comp, visited)
    compBfs width height g fuel st.1 st.2.1 st.2.2

/-- `findComponent(sx, sy)`. -/
def findComponent (width height : Nat) (g : GenGrid) (visited : List GridPos)
    (sx sy : Int) : List GridPos × List GridPos :=
  compBfs width height g (width * height + 1) [⟨sx, sy⟩] [⟨sx, sy⟩]
    (visited ++ [⟨sx, sy⟩])

/-- The straight-scan `validate(x, y, dir)` of
`placePelletsForDisconnectedPath`: walk until the first non-wall tile
(`some (length, end)`) or off the grid (`none`). -/
def validateDir (width height : Nat) (g : GenGrid) :
    Nat → Int → Int → Int × Int → Nat → Option (Nat × GridPos)
  | 0, _, _, _, _ => none
  | fuel + 1, nx, ny, v, len =>
    if nx < 0 ∨ ny < 0 ∨ (width : Int) ≤ nx ∨ (height : Int) ≤ ny then none
    else if isWallG width height g nx ny then
      validateDir width height g fuel (nx + v.1) (ny + v.2) v (len + 1)
    else some (len, ⟨nx, ny⟩)

/-- Open one wall tile and its mirror along a carve ray (`i`-th step). -/
def carveRayStep (width height : Nat) (start : GridPos) (v : Int × Int)
    (st : GenGrid × Bool) (i : Nat) : GenGrid × Bool :=
  let x := start.x + v.1 * (i : Int)
  let y := start.y + v.2 * (i : Int)
  if x ≤ 0 ∨ y ≤ 0 ∨ (width : Int) - 1 ≤ x ∨ (height : Int) - 1 ≤ y then st
  else
    let st1 :=
      if gget width height st.1 x y = some '#' then
        (setPelletAt width height st.1 x y, true)
      else st
    let mx := (width : Int) - 1 - x
    if mx ≤ 0 ∨ (width : Int) - 1 ≤ mx then st1
    else if gget width height st1.1 mx y = some '#' then
      -- `setPelletMirrored(x, y)` = `mirrorAndPellet`: re-derives the
      -- mirror column and opens it if still a wall.
      (setPelletAt width height st1.1 mx y, true)
    else st1

/-- The per-eligible-start carve of `placePelletsForDisconnectedPath`. -/
def carveFromStart (width height : Nat) (disconnected : List GridPos)
    (st : GenGrid × Bool) (start : GridPos) : GenGrid × Bool :=
  let cands := [GenDir.north, GenDir.south, GenDir.east, GenDir.west].filterMap
    fun dir =>
      let v := dirVecG dir
      match validateDir width height st.1 (width * height + 2)
          (start.x + v.1) (start.y + v.2) v 0 with
      | none => none
      | some r =>
        if r.1 = 0 then none
        else if r.2 ∈ disconnected then some (dir, r.1) else none
  let sorted := cands.mergeSort fun a b => a.2 ≤ b.2
  match sorted.head? with
  | none => st
  | some best =>
    let v := dirVecG best.1
    ((List.range best.2).map (· + 1)).foldl
      (carveRayStep width height start v) st

/-- `fallbackConnectComponents`: carve a straight Manhattan elbow between
the nearest sampled tiles of the two components. -/
def fallbackWalk (width height : Nat) (v : Int × Int) :
    Nat → GenGrid × Bool → Int → Int → (GenGrid × Bool) × Int × Int
  | 0, st, x, y => (st, x, y)
  | fuel + 1, st, x, y =>
    let x' := x + v.1
    let y' := y + v.2
    let st' :=
      if x' ≤ 0 ∨ y' ≤ 0 ∨ (width : Int) - 1 ≤ x' ∨ (height : Int) - 1 ≤ y'
      then st
      else if gget width height st.1 x' y' = some '#' then
        let g1 := setPelletAt width height st.1 x' y'
        let mx := (width : Int) - 1 - x'
        let g2 :=
          if gget width height g1 mx y' = some '#' then
            setPelletAt width height g1 mx y'
          else g1
        (g2, true)
      else st
    fallbackWalk width height v fuel st' x' y'

/-- `fallbackConnectComponents`. -/
def fallbackConnectComponents (width height : Nat) (g : GenGrid)
    (connected disconnected : List GridPos) : GenGrid × Bool :=
  let connectedList := connected.take 250
  let disconnectedList := disconnected.take 250
  match connectedList, disconnectedList with
  | [], _ => (g, false)
  | _, [] => (g, false)
  | a0 :: _, b0 :: _ =>
    let best := connectedList.foldl
      (fun (best : GridPos × GridPos × Option Nat) a =>
        disconnectedList.foldl
          (fun (best : GridPos × GridPos × Option Nat) b =>
            let d := (a.x - b.x).natAbs + (a.y - b.y).natAbs
            match best.2.2 with
            | none => (a, b, some d)
            | some bd => if d < bd then (a, b, some d) else best)
          best)
      (a0, b0, none)
    let bestA := best.1
    let bestB := best.2.1
    let stepX : Int × Int := (if bestA.x ≤ bestB.x then 1 else -1, 0)
    let r1 := fallbackWalk width height stepX (bestB.x - bestA.x).natAbs
      (g, false) bestA.x bestA.y
    let stepY : Int × Int := (0, if r1.2.2 ≤ bestB.y then 1 else -1)
    let r2 := fallbackWalk width height stepY (bestB.y - r1.2.2).natAbs
      r1.1 r1.2.1 r1.2.2
    r2.1

/-- `placePelletsForDisconnectedPath`: carve straight mirrored corridors
from eligible connected cells toward the disconnected component, falling
back to the nearest-pair elbow carve. -/
def placePelletsForDisconnectedPath (width height : Nat) (g : GenGrid)
    (connected disconnected : List GridPos) : GenGrid × Bool :=
  let eligible := connected.filter fun p =>
    let halfGrid := 2 * p.x < (width : Int) - 2
    let centerPellet := p.x % 3 = 1 ∧ p.y % 3 = 1
    if ¬ (halfGrid ∧ centerPellet) then false
    else
      isWallG width height g (p.x - 1) p.y ||
        isWallG width height g (p.x + 1) p.y ||
        isWallG width height g p.x (p.y - 1) ||
        isWallG width height g p.x (p.y + 1)
  let st := eligible.foldl (carveFromStart width height disconnected) (g, false)
  if st.2 then (st.1, true)
  else fallbackConnectComponents width height st.1 connected disconnected

/-- The component scan of `checkForConnectedPath`: find the first two
interior components; on a second component, carve once and stop.  The
result is (grid, connected, changed). -/
def connectScan (width height : Nat) (g : GenGrid) :
    List (Int × Int) → List GridPos → Option (List GridPos) →
    GenGrid × Bool × Bool
  | [], _, _ => (g, true, false)
  | p :: rest, visited, connectedOpt =>
    if (⟨p.1, p.2⟩ : GridPos) ∈ visited then
      connectScan width height g rest visited connectedOpt
    else if isWallG width height g p.1 p.2 then
      connectScan width height g rest visited connectedOpt
    else
      match connectedOpt with
      | none =>
        let r := findComponent width height g visited p.1 p.2
        connectScan width height g rest r.2 (some r.1)
      | some connected =>
        let r := findComponent width height g visited p.1 p.2
        let pr := placePelletsForDisconnectedPath width height g connected r.1
        (pr.1, false, pr.2)

/-- `checkForConnectedPath`: scan the interior in row order, flood-fill
components, carve between the first two found. -/
def checkForConnectedPath (width height : Nat) (g : GenGrid) :
    GenGrid × Bool × Bool :=
  let pairs := (intRange 1 ((height : Int) - 2)).flatMap fun y =>
    (intRange 1 ((width : Int) - 2)).map fun x => (x, y)
  connectScan width height g pairs [] none

/-- The step-5 driver: `while (guard++ < 80)` around connect + repair. -/
def connectivityLoop (width height : Nat) (ghostSpace : List GridPos) :
    Nat → GenGrid → GenGrid
  | 0, g => g
  | fuel + 1, g =>
    let r := checkForConnectedPath width height g
    let g2 := removeIncorrectTiles width height ghostSpace r.1
    if r.2.1 then g2 else connectivityLoop width height ghostSpace fuel g2

/-- `placeMirrored` of `placePowerPellets`. -/
def placeMirroredPower (width height : Nat) (g : GenGrid) (x y : Int) :
    GenGrid :=
  let mx := (width : Int) - 1 - x
  let g1 := if gget width height g x y = some '.' then
    gset width height g x y 'o' else g
  if gget width height g1 mx y = some '.' then gset width height g1 mx y 'o'
  else g1

/-- `placePowerPellets`: first eligible pellet in a near-bottom band and
a near-top band of the left half, converted (with mirror) to power. -/
def placePowerPellets (width height : Nat) (box : GhostBox) (g : GenGrid) :
    GenGrid :=
  let inBox := fun (x y : Int) =>
    box.x0 ≤ x ∧ x ≤ box.x1 ∧ box.y0 ≤ y ∧ y ≤ box.y1
  let bottomPairs : List (Int × Int) :=
    (intRange 2 (min ((height : Int) - 2) 8 - 1)).flatMap fun y =>
      (intRange 1 ((width : Int) / 2 - 1)).map fun x => (x, y)
  let g1 :=
    match bottomPairs.find? fun p =>
        ¬ inBox p.1 p.2 ∧ gget width height g p.1 p.2 = some '.' with
    | some p => placeMirroredPower width height g p.1 p.2
    | none => g
  let topPairs : List (Int × Int) :=
    ((intRange (max 1 ((height : Int) - 9) + 1) ((height : Int) - 3)).reverse).flatMap
      fun y => (intRange 1 ((width : Int) / 2 - 1)).map fun x => (x, y)
  match topPairs.find? fun p =>
      ¬ inBox p.1 p.2 ∧ gget width height g1 p.1 p.2 = some '.' with
  | some p => placeMirroredPower width height g1 p.1 p.2
  | none => g1

/-- `fillPelletsOutsideGhostBox`: every interior walkable tile outside
the ghost box becomes a pellet. -/
def fillPelletsOutsideGhostBox (width height : Nat) (box : GhostBox)
    (g : GenGrid) : GenGrid :=
  (intRange 1 ((height : Int) - 2)).foldl
    (fun g y =>
      (intRange 1 ((width : Int) - 2)).foldl
        (fun g x =>
          if box.x0 ≤ x ∧ x ≤ box.x1 ∧ box.y0 ≤ y ∧ y ≤ box.y1 then g
          else
            match gget width height g x y with
            | some ' ' => gset width height g x y '.'
            | some '.' => gset width height g x y '.'
            | _ => g)
        g)
    g

/-- The player-start position chosen by `placeSpawns` (three-stage
fallback scan). -/
def spawnPlayerPos (width height : Nat) (box : GhostBox) (g : GenGrid) :
    Int × Int :=
  let cx : Int := (width : Int) / 2
  -- Player: bottom-ish center, first walkable tile in the center column.
  let firstY := (intRange 1 (max 2 box.y0 - 1)).find? fun y =>
    match gget width height g cx y with
    | some c => c ≠ '#'
    | none => false
  let p0 : Int × Int := (cx, firstY.getD 1)
  let p1 : Int × Int :=
    if gget width height g p0.1 p0.2 == some '#' then
      -- Find any walkable near bottom center.
      let pairs : List (Int × Int) :=
        (intRange 1 (min ((height : Int) - 2) 8 - 1)).flatMap fun y =>
          ((intRange (-8) 8).filterMap fun dx =>
            let x := cx + dx
            if x ≤ 0 ∨ (width : Int) - 1 ≤ x then none else some (x, y))
      (pairs.find? fun p =>
        gget width height g p.1 p.2 ≠ some '#').getD p0
    else p0
  let p2 : Int × Int :=
    if gget width height g p1.1 p1.2 == some '#' then
      -- Fallback: find any open tile outside the ghost box.
      let pairs : List (Int × Int) :=
        (intRange 1 ((height : Int) - 2)).flatMap fun y =>
          (intRange 1 ((width : Int) - 2)).filterMap fun x =>
            if box.x0 ≤ x && x ≤ box.x1 && box.y0 ≤ y && y ≤ box.y1 then
              none
            else some (x, y)
      (pairs.find? fun p =>
        gget width height g p.1 p.2 ≠ some '#').getD p1
    else p1
  p2

/-- The difficulty-scaled ghost count (`difficulty === 'easy' ? 1 :
difficulty === 'hard' ? 3 : 2`). -/
def ghostWanted : Difficulty → Nat
  | Difficulty.easy => 1
  | Difficulty.hard => 3
  | Difficulty.normal => 2

/-- One ghost-slot placement step of `placeSpawns`. -/
def spawnStep (width height wanted : Nat) (st : GenGrid × Nat)
    (p : Int × Int) : GenGrid × Nat :=
  if wanted ≤ st.2 then st
  else if gget width height st.1 p.1 p.2 = some '#' then st
  else (gset width height st.1 p.1 p.2 'G', st.2 + 1)

/-- `placeSpawns`: place the player start (three-stage fallback scan)
and 1-3 difficulty-scaled ghost starts inside the ghost box. -/
def placeSpawns (width height : Nat) (difficulty : Difficulty)
    (box : GhostBox) (g : GenGrid) : GenGrid :=
  let p2 := spawnPlayerPos width height box g
  let g := gset width height g p2.1 p2.2 'P'
  -- Ghosts: inside the ghost box.
  let gx := (box.x0 + box.x1) / 2
  let gy := (box.y0 + box.y1) / 2
  let slots : List (Int × Int) :=
    [(gx - 1, gy), (gx, gy), (gx + 1, gy), (gx, gy - 1)]
  let wanted : Nat := ghostWanted difficulty
  let st := slots.foldl (spawnStep width height wanted) (g, 0)
  if st.2 = 0 then
    -- Ensure at least one ghost start exists.
    if gget width height st.1 gx gy ≠ some '#' then
      gset width height st.1 gx gy 'G'
    else st.1
  else st.1

/-- ASCII word characters (`\w`). -/
def isWordChar (c : Char) : Bool :=
  c.isAlphanum || c = '_'

/-- `seed.split(/[^\w]+/g).filter(Boolean)`: maximal word-character runs. -/
def wordTokens (s : String) : List String :=
  let st := s.data.foldl
    (fun (st : List String × List Char) c =>
      if isWordChar c then (st.1, st.2 ++ [c])
      else if st.2.isEmpty then st
      else (st.1 ++ [String.mk st.2], []))
    ([], [])
  if st.2.isEmpty then st.1 else st.1 ++ [String.mk st.2]

/-- JS `trim` for the ASCII whitespace that can occur in seeds. -/
def jsTrim (s : String) : String :=
  s.trim

/-- JS `toLowerCase` (simple lowercase mapping; ASCII-exact). -/
def jsToLower (s : String) : String :=
  String.mk (s.data.map Char.toLower)

/-- `buildId`: deterministic level id from difficulty and seed. -/
def buildId (pre : String) (difficulty : Difficulty) (seed : String) :
    String :=
  let compact :=
    String.intercalate "-" ((wordTokens (jsToLower (jsTrim seed))).take 3)
  pre ++ "-" ++ difficulty.str ++
    (if compact ≠ "" then "-" ++ compact else "")

/-- Generator input (`PacRogueParams`); the optional dimensions stand
for the integer values the callers pass. -/
structure PacRogueParams where
  seed : String
  difficulty : Difficulty
  width : Option Int := none
  height : Option Int := none
deriving DecidableEq, Repr

/-- The deterministic part of the generator after the shape lattice has
been committed: steps 2-10 of `generatePacRogueLevel` consume no
randomness. -/
def genFromGroups (width height gw gh : Nat) (difficulty : Difficulty)
    (groupDefs : List (List Shape)) : GenGrid :=
  let grid0 : GenGrid := List.replicate height (List.replicate width '#')
  let g1 := expandGroups width height gw gh groupDefs grid0
  let g2 := mirrorLeftToRight width height g1
  let g3 := enforceBorderWalls width height g2
  let r := carveGhostBox width height g3
  let g4 := r.1
  let ghostSpace := r.2.1
  let box := r.2.2
  let g5 := addMissingPellets width height g4
  let g6 := removeIncorrectTiles width height ghostSpace g5
  let g7 := connectivityLoop width height ghostSpace 80 g6
  let g8 := removeIncorrectTiles width height ghostSpace g7
  let g9 := placePowerPellets width height box g8
  let g10 := fillPelletsOutsideGhostBox width height box g9
  let g11 := placeSpawns width height difficulty box g10
  enforceBorderWalls width height g11

/-- `generatePacRogueLevel`: the full Pac-Rogue generator.  The only
random source is the xorshift stream seeded from
`(difficulty ++ "|" ++ seed).trim().toLowerCase()`. -/
def generatePacRogueLevel (params : PacRogueParams) : LevelJson :=
  let width := (clampInt (params.width.getD 22) 15 41).toNat
  let height := (clampInt (params.height.getD 31) 15 45).toNat
  let x0 := fnvSeed
    (jsToLower (jsTrim (params.difficulty.str ++ "|" ++ params.seed)))
  -- `Math.floor((width / TILE_GROUP_DIM) * 0.5)` is exactly `width / 6`.
  let gw := max 1 (width / 6)
  let gh := max 1 (height / 3)
  let groupDefs := (generateTileGroups gw gh params.difficulty x0).1
  let g := genFromGroups width height gw gh params.difficulty groupDefs
  { id := some (buildId "ai-rogue" params.difficulty params.seed)
    grid := g.map fun row => String.mk row }

/-! ## Statement vocabulary and concrete instances -/

/-- Number of occurrences of one tile value in the whole matrix (used to
state multiset preservation). -/
def countTile (lvl : ParsedLevel) (t : TileType) : Nat :=
  (lvl.tileMatrix.map fun row => row.count t).sum

/-- Parse a concrete textual grid (all instances below parse cleanly). -/
def mkLevel (rows : List String) : ParsedLevel :=
  (parseLevel ⟨none, rows⟩).toOption.getD default

/-- A 3x3 all-wall level: no swap candidates exist at all. -/
def lvlWalls3 : ParsedLevel :=
  mkLevel ["###", "###", "###"]

/-- A 5x5 level with a horizontal tunnel pair on row 2.  Swapping the
border tunnel tile `(0,2)` with the wall `(1,2)` keeps every fairness
check satisfied while breaking the border pairing. -/
def lvlTunnel : ParsedLevel :=
  mkLevel ["#####", "#P..#", ".#...", "#...#", "#####"]

/-- A 5x5 level whose pellet at `(1,3)` is walled off (a fairness
violation that `applyReorgShift` with `mutations = 0` never looks at). -/
def lvlIsolated : ParsedLevel :=
  mkLevel ["#####", "#P.##", "#####", "#.#G#", "#####"]

/-- The grid of the 2-wide validator counterexample: row 0 pairs a wall
with a pellet across the left/right border. -/
def smallJson : LevelJson :=
  ⟨none, ["#.", "..", ".."]⟩

/-- The mirrored tile on the opposite edge of the same row/column (used
to state the wrap-move claim; the `dnone` case is never used). -/
def mirrorDest (lvl : ParsedLevel) (x y : Int) : Direction → GridPos
  | Direction.left => ⟨(lvl.width : Int) - 1, y⟩
  | Direction.right => ⟨0, y⟩
  | Direction.up => ⟨x, (lvl.height : Int) - 1⟩
  | Direction.down => ⟨x, 0⟩
  | Direction.dnone => ⟨x, y⟩

/-- A draw stream that always returns 0. -/
def rngZero : Nat → Nat :=
  fun _ => 0

/-- A draw stream that always returns 5 (on `lvlTunnel` this picks the
swap candidate pairing the border tunnel tile `(0,2)` with the wall
`(1,2)`). -/
def rngFive : Nat → Nat :=
  fun _ => 5

/-! ## Theorems

### Generic list and grid-cell lemmas -/

theorem listGetSetSelf (l : List α) (i : Nat) (v : α) :
    (l.set i v).get? i = (l.get? i).map fun _ => v := by
  induction l generalizing i with
  | nil => simp
  | cons a l ih =>
    cases i with
    | zero => simp
    | succ j => simpa using ih j

theorem listGetSetNe (l : List α) (i j : Nat) (v : α) (h : i ≠ j) :
    (l.set i v).get? j = l.get? j := by
  induction l generalizing i j with
  | nil => simp
  | cons a l ih =>
    cases i with
    | zero => cases j with
      | zero => exact absurd rfl h
      | succ j => simp
    | succ i =>
      cases j with
      | zero => simp
      | succ j => simpa using ih i j (by omega)

theorem listSetOfGet (l : List α) (i : Nat) (v : α) (h : l.get? i = some v) :
    l.set i v = l := by
  induction l generalizing i with
  | nil => simp
  | cons a l ih =>
    cases i with
    | zero => simp_all
    | succ j =>
      simp only [List.get?] at h
      simpa using ih j h

theorem setCellLength (m : List (List α)) (x y : Int) (v : α) :
    (setCell m x y v).length = m.length := by
  unfold setCell
  split
  · rfl
  · split
    · rfl
    · exact List.length_set ..

theorem getqSetCellSelf (m : List (List α)) (x y : Int) (v : α)
    (hx : 0 ≤ x) (hy : 0 ≤ y) :
    (setCell m x y v).get? y.toNat =
      (m.get? y.toNat).map fun row => row.set x.toNat v := by
  unfold setCell
  split
  · omega
  · split
    · rename_i hrow
      simp only [← List.get?_eq_getElem?, hrow]
      rfl
    · rename_i row hrow
      rw [listGetSetSelf, hrow]
      rfl

theorem getqSetCellNe (m : List (List α)) (x y : Int) (v : α) (j : Nat)
    (h : y.toNat ≠ j ∨ x < 0 ∨ y < 0) :
    (setCell m x y v).get? j = m.get? j := by
  unfold setCell
  split
  · rfl
  · rename_i hneg
    have hj : y.toNat ≠ j := by
      rcases h with h | h | h
      · exact h
      · exact absurd (Or.inl h) hneg
      · exact absurd (Or.inr h) hneg
    split
    · rfl
    · exact listGetSetNe _ _ _ _ hj

theorem cellAtSetCellSelf (m : List (List α)) (x y : Int) (v : α)
    (hsome : (cellAt m x y).isSome) :
    cellAt (setCell m x y v) x y = some v := by
  unfold cellAt at *
  split at hsome
  · simp at hsome
  · rename_i hneg
    have hx : 0 ≤ x := by omega
    have hy : 0 ≤ y := by omega
    rw [if_neg hneg]
    rw [getqSetCellSelf m x y v hx hy]
    cases hrow : m.get? y.toNat with
    | none => rw [hrow] at hsome; simp at hsome
    | some row =>
      rw [hrow] at hsome
      simp only [Option.map_some', Option.some_bind] at *
      rw [listGetSetSelf]
      cases hcell : row.get? x.toNat with
      | none => rw [hcell] at hsome; simp at hsome
      | some c => rfl

theorem cellAtSetCellNe (m : List (List α)) (x y x' y' : Int) (v : α)
    (h : ¬(x = x' ∧ y = y')) :
    cellAt (setCell m x y v) x' y' = cellAt m x' y' := by
  unfold cellAt
  split
  · rfl
  · rename_i hneg
    by_cases hx : x < 0 ∨ y < 0
    · unfold setCell
      rw [if_pos hx]
    · have hx0 : 0 ≤ x := by omega
      have hy0 : 0 ≤ y := by omega
      have hx' : 0 ≤ x' := by omega
      have hy' : 0 ≤ y' := by omega
      by_cases hyy : y = y'
      · have hxx : x ≠ x' := fun hc => h ⟨hc, hyy⟩
        subst hyy
        rw [getqSetCellSelf m x y v hx0 hy0]
        cases hrow : m.get? y.toNat with
        | none => simp
        | some row =>
          simp only [Option.map_some', Option.bind_some]
          exact listGetSetNe _ _ _ _ (by omega)
      · rw [getqSetCellNe m x y v y'.toNat (Or.inl (by omega))]

/-! ### Level-level lemmas about `swapTiles` -/

theorem cellAtOfInB (lvl : ParsedLevel) (p : GridPos) (hwf : Wf lvl)
    (hin : InB lvl p) :
    cellAt lvl.tileMatrix p.x p.y = some (tileAt lvl p.x p.y) := by
  obtain ⟨hx0, hxw, hy0, hyh⟩ := hin
  obtain ⟨hlen, hrows⟩ := hwf
  cases hrow : lvl.tileMatrix.get? p.y.toNat with
  | none =>
    exfalso
    have := List.get?_eq_none.mp hrow
    omega
  | some row =>
    have hmem : row ∈ lvl.tileMatrix := List.get?_mem hrow
    have hwid := hrows row hmem
    cases hcell : row.get? p.x.toNat with
    | none =>
      exfalso
      have := List.get?_eq_none.mp hcell
      omega
    | some c =>
      have hc : cellAt lvl.tileMatrix p.x p.y = some c := by
        unfold cellAt
        rw [if_neg (by omega), hrow]
        simpa using hcell
      rw [hc]
      unfold tileAt cellAtD
      rw [hc]
      rfl

theorem wfSetCellRow (lvl : ParsedLevel) (x y : Int) (v : TileType)
    (hwf : Wf lvl) :
    Wf { lvl with tileMatrix := setCell lvl.tileMatrix x y v } := by
  obtain ⟨hlen, hrows⟩ := hwf
  constructor
  · simpa [setCellLength] using hlen
  · intro row hmem
    unfold setCell at hmem
    split at hmem
    · exact hrows row hmem
    · split at hmem
      · exact hrows row hmem
      · rename_i r0 hr0
        rcases List.mem_or_eq_of_mem_set hmem with h | h
        · exact hrows row h
        · subst h
          rw [List.length_set]
          exact hrows r0 (List.get?_mem hr0)

theorem wfSwapTiles (lvl : ParsedLevel) (a b : GridPos) (hwf : Wf lvl) :
    Wf (swapTiles lvl a b) := by
  unfold swapTiles
  exact wfSetCellRow _ _ _ _ (wfSetCellRow _ _ _ _ hwf)

theorem swapTilesDims (lvl : ParsedLevel) (a b : GridPos) :
    (swapTiles lvl a b).width = lvl.width ∧
      (swapTiles lvl a b).height = lvl.height := ⟨rfl, rfl⟩

theorem inbSwapTiles (lvl : ParsedLevel) (a b p : GridPos) :
    InB (swapTiles lvl a b) p ↔ InB lvl p := Iff.rfl

theorem tileAtSwapOther (lvl : ParsedLevel) (a b p : GridPos)
    (hpa : p ≠ a) (hpb : p ≠ b) :
    tileAt (swapTiles lvl a b) p.x p.y = tileAt lvl p.x p.y := by
  unfold swapTiles tileAt cellAtD
  have h1 : ¬(b.x = p.x ∧ b.y = p.y) := by
    intro hc
    exact hpb (by cases p; cases b; simp_all)
  have h2 : ¬(a.x = p.x ∧ a.y = p.y) := by
    intro hc
    exact hpa (by cases p; cases a; simp_all)
  rw [cellAtSetCellNe _ _ _ _ _ _ h1, cellAtSetCellNe _ _ _ _ _ _ h2]

theorem rowRestore (r : List α) (i : Nat) (v w : α)
    (h : r.get? i = some w) : (r.set i v).set i w = r := by
  rw [List.set_set]
  exact listSetOfGet r i w h

/-- The four writes of a swap followed by its reverse swap restore the
matrix exactly. -/
theorem setCellSwapInvol (m : List (List α)) (ax ay bx bY : Int)
    (tA tB : α) (hA : cellAt m ax ay = some tA)
    (hB : cellAt m bx bY = some tB) (hne : ¬(ax = bx ∧ ay = bY)) :
    setCell (setCell (setCell (setCell m ax ay tB) bx bY tA) ax ay tA)
      bx bY tB = m := by
  have hax : 0 ≤ ax := by
    by_contra h
    unfold cellAt at hA
    rw [if_pos (Or.inl (by omega))] at hA
    exact Option.noConfusion hA
  have hay : 0 ≤ ay := by
    by_contra h
    unfold cellAt at hA
    rw [if_pos (Or.inr (by omega))] at hA
    exact Option.noConfusion hA
  have hbx : 0 ≤ bx := by
    by_contra h
    unfold cellAt at hB
    rw [if_pos (Or.inl (by omega))] at hB
    exact Option.noConfusion hB
  have hby : 0 ≤ bY := by
    by_contra h
    unfold cellAt at hB
    rw [if_pos (Or.inr (by omega))] at hB
    exact Option.noConfusion hB
  -- row-level contents
  have hrowA : ∃ ra, m.get? ay.toNat = some ra ∧ ra.get? ax.toNat = some tA := by
    unfold cellAt at hA
    rw [if_neg (by omega)] at hA
    cases hr : m.get? ay.toNat with
    | none => rw [hr] at hA; exact Option.noConfusion hA
    | some ra => rw [hr] at hA; exact ⟨ra, rfl, hA⟩
  have hrowB : ∃ rb, m.get? bY.toNat = some rb ∧ rb.get? bx.toNat = some tB := by
    unfold cellAt at hB
    rw [if_neg (by omega)] at hB
    cases hr : m.get? bY.toNat with
    | none => rw [hr] at hB; exact Option.noConfusion hB
    | some rb => rw [hr] at hB; exact ⟨rb, rfl, hB⟩
  obtain ⟨ra, hra, hrav⟩ := hrowA
  obtain ⟨rb, hrb, hrbv⟩ := hrowB
  apply List.ext
  intro j
  by_cases hja : ay.toNat = j
  · subst hja
    by_cases hjb : bY.toNat = ay.toNat
    · -- same row: ay = bY, hence ax ≠ bx
      have hyy : ay = bY := by omega
      have hxx : ax ≠ bx := fun hc => hne ⟨hc, hyy⟩
      have hixy : ax.toNat ≠ bx.toNat := by omega
      have hrab : ra = rb := by
        rw [hjb, hra] at hrb
        exact Option.some.inj hrb
      rw [← hjb]
      rw [getqSetCellSelf _ _ _ _ hbx hby]
      rw [hjb]
      rw [getqSetCellSelf _ _ _ _ hax hay]
      rw [← hjb]
      rw [getqSetCellSelf _ _ _ _ hbx hby]
      rw [hjb]
      rw [getqSetCellSelf _ _ _ _ hax hay, hra]
      simp only [Option.map_some']
      congr 1
      -- (((ra.set ia tB).set ib tA).set ia tA).set ib tB = ra
      rw [List.set_comm _ _ _ (by omega : bx.toNat ≠ ax.toNat)]
      simp only [List.set_set]
      rw [listSetOfGet ra ax.toNat tA hrav]
      rw [← hrab] at hrbv
      exact listSetOfGet ra bx.toNat tB hrbv
    · -- only row ay
      rw [getqSetCellNe _ _ _ _ _ (Or.inl hjb)]
      rw [getqSetCellSelf _ _ _ _ hax hay]
      rw [getqSetCellNe _ _ _ _ _ (Or.inl hjb)]
      rw [getqSetCellSelf _ _ _ _ hax hay, hra]
      simp only [Option.map_some']
      congr 1
      exact rowRestore ra ax.toNat _ tA hrav
  · by_cases hjb : bY.toNat = j
    · subst hjb
      rw [getqSetCellSelf _ _ _ _ hbx hby]
      rw [getqSetCellNe _ _ _ _ _ (Or.inl hja)]
      rw [getqSetCellSelf _ _ _ _ hbx hby]
      rw [getqSetCellNe _ _ _ _ _ (Or.inl hja)]
      rw [hrb]
      simp only [Option.map_some']
      congr 1
      exact rowRestore rb bx.toNat _ tB hrbv
    · rw [getqSetCellNe _ _ _ _ _ (Or.inl hjb),
        getqSetCellNe _ _ _ _ _ (Or.inl hja),
        getqSetCellNe _ _ _ _ _ (Or.inl hjb),
        getqSetCellNe _ _ _ _ _ (Or.inl hja)]

theorem swapSwap (lvl : ParsedLevel) (a b : GridPos) (hwf : Wf lvl)
    (ha : InB lvl a) (hb : InB lvl b) (hne : a ≠ b) :
    swapTiles (swapTiles lvl a b) a b = lvl := by
  have hca := cellAtOfInB lvl a hwf ha
  have hcb := cellAtOfInB lvl b hwf hb
  have hnepair : ¬(a.x = b.x ∧ a.y = b.y) := by
    intro hc
    exact hne (by cases a; cases b; simp_all)
  have hnepair' : ¬(b.x = a.x ∧ b.y = a.y) := by
    intro hc
    exact hnepair ⟨hc.1.symm, hc.2.symm⟩
  have hsomeA : (cellAt lvl.tileMatrix a.x a.y).isSome := by
    rw [hca]; rfl
  have h1 : cellAt (setCell lvl.tileMatrix a.x a.y (tileAt lvl b.x b.y))
      b.x b.y = cellAt lvl.tileMatrix b.x b.y :=
    cellAtSetCellNe _ _ _ _ _ _ fun hc => hnepair ⟨hc.1, hc.2⟩
  have hAafter : tileAt (swapTiles lvl a b) a.x a.y = tileAt lvl b.x b.y := by
    show (cellAt (setCell (setCell lvl.tileMatrix a.x a.y
      (tileAt lvl b.x b.y)) b.x b.y (tileAt lvl a.x a.y)) a.x a.y).getD
      TileType.wall = tileAt lvl b.x b.y
    rw [cellAtSetCellNe _ _ _ _ _ _ hnepair']
    rw [cellAtSetCellSelf _ _ _ _ hsomeA]
    rfl
  have hBafter : tileAt (swapTiles lvl a b) b.x b.y = tileAt lvl a.x a.y := by
    have hsomeB : (cellAt (setCell lvl.tileMatrix a.x a.y
        (tileAt lvl b.x b.y)) b.x b.y).isSome := by
      rw [h1, hcb]; rfl
    show (cellAt (setCell (setCell lvl.tileMatrix a.x a.y
      (tileAt lvl b.x b.y)) b.x b.y (tileAt lvl a.x a.y)) b.x b.y).getD
      TileType.wall = tileAt lvl a.x a.y
    rw [cellAtSetCellSelf _ _ _ _ hsomeB]
    rfl
  have hmat : (swapTiles (swapTiles lvl a b) a b).tileMatrix =
      lvl.tileMatrix := by
    show setCell (setCell (swapTiles lvl a b).tileMatrix a.x a.y
      (tileAt (swapTiles lvl a b) b.x b.y)) b.x b.y
      (tileAt (swapTiles lvl a b) a.x a.y) = lvl.tileMatrix
    rw [hAafter, hBafter]
    show setCell (setCell (setCell (setCell lvl.tileMatrix a.x a.y
      (tileAt lvl b.x b.y)) b.x b.y (tileAt lvl a.x a.y)) a.x a.y
      (tileAt lvl a.x a.y)) b.x b.y (tileAt lvl b.x b.y) = lvl.tileMatrix
    exact setCellSwapInvol lvl.tileMatrix a.x a.y b.x b.y
      (tileAt lvl a.x a.y) (tileAt lvl b.x b.y) hca hcb hnepair
  calc swapTiles (swapTiles lvl a b) a b
      = { lvl with
          tileMatrix := (swapTiles (swapTiles lvl a b) a b).tileMatrix } :=
        rfl
    _ = lvl := by rw [hmat]

/-! ### Mutation-engine run lemmas -/

theorem candSpec (lvl : ParsedLevel) (mask : List (List Bool))
    (used : List GridPos) (c : SwapCandidate)
    (hc : c ∈ collectAdjacentSwapCandidates lvl mask used) :
    InB lvl ⟨c.ax, c.ay⟩ ∧ InB lvl ⟨c.bx, c.by'⟩ ∧
      (⟨c.ax, c.ay⟩ : GridPos) ≠ ⟨c.bx, c.by'⟩ ∧
      hasProtected mask c.ax c.ay = false ∧
      hasProtected mask c.bx c.by' = false := by
  unfold collectAdjacentSwapCandidates at hc
  simp only [List.mem_flatMap, List.mem_range] at hc
  obtain ⟨yn, hyn, xn, hxn, hmem⟩ := hc
  split at hmem
  · simp at hmem
  · split at hmem
    · simp at hmem
    · rename_i hused hprot
      simp only [List.mem_flatMap] at hmem
      obtain ⟨d, hd, hmem⟩ := hmem
      split at hmem
      · simp at hmem
      · split at hmem
        · simp at hmem
        · split at hmem
          · simp at hmem
          · split at hmem
            · simp at hmem
            · split at hmem
              · simp at hmem
              · rename_i hbnd hused2 hprot2 hwall hwalk
                simp only [List.mem_singleton] at hmem
                subst hmem
                have hdd : d = ((1 : Int), (0 : Int)) ∨ d = ((0 : Int), (1 : Int)) := by
                  simpa using hd
                refine ⟨⟨(by omega : (0 : Int) ≤ (xn : Int)),
                    (by omega : (xn : Int) < (lvl.width : Int)),
                    (by omega : (0 : Int) ≤ (yn : Int)),
                    (by omega : (yn : Int) < (lvl.height : Int))⟩,
                  ⟨(by omega : (0 : Int) ≤ (xn : Int) + d.1),
                    (by omega : (xn : Int) + d.1 < (lvl.width : Int)),
                    (by omega : (0 : Int) ≤ (yn : Int) + d.2),
                    (by omega : (yn : Int) + d.2 < (lvl.height : Int))⟩,
                  ?_, ?_, ?_⟩
                · intro hcon
                  rw [GridPos.mk.injEq] at hcon
                  obtain ⟨h1, h2⟩ := hcon
                  rcases hdd with h | h <;> rw [h] at h1 h2 <;>
                    simp only [Prod.fst, Prod.snd] at h1 h2 <;> omega
                · simpa using hprot
                · simpa using hprot2

theorem tryMutationSome (rng : Nat → Nat) (cfg : ReorgShiftConfig)
    (mask : List (List Bool)) (starts critical : List GridPos) :
    ∀ tries (st st' : EngSt), Wf st.lvl →
    tryMutation rng cfg mask starts critical tries st = some st' →
    ∃ a b : GridPos, InB st.lvl a ∧ InB st.lvl b ∧ a ≠ b ∧
      hasProtected mask a.x a.y = false ∧ hasProtected mask b.x b.y = false ∧
      st'.lvl = swapTiles st.lvl a b ∧
      st'.accepted = st.accepted ++ [(a, b)] ∧
      passesChecks st'.lvl starts critical cfg.softlockMaxSteps = true := by
  intro tries
  induction tries with
  | zero =>
    intro st st' hwf h
    exact absurd h (by simp [tryMutation])
  | succ n ih =>
    intro st st' hwf h
    rw [tryMutation] at h
    split at h
    · exact absurd h (by simp)
    · rename_i hlen
      have hpick : ((collectAdjacentSwapCandidates st.lvl mask st.used).get?
          (rng st.k % (collectAdjacentSwapCandidates st.lvl mask
            st.used).length)).getD ⟨0, 0, 0, 0⟩ ∈
          collectAdjacentSwapCandidates st.lvl mask st.used := by
        have hlt : rng st.k % (collectAdjacentSwapCandidates st.lvl mask
            st.used).length < (collectAdjacentSwapCandidates st.lvl mask
            st.used).length := Nat.mod_lt _ (Nat.pos_of_ne_zero hlen)
        cases hg : (collectAdjacentSwapCandidates st.lvl mask st.used).get?
            (rng st.k % (collectAdjacentSwapCandidates st.lvl mask
              st.used).length) with
        | none =>
          exfalso
          have := List.get?_eq_none.mp hg
          omega
        | some c =>
          simpa [hg] using List.get?_mem hg
      obtain ⟨hina, hinb, hne, hpa, hpb⟩ := candSpec _ _ _ _ hpick
      simp only [] at h
      split at h
      · -- not a wall <-> walkable pair: plain retry, state unchanged
        have hres := ih _ _ (by simpa using hwf) h
        simpa using hres
      · split at h
        · -- accepted swap
          rename_i hchecks
          have hst' := Option.some.inj h
          subst hst'
          refine ⟨_, _, hina, hinb, hne, hpa, hpb, rfl, rfl, hchecks⟩
        · -- swap rejected by the checks: reverted, then retry
          rename_i hchecks
          have hrestore := swapSwap st.lvl _ _ hwf hina hinb hne
          rw [hrestore] at h
          have hres := ih _ _ (by simpa using hwf) h
          simpa using hres

theorem revertAppend (acc : List (GridPos × GridPos))
    (p : GridPos × GridPos) (lvl : ParsedLevel) :
    revertAccepted (acc ++ [p]) lvl =
      revertAccepted acc (swapTiles lvl p.1 p.2) := by
  unfold revertAccepted
  rw [List.reverse_append]
  rfl

theorem rowCountSet [DecidableEq α] (l : List α) (i : Nat) (v w t : α)
    (h : l.get? i = some w) :
    (l.set i v).count t + (if w = t then 1 else 0) =
      l.count t + (if v = t then 1 else 0) := by
  induction l generalizing i with
  | nil => simp at h
  | cons a l ih =>
    cases i with
    | zero =>
      simp only [List.get?] at h
      have haw := Option.some.inj h
      subst haw
      simp only [List.set_cons_zero]
      rw [List.count_cons, List.count_cons]
      by_cases hv : v = t <;> by_cases haa : a = t <;> simp [hv, haa] <;> omega
    | succ j =>
      simp only [List.get?] at h
      simp only [List.set_cons_succ]
      rw [List.count_cons, List.count_cons]
      have := ih j h
      omega

theorem matSumSet (m : List (List α)) (f : List α → Nat) :
    ∀ (j : Nat) (r : List α), m.get? j = some r → ∀ r' : List α,
    ((m.set j r').map f).sum + f r = (m.map f).sum + f r' := by
  induction m with
  | nil => intro j r h; simp at h
  | cons a m ih =>
    intro j r h r'
    cases j with
    | zero =>
      simp only [List.get?] at h
      obtain rfl := Option.some.inj h
      simp only [List.set_cons_zero, List.map_cons, List.sum_cons]
      omega
    | succ j =>
      simp only [List.get?] at h
      simp only [List.set_cons_succ, List.map_cons, List.sum_cons]
      have := ih j r h r'
      omega

theorem setCellEq (m : List (List α)) (x y : Int) (v : α) (r : List α)
    (hx : ¬(x < 0 ∨ y < 0)) (hr : m.get? y.toNat = some r) :
    setCell m x y v = m.set y.toNat (r.set x.toNat v) := by
  unfold setCell
  rw [if_neg hx, hr]

theorem countMSetCell [DecidableEq α] (m : List (List α)) (x y : Int)
    (v w : α) (hcell : cellAt m x y = some w) (t : α) :
    ((setCell m x y v).map fun row => row.count t).sum +
      (if w = t then 1 else 0) =
    (m.map fun row => row.count t).sum + (if v = t then 1 else 0) := by
  have hx : ¬(x < 0 ∨ y < 0) := by
    by_contra hc
    unfold cellAt at hcell
    rw [if_pos (by omega)] at hcell
    exact Option.noConfusion hcell
  have hrow : ∃ r, m.get? y.toNat = some r ∧ r.get? x.toNat = some w := by
    unfold cellAt at hcell
    rw [if_neg hx] at hcell
    cases hr : m.get? y.toNat with
    | none => rw [hr] at hcell; exact Option.noConfusion hcell
    | some r => rw [hr] at hcell; exact ⟨r, rfl, hcell⟩
  obtain ⟨r, hr, hrw⟩ := hrow
  rw [setCellEq m x y v r hx hr]
  have h1 := matSumSet m (fun row => row.count t) y.toNat r hr
    (r.set x.toNat v)
  have h2 := rowCountSet r x.toNat v w t hrw
  simp only [] at h1
  omega

theorem countTileSwap (lvl : ParsedLevel) (a b : GridPos) (hwf : Wf lvl)
    (ha : InB lvl a) (hb : InB lvl b) (hne : a ≠ b) (t : TileType) :
    countTile (swapTiles lvl a b) t = countTile lvl t := by
  have hca := cellAtOfInB lvl a hwf ha
  have hcb := cellAtOfInB lvl b hwf hb
  have hnepair : ¬(a.x = b.x ∧ a.y = b.y) := by
    intro hc
    exact hne (by cases a; cases b; simp_all)
  have hcb1 : cellAt (setCell lvl.tileMatrix a.x a.y (tileAt lvl b.x b.y))
      b.x b.y = some (tileAt lvl b.x b.y) := by
    rw [cellAtSetCellNe _ _ _ _ _ _ fun hc => hnepair ⟨hc.1, hc.2⟩]
    exact hcb
  have h1 := countMSetCell lvl.tileMatrix a.x a.y (tileAt lvl b.x b.y)
    (tileAt lvl a.x a.y) hca t
  have h2 := countMSetCell (setCell lvl.tileMatrix a.x a.y
    (tileAt lvl b.x b.y)) b.x b.y (tileAt lvl a.x a.y)
    (tileAt lvl b.x b.y) hcb1 t
  show ((setCell (setCell lvl.tileMatrix a.x a.y (tileAt lvl b.x b.y))
    b.x b.y (tileAt lvl a.x a.y)).map fun row => row.count t).sum =
    (lvl.tileMatrix.map fun row => row.count t).sum
  omega

theorem foldSwapsWfCount (L : List (GridPos × GridPos)) :
    ∀ lvl : ParsedLevel, Wf lvl →
    (∀ p ∈ L, InB lvl p.1 ∧ InB lvl p.2 ∧ p.1 ≠ p.2) →
    Wf (L.foldl (fun l p => swapTiles l p.1 p.2) lvl) ∧
      ∀ t, countTile (L.foldl (fun l p => swapTiles l p.1 p.2) lvl) t =
        countTile lvl t := by
  induction L with
  | nil => intro lvl hwf _; exact ⟨hwf, fun _ => rfl⟩
  | cons p L ih =>
    intro lvl hwf hall
    obtain ⟨hp1, hp2, hpne⟩ := hall p (List.mem_cons_self p L)
    have hall' : ∀ q ∈ L, InB (swapTiles lvl p.1 p.2) q.1 ∧
        InB (swapTiles lvl p.1 p.2) q.2 ∧ q.1 ≠ q.2 := by
      intro q hq
      exact hall q (List.mem_cons_of_mem p hq)
    have hwf' := wfSwapTiles lvl p.1 p.2 hwf
    obtain ⟨hwfr, hcnt⟩ := ih (swapTiles lvl p.1 p.2) hwf' hall'
    refine ⟨hwfr, fun t => ?_⟩
    rw [List.foldl_cons] at *
    rw [hcnt t, countTileSwap lvl p.1 p.2 hwf hp1 hp2 hpne t]

theorem foldSwapsProtected (mask : List (List Bool))
    (L : List (GridPos × GridPos)) :
    ∀ lvl : ParsedLevel,
    (∀ p ∈ L, hasProtected mask p.1.x p.1.y = false ∧
      hasProtected mask p.2.x p.2.y = false) →
    ∀ q : GridPos, hasProtected mask q.x q.y = true →
    tileAt (L.foldl (fun l p => swapTiles l p.1 p.2) lvl) q.x q.y =
      tileAt lvl q.x q.y := by
  induction L with
  | nil => intro lvl _ q _; rfl
  | cons p L ih =>
    intro lvl hall q hq
    obtain ⟨hp1, hp2⟩ := hall p (List.mem_cons_self p L)
    have hq1 : q ≠ p.1 := by
      intro hc
      rw [hc] at hq
      rw [hq] at hp1
      exact Bool.noConfusion hp1
    have hq2 : q ≠ p.2 := by
      intro hc
      rw [hc] at hq
      rw [hq] at hp2
      exact Bool.noConfusion hp2
    rw [List.foldl_cons]
    rw [ih (swapTiles lvl p.1 p.2)
      (fun r hr => hall r (List.mem_cons_of_mem p hr)) q hq]
    exact tileAtSwapOther lvl p.1 p.2 q hq1 hq2

theorem runShiftFalseRevert (rng : Nat → Nat) (cfg : ReorgShiftConfig)
    (mask : List (List Bool)) (starts critical : List GridPos) :
    ∀ (n : Nat) (st : EngSt), Wf st.lvl →
    (runShift rng cfg mask starts critical n st).1 = false →
    (runShift rng cfg mask starts critical n st).2.lvl =
      revertAccepted st.accepted st.lvl := by
  intro n
  induction n with
  | zero => intro st hwf h; exact absurd h (by simp [runShift])
  | succ n ih =>
    intro st hwf h
    rw [runShift] at h ⊢
    cases htry : tryMutation rng cfg mask starts critical
        cfg.maxTriesPerMutation st with
    | none => rfl
    | some st' =>
      rw [htry] at h
      obtain ⟨a, b, hina, hinb, hne, _, _, hlvl, hacc, _⟩ :=
        tryMutationSome rng cfg mask starts critical _ _ _ hwf htry
      have hwf' : Wf st'.lvl := hlvl ▸ wfSwapTiles st.lvl a b hwf
      rw [ih st' hwf' h, hacc, hlvl, revertAppend,
        swapSwap st.lvl a b hwf hina hinb hne]

theorem runShiftTrueChecks (rng : Nat → Nat) (cfg : ReorgShiftConfig)
    (mask : List (List Bool)) (starts critical : List GridPos) :
    ∀ (n : Nat) (st : EngSt), Wf st.lvl → 1 ≤ n →
    (runShift rng cfg mask starts critical n st).1 = true →
    passesChecks (runShift rng cfg mask starts critical n st).2.lvl starts
      critical cfg.softlockMaxSteps = true := by
  intro n
  induction n with
  | zero => intro st _ h; omega
  | succ n ih =>
    intro st hwf _ h
    rw [runShift] at h ⊢
    cases htry : tryMutation rng cfg mask starts critical
        cfg.maxTriesPerMutation st with
    | none => rw [htry] at h; exact absurd h (by simp)
    | some st' =>
      rw [htry] at h
      obtain ⟨a, b, _, _, _, _, _, hlvl, _, hchecks⟩ :=
        tryMutationSome rng cfg mask starts critical _ _ _ hwf htry
      have hwf' : Wf st'.lvl := hlvl ▸ wfSwapTiles st.lvl a b hwf
      cases n with
      | zero => simpa [runShift] using hchecks
      | succ m => exact ih st' hwf' (by omega) h

theorem runShiftState (rng : Nat → Nat) (cfg : ReorgShiftConfig)
    (mask : List (List Bool)) (starts critical : List GridPos) :
    ∀ (n : Nat) (st : EngSt), Wf st.lvl →
    (∀ p ∈ st.accepted, InB st.lvl p.1 ∧ InB st.lvl p.2 ∧ p.1 ≠ p.2 ∧
      hasProtected mask p.1.x p.1.y = false ∧
      hasProtected mask p.2.x p.2.y = false) →
    Wf (runShift rng cfg mask starts critical n st).2.lvl ∧
      (∀ t, countTile (runShift rng cfg mask starts critical n st).2.lvl t =
        countTile st.lvl t) ∧
      (∀ q : GridPos, hasProtected mask q.x q.y = true →
        tileAt (runShift rng cfg mask starts critical n st).2.lvl q.x q.y =
          tileAt st.lvl q.x q.y) := by
  intro n
  induction n with
  | zero =>
    intro st hwf _
    exact ⟨hwf, fun _ => rfl, fun _ _ => rfl⟩
  | succ n ih =>
    intro st hwf hacc
    rw [runShift]
    cases htry : tryMutation rng cfg mask starts critical
        cfg.maxTriesPerMutation st with
    | none =>
      simp only []
      have haccrev : ∀ p ∈ st.accepted.reverse, InB st.lvl p.1 ∧
          InB st.lvl p.2 ∧ p.1 ≠ p.2 := by
        intro p hp
        have := hacc p (List.mem_reverse.mp hp)
        exact ⟨this.1, this.2.1, this.2.2.1⟩
      have hfold := foldSwapsWfCount st.accepted.reverse st.lvl hwf haccrev
      have hprot := foldSwapsProtected mask st.accepted.reverse st.lvl
        (fun p hp => (hacc p (List.mem_reverse.mp hp)).2.2.2)
      exact ⟨hfold.1, hfold.2, hprot⟩
    | some st' =>
      obtain ⟨a, b, hina, hinb, hne, hpa, hpb, hlvl, haccs, _⟩ :=
        tryMutationSome rng cfg mask starts critical _ _ _ hwf htry
      have hwf' : Wf st'.lvl := hlvl ▸ wfSwapTiles st.lvl a b hwf
      have hacc' : ∀ p ∈ st'.accepted, InB st'.lvl p.1 ∧ InB st'.lvl p.2 ∧
          p.1 ≠ p.2 ∧ hasProtected mask p.1.x p.1.y = false ∧
          hasProtected mask p.2.x p.2.y = false := by
        intro p hp
        rw [haccs] at hp
        rcases List.mem_append.mp hp with hmem | hmem
        · have := hacc p hmem
          rw [hlvl]
          exact ⟨this.1, this.2.1, this.2.2.1, this.2.2.2.1, this.2.2.2.2⟩
        · have hp2 : p = (a, b) := by simpa using hmem
          subst hp2
          rw [hlvl]
          exact ⟨hina, hinb, hne, hpa, hpb⟩
      obtain ⟨hwfr, hcntr, hprotr⟩ := ih st' hwf' hacc'
      refine ⟨hwfr, fun t => ?_, fun q hq => ?_⟩
      · rw [hcntr t, hlvl, countTileSwap st.lvl a b hwf hina hinb hne]
      · have hqa : q ≠ a := by
          intro hc
          rw [hc] at hq
          rw [hq] at hpa
          exact Bool.noConfusion hpa
        have hqb : q ≠ b := by
          intro hc
          rw [hc] at hq
          rw [hq] at hpb
          exact Bool.noConfusion hpb
        rw [hprotr q hq, hlvl]
        exact tileAtSwapOther st.lvl a b q hqa hqb

/-! ### Claim C1: mutation atomicity -/

/-- C1: for every level, PRNG stream, config, protected mask, start list
and critical list, if `applyReorgShift` returns `ok:false` then the level
(in particular its tile matrix) is identical to its pre-call state —
every provisional swap has been reverted and no partial mutation batch is
left applied — and the returned `mutatedTiles` list is empty. -/
theorem claimC1_mutation_atomicity (lvl : ParsedLevel) (rng : Nat → Nat)
    (cfg : ReorgShiftConfig) (mask : List (List Bool))
    (starts critical : List GridPos) (hwf : Wf lvl)
    (hfail : (applyReorgShift lvl rng cfg mask starts critical).1.ok = false) :
    (applyReorgShift lvl rng cfg mask starts critical).2 = lvl ∧
      (applyReorgShift lvl rng cfg mask starts critical).1.mutatedTiles
        = [] := by
  unfold applyReorgShift at hfail ⊢
  simp only [] at hfail ⊢
  by_cases hr : (runShift rng cfg mask starts critical cfg.mutations
      ⟨lvl, [], [], [], 0⟩).1 = true
  · rw [if_pos hr] at hfail
    exact absurd hfail (by simp)
  · rw [if_neg hr] at hfail ⊢
    refine ⟨?_, rfl⟩
    have hfalse : (runShift rng cfg mask starts critical cfg.mutations
        ⟨lvl, [], [], [], 0⟩).1 = false := by
      cases hb : (runShift rng cfg mask starts critical cfg.mutations
          ⟨lvl, [], [], [], 0⟩).1
      · rfl
      · exact absurd hb hr
    have := runShiftFalseRevert rng cfg mask starts critical cfg.mutations
      ⟨lvl, [], [], [], 0⟩ hwf hfalse
    simpa [revertAccepted] using this

/-- C1 witness: on the all-wall 3x3 level no swap candidate exists, so a
one-mutation shift fails, leaves the level untouched and reports no
mutated tiles. -/
theorem claimC1_mutation_atomicity_witness :
    Wf lvlWalls3 ∧
      (applyReorgShift lvlWalls3 rngZero ⟨1, 5, 10⟩ (falseGrid 3 3) []
        []).1.ok = false ∧
      (applyReorgShift lvlWalls3 rngZero ⟨1, 5, 10⟩ (falseGrid 3 3) []
        []).2 = lvlWalls3 ∧
      (applyReorgShift lvlWalls3 rngZero ⟨1, 5, 10⟩ (falseGrid 3 3) []
        []).1.mutatedTiles = [] :=
  ⟨by decide, by decide,
    claimC1_mutation_atomicity lvlWalls3 rngZero ⟨1, 5, 10⟩ (falseGrid 3 3)
      [] [] (by decide) (by decide)⟩

/-! ### Claim C2: mutation fairness preservation -/

/-- C2 counterexample: with `mutations = 0` the engine returns `ok:true`
without validating anything, so the claim as stated fails: on
`lvlIsolated` it reports success while the grid violates the fairness
invariants — the pellet at `(1,3)` is a pellet tile that is not reachable
from the primary start `(1,1)` by the wrap-aware BFS, and the engine's
own `passesChecks` is false on the returned grid. -/
theorem claimC2_counterexample :
    (applyReorgShift lvlIsolated rngZero ⟨0, 5, 10⟩ (falseGrid 5 5)
      [⟨1, 1⟩] []).1.ok = true ∧
    passesChecks (applyReorgShift lvlIsolated rngZero ⟨0, 5, 10⟩
      (falseGrid 5 5) [⟨1, 1⟩] []).2 [⟨1, 1⟩] [] 10 = false ∧
    tileAt (applyReorgShift lvlIsolated rngZero ⟨0, 5, 10⟩ (falseGrid 5 5)
      [⟨1, 1⟩] []).2 1 3 = TileType.pellet ∧
    cellAtD (reachableFromStart (applyReorgShift lvlIsolated rngZero
      ⟨0, 5, 10⟩ (falseGrid 5 5) [⟨1, 1⟩] []).2 ⟨1, 1⟩) 1 3 false
      = false := by
  decide

/-- C2 (amended): if `applyReorgShift` returns `ok:true` and the config
requested at least one mutation, then the mutated grid passes the
engine's full fairness validation `passesChecks`: every remaining
pellet/power tile is reachable from the primary start via wrap-aware BFS,
every supplied start tile and every in-bounds critical tile is walkable
and reachable, and every start tile satisfies the no-softlock property.
(With `mutations = 0` the engine returns `ok:true` unconditionally and
checks nothing.) -/
theorem claimC2_mutation_fairness (lvl : ParsedLevel) (rng : Nat → Nat)
    (cfg : ReorgShiftConfig) (mask : List (List Bool))
    (starts critical : List GridPos) (hwf : Wf lvl)
    (hmut : 1 ≤ cfg.mutations)
    (hok : (applyReorgShift lvl rng cfg mask starts critical).1.ok = true) :
    passesChecks (applyReorgShift lvl rng cfg mask starts critical).2
      starts critical cfg.softlockMaxSteps = true := by
  unfold applyReorgShift at hok ⊢
  simp only [] at hok ⊢
  by_cases hr : (runShift rng cfg mask starts critical cfg.mutations
      ⟨lvl, [], [], [], 0⟩).1 = true
  · rw [if_pos hr] at hok ⊢
    exact runShiftTrueChecks rng cfg mask starts critical cfg.mutations
      ⟨lvl, [], [], [], 0⟩ hwf hmut hr
  · rw [if_neg hr] at hok
    exact absurd hok (by simp)

/-- C2 witness: on `lvlTunnel` with one requested mutation the engine
succeeds, and the resulting grid passes the full fairness validation. -/
theorem claimC2_mutation_fairness_witness :
    Wf lvlTunnel ∧ 1 ≤ (1 : Nat) ∧
      (applyReorgShift lvlTunnel rngFive ⟨1, 1, 10⟩ (falseGrid 5 5)
        [⟨1, 1⟩] []).1.ok = true ∧
      passesChecks (applyReorgShift lvlTunnel rngFive ⟨1, 1, 10⟩
        (falseGrid 5 5) [⟨1, 1⟩] []).2 [⟨1, 1⟩] [] 10 = true :=
  ⟨by decide, by decide, by decide,
    claimC2_mutation_fairness lvlTunnel rngFive ⟨1, 1, 10⟩ (falseGrid 5 5)
      [⟨1, 1⟩] [] (by decide) (by decide) (by decide)⟩

/-! ### Claim C10: mutation preserves the tile multiset -/

/-- C10: every modification `applyReorgShift` makes is an exchange of two
adjacent tiles, so for every call — whether it returns `ok:true` or
`ok:false` — the multiset of tile values is unchanged: for every tile
value, its count after the call equals its count before (in particular a
reorg shift never creates or destroys a pellet or power pellet). -/
theorem claimC10_multiset_preservation (lvl : ParsedLevel)
    (rng : Nat → Nat) (cfg : ReorgShiftConfig) (mask : List (List Bool))
    (starts critical : List GridPos) (hwf : Wf lvl) (t : TileType) :
    countTile (applyReorgShift lvl rng cfg mask starts critical).2 t =
      countTile lvl t := by
  have hstate := runShiftState rng cfg mask starts critical cfg.mutations
    ⟨lvl, [], [], [], 0⟩ hwf (by intro p hp; simp at hp)
  unfold applyReorgShift
  simp only []
  by_cases hr : (runShift rng cfg mask starts critical cfg.mutations
      ⟨lvl, [], [], [], 0⟩).1 = true
  · rw [if_pos hr]
    exact hstate.2.1 t
  · rw [if_neg hr]
    exact hstate.2.1 t

/-- C10 witness: the successful one-swap run on `lvlTunnel` leaves every
tile count unchanged (pellet count shown by evaluation as well). -/
theorem claimC10_multiset_preservation_witness :
    Wf lvlTunnel ∧
      countTile (applyReorgShift lvlTunnel rngFive ⟨1, 1, 10⟩
        (falseGrid 5 5) [⟨1, 1⟩] []).2 TileType.pellet =
        countTile lvlTunnel TileType.pellet :=
  ⟨by decide,
    claimC10_multiset_preservation lvlTunnel rngFive ⟨1, 1, 10⟩
      (falseGrid 5 5) [⟨1, 1⟩] [] (by decide) TileType.pellet⟩

/-! ### Claim C7: wrap-around move legality -/

/-- C7: for every parsed level, in-range tile position and non-null
direction: an in-bounds move succeeds exactly when the destination tile
is walkable (and is never treated as a wrap); a move that leaves the grid
lands on the mirrored tile on the opposite edge of the same row/column if
and only if both the source edge tile and the destination edge tile are
walkable, and otherwise `getWrapDestination` and `nextTileWithWrap`
return `none`. -/
theorem claimC7_wrap_move_legality (lvl : ParsedLevel) (x y : Int)
    (dir : Direction) (hx0 : 0 ≤ x) (hxw : x < (lvl.width : Int))
    (hy0 : 0 ≤ y) (hyh : y < (lvl.height : Int))
    (hdir : dir ≠ Direction.dnone) :
    (0 ≤ x + (vec dir).1 ∧ 0 ≤ y + (vec dir).2 ∧
      x + (vec dir).1 < (lvl.width : Int) ∧
      y + (vec dir).2 < (lvl.height : Int) →
      getWrapDestination lvl x y dir = none ∧
      nextTileWithWrap lvl x y dir =
        (if isWalkable (tileAt lvl (x + (vec dir).1) (y + (vec dir).2))
          then some ⟨x + (vec dir).1, y + (vec dir).2⟩ else none)) ∧
    (¬(0 ≤ x + (vec dir).1 ∧ 0 ≤ y + (vec dir).2 ∧
      x + (vec dir).1 < (lvl.width : Int) ∧
      y + (vec dir).2 < (lvl.height : Int)) →
      nextTileWithWrap lvl x y dir = getWrapDestination lvl x y dir ∧
      getWrapDestination lvl x y dir =
        (if isWalkable (tileAt lvl x y) ∧
            isWalkable (tileAt lvl (mirrorDest lvl x y dir).x
              (mirrorDest lvl x y dir).y)
          then some (mirrorDest lvl x y dir) else none)) := by
  constructor
  · intro hin
    constructor
    · unfold getWrapDestination
      rw [if_neg (by cases dir <;> simp_all)]
      rw [if_pos hin]
    · unfold nextTileWithWrap
      rw [if_neg (by cases dir <;> simp_all)]
      rw [if_pos hin]
      by_cases hw : isWalkable (tileAt lvl (x + (vec dir).1)
          (y + (vec dir).2)) = true
      · simp [hw]
      · simp [hw]
  · intro hout
    have hnext : nextTileWithWrap lvl x y dir =
        getWrapDestination lvl x y dir := by
      unfold nextTileWithWrap
      rw [if_neg (by cases dir <;> simp_all)]
      rw [if_neg hout]
    refine ⟨hnext, ?_⟩
    cases dir with
    | dnone => exact absurd rfl hdir
    | left =>
      have hxz : x = 0 := by
        simp only [vec] at hout
        omega
      subst hxz
      unfold getWrapDestination
      rw [if_neg (by simp)]
      rw [if_neg hout]
      rw [if_pos ⟨rfl, rfl⟩]
      by_cases h1 : isWalkable (tileAt lvl 0 y) = true
      · by_cases h2 : isWalkable (tileAt lvl ((lvl.width : Int) - 1) y) = true
        · rw [if_neg (by simp [h1]), if_neg (by simp [h2]),
            if_pos ⟨h1, h2⟩]
          rfl
        · rw [if_neg (by simp [h1]), if_pos (by simpa using h2),
            if_neg (by simp [mirrorDest]; intro hc; simp_all)]
      · rw [if_pos (by simpa using h1),
          if_neg (by simp [mirrorDest]; intro hc; simp_all)]
    | right =>
      have hxz : x = (lvl.width : Int) - 1 := by
        simp only [vec] at hout
        omega
      subst hxz
      unfold getWrapDestination
      rw [if_neg (by simp)]
      rw [if_neg hout]
      rw [if_neg (by simp)]
      rw [if_pos ⟨rfl, rfl⟩]
      by_cases h1 : isWalkable (tileAt lvl ((lvl.width : Int) - 1) y) = true
      · by_cases h2 : isWalkable (tileAt lvl 0 y) = true
        · rw [if_neg (by simp [h1]), if_neg (by simp [h2]),
            if_pos ⟨h1, h2⟩]
          rfl
        · rw [if_neg (by simp [h1]), if_pos (by simpa using h2),
            if_neg (by simp [mirrorDest]; intro hc; simp_all)]
      · rw [if_pos (by simpa using h1),
          if_neg (by simp [mirrorDest]; intro hc; simp_all)]
    | up =>
      have hyz : y = 0 := by
        simp only [vec] at hout
        omega
      subst hyz
      unfold getWrapDestination
      rw [if_neg (by simp)]
      rw [if_neg hout]
      rw [if_neg (by simp)]
      rw [if_neg (by simp)]
      rw [if_pos ⟨rfl, rfl⟩]
      by_cases h1 : isWalkable (tileAt lvl x 0) = true
      · by_cases h2 : isWalkable (tileAt lvl x ((lvl.height : Int) - 1)) = true
        · rw [if_neg (by simp [h1]), if_neg (by simp [h2]),
            if_pos ⟨h1, h2⟩]
          rfl
        · rw [if_neg (by simp [h1]), if_pos (by simpa using h2),
            if_neg (by simp [mirrorDest]; intro hc; simp_all)]
      · rw [if_pos (by simpa using h1),
          if_neg (by simp [mirrorDest]; intro hc; simp_all)]
    | down =>
      have hyz : y = (lvl.height : Int) - 1 := by
        simp only [vec] at hout
        omega
      subst hyz
      unfold getWrapDestination
      rw [if_neg (by simp)]
      rw [if_neg hout]
      rw [if_neg (by simp)]
      rw [if_neg (by simp)]
      rw [if_neg (by simp)]
      rw [if_pos ⟨rfl, rfl⟩]
      by_cases h1 : isWalkable (tileAt lvl x ((lvl.height : Int) - 1)) = true
      · by_cases h2 : isWalkable (tileAt lvl x 0) = true
        · rw [if_neg (by simp [h1]), if_neg (by simp [h2]),
            if_pos ⟨h1, h2⟩]
          rfl
        · rw [if_neg (by simp [h1]), if_pos (by simpa using h2),
            if_neg (by simp [mirrorDest]; intro hc; simp_all)]
      · rw [if_pos (by simpa using h1),
          if_neg (by simp [mirrorDest]; intro hc; simp_all)]

/-- C7 witness: on `lvlTunnel`, moving left from the tunnel tile `(0,2)`
wraps to `(4,2)` (both walkable), which the theorem reproduces. -/
theorem claimC7_wrap_move_legality_witness :
    ¬(0 ≤ (0 : Int) + (vec Direction.left).1 ∧
      0 ≤ (2 : Int) + (vec Direction.left).2 ∧
      (0 : Int) + (vec Direction.left).1 < (lvlTunnel.width : Int) ∧
      (2 : Int) + (vec Direction.left).2 < (lvlTunnel.height : Int)) ∧
    getWrapDestination lvlTunnel 0 2 Direction.left =
      some (mirrorDest lvlTunnel 0 2 Direction.left) :=
  ⟨by decide, by
    have h := (claimC7_wrap_move_legality lvlTunnel 0 2 Direction.left
      (by decide) (by decide) (by decide) (by decide) (by decide)).2
      (by decide)
    rw [h.2, if_pos (by decide)]⟩

/-! ### Generic generator-grid lemmas -/

/-- Dimension well-formedness of a generator grid (holds for the initial
`replicate` grid and is preserved by every pass). -/
def GWf (width height : Nat) (g : GenGrid) : Prop :=
  g.length = height ∧ ∀ row ∈ g, row.length = width

/-- Everything `g'` holds beyond `g` was written with a character from
`S` (the per-pass write alphabet). -/
def GridWrites (width height : Nat) (S : List Char) (g g' : GenGrid) :
    Prop :=
  ∀ x y c, gget width height g' x y = some c →
    c ∈ S ∨ gget width height g x y = some c

theorem gridWritesRefl (width height : Nat) (S : List Char) (g : GenGrid) :
    GridWrites width height S g g :=
  fun _ _ _ h => Or.inr h

theorem gridWritesTrans {width height : Nat} {S : List Char}
    {g1 g2 g3 : GenGrid} (h12 : GridWrites width height S g1 g2)
    (h23 : GridWrites width height S g2 g3) :
    GridWrites width height S g1 g3 := by
  intro x y c h
  rcases h23 x y c h with h | h
  · exact Or.inl h
  · exact h12 x y c h

theorem gridWritesMono {width height : Nat} {S T : List Char}
    {g g' : GenGrid} (hsub : ∀ c ∈ S, c ∈ T)
    (h : GridWrites width height S g g') :
    GridWrites width height T g g' := by
  intro x y c hc
  rcases h x y c hc with h | h
  · exact Or.inl (hsub c h)
  · exact Or.inr h

theorem gwfSetCell (width height : Nat) (m : GenGrid) (x y : Int)
    (v : Char) (hwf : GWf width height m) :
    GWf width height (setCell m x y v) := by
  obtain ⟨hlen, hrows⟩ := hwf
  constructor
  · rw [setCellLength]; exact hlen
  · intro row hmem
    unfold setCell at hmem
    split at hmem
    · exact hrows row hmem
    · split at hmem
      · exact hrows row hmem
      · rename_i r0 hr0
        rcases List.mem_or_eq_of_mem_set hmem with h | h
        · exact hrows row h
        · subst h
          rw [List.length_set]
          exact hrows r0 (List.get?_mem hr0)

theorem gwfGset (width height : Nat) (g : GenGrid) (x y : Int) (v : Char)
    (hwf : GWf width height g) : GWf width height (gset width height g x y v) := by
  unfold gset
  split
  · exact hwf
  · exact gwfSetCell width height g x ((height : Int) - 1 - y) v hwf

theorem cellAtSetCellNone (m : List (List α)) (x y : Int) (v : α)
    (hc : cellAt m x y = none) :
    cellAt (setCell m x y v) x y = none := by
  by_cases hneg : x < 0 ∨ y < 0
  · unfold cellAt
    rw [if_pos hneg]
  · unfold cellAt at hc ⊢
    rw [if_neg hneg] at hc ⊢
    unfold setCell
    rw [if_neg hneg]
    cases hrow : m.get? y.toNat with
    | none => rw [hrow]; rw [hrow] at hc; simpa using hc
    | some row =>
      rw [hrow] at hc
      simp only [Option.some_bind] at hc
      rw [listGetSetSelf, hrow]
      simp only [Option.map_some', Option.some_bind]
      have hlen := List.get?_eq_none.mp hc
      exact List.get?_eq_none.mpr (by rw [List.length_set]; exact hlen)

theorem cellAtSetCellCases (m : List (List α)) (x y x' y' : Int) (v : α)
    (c : α) (h : cellAt (setCell m x y v) x' y' = some c) :
    c = v ∨ cellAt m x' y' = some c := by
  by_cases hxy : x = x' ∧ y = y'
  · obtain ⟨rfl, rfl⟩ := hxy
    cases hc : cellAt m x y with
    | some w =>
      rw [cellAtSetCellSelf m x y v (by rw [hc]; rfl)] at h
      exact Or.inl (Option.some.inj h).symm
    | none =>
      rw [cellAtSetCellNone m x y v hc] at h
      exact Option.noConfusion h
  · rw [cellAtSetCellNe m x y x' y' v hxy] at h
    exact Or.inr h

theorem ggetGsetCases (width height : Nat) (g : GenGrid) (x y x' y' : Int)
    (v : Char) (c : Char)
    (h : gget width height (gset width height g x y v) x' y' = some c) :
    c = v ∨ gget width height g x' y' = some c := by
  unfold gset at h
  split at h
  · exact Or.inr h
  · unfold gget at h ⊢
    split at h
    · exact Option.noConfusion h
    · rcases cellAtSetCellCases g x ((height : Int) - 1 - y) x'
        ((height : Int) - 1 - y') v c h with hv | hold
      · exact Or.inl hv
      · rw [if_neg (by assumption)]
        exact Or.inr hold

theorem gridWritesGset (width height : Nat) (S : List Char) (g : GenGrid)
    (x y : Int) (v : Char) (hv : v ∈ S) :
    GridWrites width height S g (gset width height g x y v) := by
  intro x' y' c h
  rcases ggetGsetCases width height g x y x' y' v c h with rfl | h
  · exact Or.inl hv
  · exact Or.inr h

theorem gridWritesSetPellet (width height : Nat) (S : List Char)
    (g : GenGrid) (x y : Int) (hv : '.' ∈ S) :
    GridWrites width height S g (setPelletAt width height g x y) := by
  unfold setPelletAt
  split
  · exact gridWritesRefl width height S g
  · split
    · exact gridWritesGset width height S g x y '.' hv
    · exact gridWritesRefl width height S g

theorem gwfSetPellet (width height : Nat) (g : GenGrid) (x y : Int)
    (hwf : GWf width height g) :
    GWf width height (setPelletAt width height g x y) := by
  unfold setPelletAt
  split
  · exact hwf
  · split
    · exact gwfGset width height g x y '.' hwf
    · exact hwf

theorem ggetGsetSame (width height : Nat) (g : GenGrid) (x y : Int)
    (v : Char) (hwf : GWf width height g) (hx0 : 0 ≤ x)
    (hxw : x < (width : Int)) (hy0 : 0 ≤ y) (hyh : y < (height : Int)) :
    gget width height (gset width height g x y v) x y = some v := by
  obtain ⟨hlen, hrows⟩ := hwf
  unfold gset gget
  rw [if_neg (by omega), if_neg (by omega)]
  apply cellAtSetCellSelf
  unfold cellAt
  rw [if_neg (by omega)]
  cases hrow : g.get? ((height : Int) - 1 - y).toNat with
  | none =>
    exfalso
    have := List.get?_eq_none.mp hrow
    omega
  | some row =>
    have hwid := hrows row (List.get?_mem hrow)
    simp only [Option.some_bind]
    cases hcol : row.get? x.toNat with
    | none =>
      exfalso
      have := List.get?_eq_none.mp hcol
      omega
    | some c => rfl

theorem ggetGsetOther (width height : Nat) (g : GenGrid) (x y x' y' : Int)
    (v : Char) (hne : ¬(x = x' ∧ y = y')) :
    gget width height (gset width height g x y v) x' y' =
      gget width height g x' y' := by
  unfold gset
  split
  · rfl
  · unfold gget
    split
    · rfl
    · rename_i hb hb'
      apply cellAtSetCellNe
      intro hc
      obtain ⟨hc1, hc2⟩ := hc
      exact hne ⟨hc1, by omega⟩

/-- Fold-preservation of an arbitrary state predicate. -/
theorem foldlPres {σ β : Type _} (P : σ → Prop) (f : σ → β → σ)
    (h : ∀ s b, P s → P (f s b)) :
    ∀ (L : List β) (s : σ), P s → P (L.foldl f s) := by
  intro L
  induction L with
  | nil => exact fun s hs => hs
  | cons b L ih => intro s hs; exact ih _ (h s b hs)

/-- The combined per-pass invariant: dimensions intact and all writes
beyond the pass's input `g0` drawn from `S`. -/
def PassOk (width height : Nat) (S : List Char) (g0 g : GenGrid) : Prop :=
  GWf width height g ∧ GridWrites width height S g0 g

theorem passOkRefl (width height : Nat) (S : List Char) (g0 : GenGrid)
    (hwf : GWf width height g0) : PassOk width height S g0 g0 :=
  ⟨hwf, gridWritesRefl width height S g0⟩

theorem passOkGset (width height : Nat) (S : List Char) (g0 g : GenGrid)
    (x y : Int) (v : Char) (hv : v ∈ S)
    (h : PassOk width height S g0 g) :
    PassOk width height S g0 (gset width height g x y v) :=
  ⟨gwfGset width height g x y v h.1,
    gridWritesTrans h.2 (gridWritesGset width height S g x y v hv)⟩

theorem passOkSetPellet (width height : Nat) (S : List Char)
    (g0 g : GenGrid) (x y : Int) (hv : '.' ∈ S)
    (h : PassOk width height S g0 g) :
    PassOk width height S g0 (setPelletAt width height g x y) :=
  ⟨gwfSetPellet width height g x y h.1,
    gridWritesTrans h.2 (gridWritesSetPellet width height S g x y hv)⟩

theorem passOkTrans {width height : Nat} {S : List Char} {g0 g1 g2 : GenGrid}
    (h1 : PassOk width height S g0 g1) (h2 : PassOk width height S g1 g2) :
    PassOk width height S g0 g2 :=
  ⟨h2.1, gridWritesTrans h1.2 h2.2⟩

/-- No cell of the grid holds the character `ch`. -/
def GNone (width height : Nat) (ch : Char) (g : GenGrid) : Prop :=
  ∀ x y c, gget width height g x y = some c → c ≠ ch

theorem gnoneGset (width height : Nat) (ch : Char) (g : GenGrid)
    (x y : Int) (v : Char) (hv : v ≠ ch) (hg : GNone width height ch g) :
    GNone width height ch (gset width height g x y v) := by
  intro x' y' c hc
  rcases ggetGsetCases width height g x y x' y' v c hc with rfl | h
  · exact hv
  · exact hg x' y' c h

theorem gnoneOfWrites {width height : Nat} {S : List Char} {ch : Char}
    {g g' : GenGrid} (hw : GridWrites width height S g g')
    (hS : ch ∉ S) (hg : GNone width height ch g) :
    GNone width height ch g' := by
  intro x y c hc
  rcases hw x y c hc with h | h
  · intro hc2; exact hS (hc2 ▸ h)
  · exact hg x y c h

/-! Per-pass invariant lemmas (dimensions + write alphabet). -/

theorem expandGroupsPassOk (width height gw gh : Nat)
    (defs : List (List Shape)) (g : GenGrid) (S : List Char)
    (hdot : '.' ∈ S) (hwall : '#' ∈ S) (hwf : GWf width height g) :
    PassOk width height S g (expandGroups width height gw gh defs g) := by
  unfold expandGroups
  apply foldlPres (PassOk width height S g) _ ?_ _ _
    (passOkRefl width height S g hwf)
  intro g1 gx h1
  apply foldlPres (PassOk width height S g) _ ?_ _ _ h1
  intro g2 gy h2
  apply foldlPres (PassOk width height S g) _ ?_ _ _ h2
  intro g3 lx h3
  apply foldlPres (PassOk width height S g) _ ?_ _ _ h3
  intro g4 ly h4
  apply passOkGset _ _ _ _ _ _ _ _ ?_ h4
  first
  | assumption
  | split
    · exact hdot
    · exact hwall

theorem mirrorPres (width height : Nat) (g : GenGrid) (ch : Char)
    (hwf : GWf width height g) (hg : GNone width height ch g) :
    GWf width height (mirrorLeftToRight width height g) ∧
      GNone width height ch (mirrorLeftToRight width height g) := by
  unfold mirrorLeftToRight
  apply foldlPres (fun g2 => GWf width height g2 ∧ GNone width height ch g2)
    _ ?_ _ _ ⟨hwf, hg⟩
  intro g1 yn h1
  apply foldlPres (fun g2 => GWf width height g2 ∧ GNone width height ch g2)
    _ ?_ _ _ h1
  intro g2 xn h2
  simp only []
  split
  · exact h2
  · split
    · exact h2
    · rename_i v hv
      exact ⟨gwfGset _ _ _ _ _ _ h2.1,
        gnoneGset _ _ _ _ _ _ _ (h2.2 _ _ v hv) h2.2⟩

theorem enforceBorderWallsPassOk (width height : Nat) (g : GenGrid)
    (S : List Char) (hwall : '#' ∈ S) (hwf : GWf width height g) :
    PassOk width height S g (enforceBorderWalls width height g) := by
  unfold enforceBorderWalls
  apply foldlPres (PassOk width height S g) _ ?_ _ _ ?_
  · intro g1 yn h1
    exact passOkGset _ _ _ _ _ _ _ _ hwall
      (passOkGset _ _ _ _ _ _ _ _ hwall h1)
  · apply foldlPres (PassOk width height S g) _ ?_ _ _
      (passOkRefl width height S g hwf)
    intro g1 xn h1
    exact passOkGset _ _ _ _ _ _ _ _ hwall
      (passOkGset _ _ _ _ _ _ _ _ hwall h1)

theorem carveGhostBoxPassOk (width height : Nat) (g : GenGrid)
    (S : List Char) (hwall : '#' ∈ S) (hsp : ' ' ∈ S) (hdot : '.' ∈ S)
    (hwf : GWf width height g) :
    PassOk width height S g (carveGhostBox width height g).1 := by
  unfold carveGhostBox
  apply passOkGset _ _ _ _ _ _ _ _ hdot
  apply passOkGset _ _ _ _ _ _ _ _ hdot
  apply passOkGset _ _ _ _ _ _ _ _ hsp
  refine foldlPres
    (fun st : GenGrid × List GridPos => PassOk width height S g st.1) _ ?_ _ _
    (passOkRefl width height S g hwf)
  intro st y hst
  refine foldlPres
    (fun st : GenGrid × List GridPos => PassOk width height S g st.1) _ ?_ _ _
    hst
  intro st2 x hst2
  simp only []
  split
  · exact passOkGset _ _ _ _ _ _ _ _
      (by first | assumption | (split <;> assumption)) hst2
  · exact passOkGset _ _ _ _ _ _ _ _
      (by first | assumption | (split <;> assumption)) hst2

theorem removeIncorrectTilesPassOk (width height : Nat)
    (ghostSpace : List GridPos) (g : GenGrid) (S : List Char)
    (hdot : '.' ∈ S) (hwf : GWf width height g) :
    PassOk width height S g
      (removeIncorrectTiles width height ghostSpace g) := by
  unfold removeIncorrectTiles
  apply foldlPres (PassOk width height S g) _ ?_ _ _
    (passOkRefl width height S g hwf)
  intro g1 k h1
  simp only []
  split
  · exact h1
  · split
    · exact passOkGset _ _ _ _ _ _ _ _ hdot h1
    · exact h1

theorem placeMirroredPowerPassOk (width height : Nat) (g : GenGrid)
    (x y : Int) (S : List Char) (hpow : 'o' ∈ S) (hwf : GWf width height g) :
    PassOk width height S g (placeMirroredPower width height g x y) := by
  unfold placeMirroredPower
  simp only []
  split
  · split
    · exact passOkGset _ _ _ _ _ _ _ _ hpow
        (passOkGset _ _ _ _ _ _ _ _ hpow (passOkRefl width height S g hwf))
    · exact passOkGset _ _ _ _ _ _ _ _ hpow (passOkRefl width height S g hwf)
  · split
    · exact passOkGset _ _ _ _ _ _ _ _ hpow (passOkRefl width height S g hwf)
    · exact passOkRefl width height S g hwf

theorem placePowerPelletsPassOk (width height : Nat) (box : GhostBox)
    (g : GenGrid) (S : List Char) (hpow : 'o' ∈ S)
    (hwf : GWf width height g) :
    PassOk width height S g (placePowerPellets width height box g) := by
  unfold placePowerPellets
  simp only []
  split
  · rename_i p hp
    split
    · rename_i q hq
      exact passOkTrans
        (placeMirroredPowerPassOk width height g q.1 q.2 S hpow hwf)
        (placeMirroredPowerPassOk width height _ p.1 p.2 S hpow
          (placeMirroredPowerPassOk width height g q.1 q.2 S hpow hwf).1)
    · exact placeMirroredPowerPassOk width height g p.1 p.2 S hpow hwf
  · split
    · rename_i q hq
      exact placeMirroredPowerPassOk width height g q.1 q.2 S hpow hwf
    · exact passOkRefl width height S g hwf

theorem fillPelletsPassOk (width height : Nat) (box : GhostBox)
    (g : GenGrid) (S : List Char) (hdot : '.' ∈ S)
    (hwf : GWf width height g) :
    PassOk width height S g
      (fillPelletsOutsideGhostBox width height box g) := by
  unfold fillPelletsOutsideGhostBox
  apply foldlPres (PassOk width height S g) _ ?_ _ _
    (passOkRefl width height S g hwf)
  intro g1 y h1
  apply foldlPres (PassOk width height S g) _ ?_ _ _ h1
  intro g2 x h2
  split
  · exact h2
  · split
    · exact passOkGset _ _ _ _ _ _ _ _ hdot h2
    · exact passOkGset _ _ _ _ _ _ _ _ hdot h2
    · exact h2

theorem scanWidthOncePassOk (width height : Nat) (st : GenGrid × Bool)
    (S : List Char) (hdot : '.' ∈ S) (hwf : GWf width height st.1) :
    PassOk width height S st.1 (scanWidthOnce width height st).1 := by
  unfold scanWidthOnce
  refine foldlPres
    (fun st2 : GenGrid × Bool => PassOk width height S st.1 st2.1) _ ?_ _ _
    (passOkRefl width height S st.1 hwf)
  intro st2 xn h2
  refine foldlPres
    (fun st3 : GenGrid × Bool => PassOk width height S st.1 st3.1) _ ?_ _ _ h2
  intro st3 yn h3
  simp only []
  split
  · exact h3
  · split
    · exact passOkSetPellet _ _ _ _ _ _ _ hdot
        (passOkSetPellet _ _ _ _ _ _ _ hdot h3)
    · split
      · exact passOkSetPellet _ _ _ _ _ _ _ hdot h3
      · split
        · exact passOkSetPellet _ _ _ _ _ _ _ hdot
            (passOkSetPellet _ _ _ _ _ _ _ hdot h3)
        · split
          · exact passOkSetPellet _ _ _ _ _ _ _ hdot h3
          · exact h3

theorem addPelletsToWidthPassOk (width height : Nat) (S : List Char)
    (hdot : '.' ∈ S) (fuel : Nat) :
    ∀ g : GenGrid, GWf width height g →
      PassOk width height S g (addPelletsToWidth width height fuel g) := by
  induction fuel with
  | zero => intro g hwf; exact passOkRefl width height S g hwf
  | succ fuel ih =>
    intro g hwf
    unfold addPelletsToWidth
    have hscan := scanWidthOncePassOk width height (g, false) S hdot hwf
    simp only []
    split
    · exact passOkTrans hscan (ih _ hscan.1)
    · exact hscan

theorem uWalkDownPassOk (width height : Nat) (S : List Char)
    (hdot : '.' ∈ S) (fuel : Nat) :
    ∀ (g : GenGrid) (x cy : Int), GWf width height g →
      PassOk width height S g (uWalkDown width height fuel g x cy) := by
  induction fuel with
  | zero => intro g x cy hwf; exact passOkRefl width height S g hwf
  | succ fuel ih =>
    intro g x cy hwf
    unfold uWalkDown
    simp only []
    split
    · exact passOkRefl width height S g hwf
    · split
      · exact passOkRefl width height S g hwf
      · split
        · exact passOkSetPellet _ _ _ _ _ _ _ hdot
            (passOkRefl width height S g hwf)
        · exact passOkTrans
            (passOkSetPellet _ _ _ _ _ _ _ hdot
              (passOkRefl width height S g hwf))
            (ih _ x (cy - 1) (gwfSetPellet _ _ _ _ _ hwf))

theorem uWalkUpPassOk (width height : Nat) (S : List Char)
    (hdot : '.' ∈ S) (fuel : Nat) :
    ∀ (g : GenGrid) (x cy : Int), GWf width height g →
      PassOk width height S g (uWalkUp width height fuel g x cy) := by
  induction fuel with
  | zero => intro g x cy hwf; exact passOkRefl width height S g hwf
  | succ fuel ih =>
    intro g x cy hwf
    unfold uWalkUp
    simp only []
    split
    · exact passOkRefl width height S g hwf
    · split
      · exact passOkRefl width height S g hwf
      · split
        · exact passOkSetPellet _ _ _ _ _ _ _ hdot
            (passOkRefl width height S g hwf)
        · exact passOkTrans
            (passOkSetPellet _ _ _ _ _ _ _ hdot
              (passOkRefl width height S g hwf))
            (ih _ x (cy + 1) (gwfSetPellet _ _ _ _ _ hwf))

theorem scanHeightOncePassOk (width height : Nat) (st : GenGrid × Bool)
    (S : List Char) (hdot : '.' ∈ S) (hwf : GWf width height st.1) :
    PassOk width height S st.1 (scanHeightOnce width height st).1 := by
  unfold scanHeightOnce
  refine foldlPres
    (fun st2 : GenGrid × Bool => PassOk width height S st.1 st2.1) _ ?_ _ _
    (passOkRefl width height S st.1 hwf)
  intro st2 xn h2
  refine foldlPres
    (fun st3 : GenGrid × Bool => PassOk width height S st.1 st3.1) _ ?_ _ _ h2
  intro st3 yn h3
  simp only []
  split
  · exact h3
  · split
    · exact passOkTrans
        (passOkSetPellet _ _ _ _ _ _ _ hdot h3)
        (uWalkDownPassOk width height S hdot (height + 1) _ _ _
          (passOkSetPellet _ _ _ _ _ _ _ hdot h3).1)
    · split
      · exact passOkTrans
          (passOkSetPellet _ _ _ _ _ _ _ hdot h3)
          (uWalkUpPassOk width height S hdot (height + 1) _ _ _
            (passOkSetPellet _ _ _ _ _ _ _ hdot h3).1)
      · exact h3

theorem addPelletsToHeightPassOk (width height : Nat) (S : List Char)
    (hdot : '.' ∈ S) (fuel : Nat) :
    ∀ g : GenGrid, GWf width height g →
      PassOk width height S g (addPelletsToHeight width height fuel g) := by
  induction fuel with
  | zero => intro g hwf; exact passOkRefl width height S g hwf
  | succ fuel ih =>
    intro g hwf
    unfold addPelletsToHeight
    have hscan := scanHeightOncePassOk width height (g, false) S hdot hwf
    simp only []
    split
    · exact passOkTrans hscan (ih _ hscan.1)
    · exact hscan

theorem addMissingPelletsPassOk (width height : Nat) (g : GenGrid)
    (S : List Char) (hdot : '.' ∈ S) (hwf : GWf width height g) :
    PassOk width height S g (addMissingPellets width height g) := by
  unfold addMissingPellets
  have h1 := addPelletsToWidthPassOk width height S hdot
    (width * height + 1) g hwf
  exact passOkTrans h1
    (addPelletsToHeightPassOk width height S hdot (width * height + 1) _ h1.1)

theorem carveRayStepPassOk (width height : Nat) (start : GridPos)
    (v : Int × Int) (st : GenGrid × Bool) (i : Nat) (S : List Char)
    (hdot : '.' ∈ S) (hwf : GWf width height st.1) :
    PassOk width height S st.1 (carveRayStep width height start v st i).1 := by
  unfold carveRayStep
  simp only []
  split
  · exact passOkRefl width height S st.1 hwf
  · split
    · split
      · exact passOkSetPellet _ _ _ _ _ _ _ hdot
          (passOkRefl width height S st.1 hwf)
      · exact passOkRefl width height S st.1 hwf
    · split
      · split
        · exact passOkSetPellet _ _ _ _ _ _ _ hdot
            (passOkSetPellet _ _ _ _ _ _ _ hdot
              (passOkRefl width height S st.1 hwf))
        · exact passOkSetPellet _ _ _ _ _ _ _ hdot
            (passOkRefl width height S st.1 hwf)
      · split
        · exact passOkSetPellet _ _ _ _ _ _ _ hdot
            (passOkRefl width height S st.1 hwf)
        · exact passOkRefl width height S st.1 hwf

theorem carveFromStartPassOk (width height : Nat)
    (disconnected : List GridPos) (st : GenGrid × Bool) (start : GridPos)
    (S : List Char) (hdot : '.' ∈ S) (hwf : GWf width height st.1) :
    PassOk width height S st.1
      (carveFromStart width height disconnected st start).1 := by
  unfold carveFromStart
  simp only []
  split
  · exact passOkRefl width height S st.1 hwf
  · refine foldlPres
      (fun st2 : GenGrid × Bool => PassOk width height S st.1 st2.1) _ ?_ _ _
      (passOkRefl width height S st.1 hwf)
    intro st2 i h2
    exact passOkTrans h2
      (carveRayStepPassOk width height start _ st2 i S hdot h2.1)

theorem fallbackWalkPassOk (width height : Nat) (v : Int × Int)
    (S : List Char) (hdot : '.' ∈ S) (fuel : Nat) :
    ∀ (st : GenGrid × Bool) (x y : Int), GWf width height st.1 →
      PassOk width height S st.1
        (fallbackWalk width height v fuel st x y).1.1 := by
  induction fuel with
  | zero => intro st x y hwf; exact passOkRefl width height S st.1 hwf
  | succ fuel ih =>
    intro st x y hwf
    unfold fallbackWalk
    have hstep : PassOk width height S st.1
        (if x + v.1 ≤ 0 ∨ y + v.2 ≤ 0 ∨ (width : Int) - 1 ≤ x + v.1 ∨
            (height : Int) - 1 ≤ y + v.2 then st
        else if gget width height st.1 (x + v.1) (y + v.2) = some '#' then
          (if gget width height
              (setPelletAt width height st.1 (x + v.1) (y + v.2))
              ((width : Int) - 1 - (x + v.1)) (y + v.2) = some '#' then
            setPelletAt width height
              (setPelletAt width height st.1 (x + v.1) (y + v.2))
              ((width : Int) - 1 - (x + v.1)) (y + v.2)
          else setPelletAt width height st.1 (x + v.1) (y + v.2), true)
        else st).1 := by
      split
      · exact passOkRefl width height S st.1 hwf
      · split
        · split
          · exact passOkSetPellet _ _ _ _ _ _ _ hdot
              (passOkSetPellet _ _ _ _ _ _ _ hdot
                (passOkRefl width height S st.1 hwf))
          · exact passOkSetPellet _ _ _ _ _ _ _ hdot
              (passOkRefl width height S st.1 hwf)
        · exact passOkRefl width height S st.1 hwf
    simp only []
    exact passOkTrans hstep (ih _ (x + v.1) (y + v.2) hstep.1)

theorem fallbackWalk2PassOk (width height : Nat) (v1 v2 : Int × Int)
    (f1 f2 : Nat) (x1 y1 : Int) (g : GenGrid) (S : List Char)
    (hdot : '.' ∈ S) (hwf : GWf width height g) :
    PassOk width height S g
      ((fallbackWalk width height v2 f2
        (fallbackWalk width height v1 f1 (g, false) x1 y1).1
        (fallbackWalk width height v1 f1 (g, false) x1 y1).2.1
        (fallbackWalk width height v1 f1 (g, false) x1 y1).2.2).1.1) := by
  have h1 := fallbackWalkPassOk width height v1 S hdot f1 (g, false) x1 y1 hwf
  exact passOkTrans h1
    (fallbackWalkPassOk width height v2 S hdot f2 _ _ _ h1.1)

theorem fallbackConnectPassOk (width height : Nat) (g : GenGrid)
    (connected disconnected : List GridPos) (S : List Char)
    (hdot : '.' ∈ S) (hwf : GWf width height g) :
    PassOk width height S g
      (fallbackConnectComponents width height g connected disconnected).1 := by
  unfold fallbackConnectComponents
  simp only []
  split
  · exact passOkRefl width height S g hwf
  · exact passOkRefl width height S g hwf
  · exact fallbackWalk2PassOk width height _ _ _ _ _ _ g S hdot hwf

theorem placePelletsDiscPassOk (width height : Nat) (g : GenGrid)
    (connected disconnected : List GridPos) (S : List Char)
    (hdot : '.' ∈ S) (hwf : GWf width height g) :
    PassOk width height S g
      (placePelletsForDisconnectedPath width height g connected
        disconnected).1 := by
  unfold placePelletsForDisconnectedPath
  have hfold : PassOk width height S g
      ((connected.filter fun p =>
        let halfGrid := 2 * p.x < (width : Int) - 2
        let centerPellet := p.x % 3 = 1 ∧ p.y % 3 = 1
        if ¬ (halfGrid ∧ centerPellet) then false
        else
          isWallG width height g (p.x - 1) p.y ||
            isWallG width height g (p.x + 1) p.y ||
            isWallG width height g p.x (p.y - 1) ||
            isWallG width height g p.x (p.y + 1)).foldl
        (carveFromStart width height disconnected) (g, false)).1 := by
    refine foldlPres
      (fun st : GenGrid × Bool => PassOk width height S g st.1) _ ?_ _ _
      (passOkRefl width height S g hwf)
    intro st p hst
    exact passOkTrans hst
      (carveFromStartPassOk width height disconnected st p S hdot hst.1)
  simp only []
  split
  · exact hfold
  · exact passOkTrans hfold
      (fallbackConnectPassOk width height _ connected disconnected S hdot
        hfold.1)

theorem connectScanPassOk (width height : Nat) (g : GenGrid) (S : List Char)
    (hdot : '.' ∈ S) (hwf : GWf width height g)
    (L : List (Int × Int)) :
    ∀ (visited : List GridPos) (copt : Option (List GridPos)),
      PassOk width height S g
        (connectScan width height g L visited copt).1 := by
  induction L with
  | nil => intro visited copt; exact passOkRefl width height S g hwf
  | cons p rest ih =>
    intro visited copt
    unfold connectScan
    split
    · exact ih _ _
    · split
      · exact ih _ _
      · split
        · exact ih _ _
        · exact placePelletsDiscPassOk width height g _ _ S hdot hwf

theorem checkForConnectedPathPassOk (width height : Nat) (g : GenGrid)
    (S : List Char) (hdot : '.' ∈ S) (hwf : GWf width height g) :
    PassOk width height S g (checkForConnectedPath width height g).1 := by
  unfold checkForConnectedPath
  exact connectScanPassOk width height g S hdot hwf _ [] none

theorem connectivityLoopPassOk (width height : Nat)
    (ghostSpace : List GridPos) (S : List Char) (hdot : '.' ∈ S)
    (fuel : Nat) :
    ∀ g : GenGrid, GWf width height g →
      PassOk width height S g
        (connectivityLoop width height ghostSpace fuel g) := by
  induction fuel with
  | zero => intro g hwf; exact passOkRefl width height S g hwf
  | succ fuel ih =>
    intro g hwf
    unfold connectivityLoop
    have h1 := checkForConnectedPathPassOk width height g S hdot hwf
    have h2 := passOkTrans h1
      (removeIncorrectTilesPassOk width height ghostSpace _ S hdot h1.1)
    simp only []
    split
    · exact h2
    · exact passOkTrans h2 (ih _ h2.1)

theorem spawnFoldPassOk (width height wanted : Nat) (S : List Char)
    (hG : 'G' ∈ S) (slots : List (Int × Int)) (st0 : GenGrid × Nat)
    (h0 : GWf width height st0.1) :
    PassOk width height S st0.1
      (slots.foldl (spawnStep width height wanted) st0).1 := by
  refine foldlPres
    (fun st : GenGrid × Nat => PassOk width height S st0.1 st.1) _ ?_ _ _
    (passOkRefl width height S st0.1 h0)
  intro st p hst
  unfold spawnStep
  split
  · exact hst
  · split
    · exact hst
    · exact passOkGset _ _ _ _ _ _ _ _ hG hst

theorem spawnTailPassOk (width height wanted : Nat) (S : List Char)
    (hP : 'P' ∈ S) (hG : 'G' ∈ S) (g : GenGrid) (hwf : GWf width height g)
    (p2 : Int × Int) (slots : List (Int × Int)) (gx gy : Int) :
    PassOk width height S g
      (let g1 := gset width height g p2.1 p2.2 'P'
       let st := slots.foldl (spawnStep width height wanted) (g1, 0)
       if st.2 = 0 then
         if gget width height st.1 gx gy ≠ some '#' then
           gset width height st.1 gx gy 'G'
         else st.1
       else st.1) := by
  simp only []
  have hps := passOkGset width height S g g p2.1 p2.2 'P' hP
    (passOkRefl width height S g hwf)
  have hfold := passOkTrans hps
    (spawnFoldPassOk width height wanted S hG slots
      (gset width height g p2.1 p2.2 'P', 0) hps.1)
  split
  · split
    · exact passOkGset _ _ _ _ _ _ _ _ hG hfold
    · exact hfold
  · exact hfold

theorem placeSpawnsPassOk (width height : Nat) (difficulty : Difficulty)
    (box : GhostBox) (g : GenGrid) (S : List Char) (hP : 'P' ∈ S)
    (hG : 'G' ∈ S) (hwf : GWf width height g) :
    PassOk width height S g
      (placeSpawns width height difficulty box g) := by
  unfold placeSpawns
  exact spawnTailPassOk width height _ S hP hG g hwf _ _ _ _

/-- Membership-aware fold preservation. -/
theorem foldlPresMem {σ β : Type _} (P : σ → Prop) (f : σ → β → σ) :
    ∀ (L : List β), (∀ s b, b ∈ L → P s → P (f s b)) →
      ∀ s : σ, P s → P (L.foldl f s) := by
  intro L
  induction L with
  | nil => exact fun _ s hs => hs
  | cons b L ih =>
    intro h s hs
    exact ih (fun s2 b2 hb2 => h s2 b2 (List.mem_cons_of_mem b hb2)) _
      (h s b (List.mem_cons_self b L) hs)

/-- Fold frame lemma: a cell no step touches keeps its value. -/
theorem foldlFrame {σ β : Type _} (width height : Nat) (proj : σ → GenGrid)
    (f : σ → β → σ) (P : β → Prop) (x y : Int)
    (hstep : ∀ s b, P b →
      gget width height (proj (f s b)) x y = gget width height (proj s) x y) :
    ∀ (L : List β) (s : σ), (∀ b ∈ L, P b) →
      gget width height (proj (L.foldl f s)) x y =
        gget width height (proj s) x y := by
  intro L
  induction L with
  | nil => exact fun s _ => rfl
  | cons b L ih =>
    intro s h
    rw [List.foldl_cons, ih _ (fun b2 hb2 => h b2 (List.mem_cons_of_mem b hb2)),
      hstep s b (h b (List.mem_cons_self b L))]

theorem mem_intRange {a b x : Int} (h : x ∈ intRange a b) :
    a ≤ x ∧ x ≤ b := by
  simp [intRange] at h
  obtain ⟨n, hn, hx⟩ := h
  omega

theorem intRange_mem {a b x : Int} (h1 : a ≤ x) (h2 : x ≤ b) :
    x ∈ intRange a b := by
  simp only [intRange]
  refine List.mem_map.mpr ⟨x - a, ?_, by omega⟩
  refine List.mem_flatMap.mpr
    ⟨(x - a).toNat, List.mem_range.mpr (by omega), ?_⟩
  simp
  omega

theorem gwfReplicate (width height : Nat) :
    GWf width height (List.replicate height (List.replicate width '#')) := by
  constructor
  · exact List.length_replicate height _
  · intro row hrow
    rw [List.eq_of_mem_replicate hrow]
    exact List.length_replicate width '#'

theorem cellAtReplicate (width height : Nat) (x y : Int) (c : Char)
    (h : cellAt (List.replicate height (List.replicate width '#')) x y =
      some c) : c = '#' := by
  unfold cellAt at h
  split at h
  · exact Option.noConfusion h
  · cases hr : (List.replicate height (List.replicate width '#')).get? y.toNat
      with
    | none => rw [hr] at h; exact Option.noConfusion h
    | some row =>
      rw [hr] at h
      simp only [Option.some_bind] at h
      have hrow : row = List.replicate width '#' :=
        List.eq_of_mem_replicate (List.get?_mem hr)
      subst hrow
      cases hc : (List.replicate width '#').get? x.toNat with
      | none => rw [hc] at h; exact Option.noConfusion h
      | some d =>
        rw [hc] at h
        have := List.eq_of_mem_replicate (List.get?_mem hc)
        subst this
        exact (Option.some.inj h).symm

theorem gnoneReplicate (width height : Nat) (ch : Char) (hch : ch ≠ '#') :
    GNone width height ch
      (List.replicate height (List.replicate width '#')) := by
  intro x y c hc
  unfold gget at hc
  split at hc
  · exact Option.noConfusion hc
  · rw [cellAtReplicate width height _ _ _ hc]
    exact fun h => hch h.symm

theorem ggetIsSome (width height : Nat) (g : GenGrid)
    (hwf : GWf width height g) (x y : Int) (hx0 : 0 ≤ x)
    (hxw : x < (width : Int)) (hy0 : 0 ≤ y) (hyh : y < (height : Int)) :
    ∃ c, gget width height g x y = some c := by
  obtain ⟨hlen, hrows⟩ := hwf
  unfold gget
  rw [if_neg (by omega)]
  unfold cellAt
  rw [if_neg (by omega)]
  cases hr : g.get? ((height : Int) - 1 - y).toNat with
  | none =>
    exfalso
    have := List.get?_eq_none.mp hr
    omega
  | some row =>
    have hwid := hrows row (List.get?_mem hr)
    simp only [Option.some_bind]
    cases hc : row.get? x.toNat with
    | none =>
      exfalso
      have := List.get?_eq_none.mp hc
      omega
    | some c => exact ⟨c, rfl⟩

/-- Occurrences of one character in the whole generator grid. -/
def gcount (g : GenGrid) (ch : Char) : Nat :=
  (g.map fun row => row.count ch).sum

theorem gcountGset (width height : Nat) (g : GenGrid) (x y : Int)
    (v w : Char) (hcell : gget width height g x y = some w) (ch : Char) :
    gcount (gset width height g x y v) ch + (if w = ch then 1 else 0) =
      gcount g ch + (if v = ch then 1 else 0) := by
  unfold gget at hcell
  split at hcell
  · exact Option.noConfusion hcell
  · unfold gset
    rw [if_neg (by assumption)]
    exact countMSetCell g x ((height : Int) - 1 - y) v w hcell ch

theorem gcountZero (g : GenGrid) (ch : Char)
    (h : ∀ x y c, cellAt g x y = some c → c ≠ ch) : gcount g ch = 0 := by
  unfold gcount
  induction g with
  | nil => rfl
  | cons row rest ih =>
    simp only [List.map_cons, List.sum_cons]
    have hrow : row.count ch = 0 := by
      rw [List.count_eq_zero]
      intro hmem
      obtain ⟨i, hi⟩ := List.get_of_mem hmem
      refine h (i : Int) 0 ch ?_ rfl
      unfold cellAt
      rw [if_neg (by omega)]
      simp only [Int.toNat_zero, List.get?_cons_zero, Option.some_bind,
        Int.toNat_natCast]
      rw [← hi]
      exact List.get?_eq_get i.isLt
    have hrest : (rest.map fun row => row.count ch).sum = 0 := by
      apply ih
      intro x y c hc
      refine h x (y + 1) c ?_
      unfold cellAt at hc ⊢
      split at hc
      · exact Option.noConfusion hc
      · rw [if_neg (by omega)]
        have hy : (y + 1).toNat = y.toNat + 1 := by omega
        rw [hy]
        simpa using hc
    omega

theorem gnoneGcountZero (width height : Nat) (g : GenGrid)
    (hwf : GWf width height g) (ch : Char)
    (h : GNone width height ch g) : gcount g ch = 0 := by
  obtain ⟨hlen, hrows⟩ := hwf
  apply gcountZero
  intro x y c hc
  have hx0 : ¬(x < 0 ∨ y < 0) := by
    by_contra hneg
    unfold cellAt at hc
    rw [if_pos (by omega)] at hc
    exact Option.noConfusion hc
  have hyh : y.toNat < height := by
    by_contra hbig
    unfold cellAt at hc
    rw [if_neg hx0] at hc
    rw [List.get?_eq_none.mpr (by omega)] at hc
    exact Option.noConfusion hc
  have hxw : x.toNat < width := by
    by_contra hbig
    unfold cellAt at hc
    rw [if_neg hx0] at hc
    cases hr : g.get? y.toNat with
    | none => rw [hr] at hc; exact Option.noConfusion hc
    | some row =>
      rw [hr] at hc
      simp only [Option.some_bind] at hc
      have := hrows row (List.get?_mem hr)
      rw [List.get?_eq_none.mpr (by omega)] at hc
      exact Option.noConfusion hc
  refine h x ((height : Int) - 1 - y) c ?_
  unfold gget
  rw [if_neg (by omega)]
  have : (height : Int) - 1 - ((height : Int) - 1 - y) = y := by omega
  rw [this]
  exact hc

/-- The ghost-house center column/row used by `placeSpawns`. -/
def boxCx (b : GhostBox) : Int := (b.x0 + b.x1) / 2

def boxCy (b : GhostBox) : Int := (b.y0 + b.y1) / 2

/-- Arithmetic sanity of the ghost box over the generator dimension
range (checked exhaustively below). -/
def boxFactsB (width height : Nat) : Bool :=
  let b := ghostBoxRect width height
  let gx := boxCx b
  let gy := boxCy b
  decide (1 ≤ b.x0) && decide (b.x1 ≤ (width : Int) - 2) &&
    decide (1 ≤ b.y0) && decide (b.y1 ≤ (height : Int) - 2) &&
    decide (b.x0 < gx - 1) && decide (gx + 1 < b.x1) &&
    decide (b.y0 < gy) && decide (gy < b.y1) &&
    decide (max 2 b.y0 - 1 < gy) &&
    decide (min ((height : Int) - 2) 8 - 1 < gy)

set_option maxRecDepth 8000 in
theorem boxFactsAll : ∀ w : Nat, w < 27 → ∀ h : Nat, h < 31 →
    boxFactsB (w + 15) (h + 15) = true := by decide

theorem boxFacts (width height : Nat) (hw1 : 15 ≤ width) (hw2 : width ≤ 41)
    (hh1 : 15 ≤ height) (hh2 : height ≤ 45) :
    1 ≤ (ghostBoxRect width height).x0 ∧
      (ghostBoxRect width height).x1 ≤ (width : Int) - 2 ∧
      1 ≤ (ghostBoxRect width height).y0 ∧
      (ghostBoxRect width height).y1 ≤ (height : Int) - 2 ∧
      (ghostBoxRect width height).x0 < boxCx (ghostBoxRect width height) - 1 ∧
      boxCx (ghostBoxRect width height) + 1 < (ghostBoxRect width height).x1 ∧
      (ghostBoxRect width height).y0 < boxCy (ghostBoxRect width height) ∧
      boxCy (ghostBoxRect width height) < (ghostBoxRect width height).y1 ∧
      max 2 (ghostBoxRect width height).y0 - 1 <
        boxCy (ghostBoxRect width height) ∧
      min ((height : Int) - 2) 8 - 1 < boxCy (ghostBoxRect width height) := by
  obtain ⟨w, rfl⟩ : ∃ w, width = w + 15 := ⟨width - 15, by omega⟩
  obtain ⟨h, rfl⟩ : ∃ h, height = h + 15 := ⟨height - 15, by omega⟩
  have hb := boxFactsAll w (by omega) h (by omega)
  unfold boxFactsB at hb
  simp only [Bool.and_eq_true, decide_eq_true_eq] at hb
  obtain ⟨⟨⟨⟨⟨⟨⟨⟨⟨h1, h2⟩, h3⟩, h4⟩, h5⟩, h6⟩, h7⟩, h8⟩, h9⟩, h10⟩ := hb
  exact ⟨h1, h2, h3, h4, h5, h6, h7, h8, h9, h10⟩


theorem mem_intCastRange (n : Nat) (x : Int) (h1 : 0 ≤ x)
    (h2 : x < (n : Int)) :
    x ∈ (do let a ← List.range n; pure ((a : Int)) : List Int) := by
  simp
  exact ⟨x.toNat, by omega, by omega⟩

theorem borderFold1Gwf (width height : Nat) (L : List Int) (g : GenGrid)
    (hwf : GWf width height g) :
    GWf width height
      (L.foldl (fun g (xn : Int) =>
        gset width height (gset width height g xn 0 '#') xn
          ((height : Int) - 1) '#') g) := by
  refine foldlPres (GWf width height) _ ?_ L g hwf
  intro s b hs
  exact gwfGset _ _ _ _ _ _ (gwfGset _ _ _ _ _ _ hs)

theorem borderFold1Frame (width height : Nat) (L : List Int) (g : GenGrid)
    (a b : Int) (hb : ¬(b = 0 ∨ b = (height : Int) - 1)) :
    gget width height
      (L.foldl (fun g (xn : Int) =>
        gset width height (gset width height g xn 0 '#') xn
          ((height : Int) - 1) '#') g) a b = gget width height g a b := by
  refine foldlFrame width height id _ (fun _ => True) a b ?_ L g
    (fun _ _ => trivial)
  intro s xn _
  simp only [id]
  rw [ggetGsetOther _ _ _ _ _ _ _ _ (by intro hc; exact hb (Or.inr hc.2.symm)),
    ggetGsetOther _ _ _ _ _ _ _ _ (by intro hc; exact hb (Or.inl hc.2.symm))]

theorem borderFold1Sets (width height : Nat) (hh2 : 2 ≤ height) :
    ∀ (L : List Int) (g : GenGrid), GWf width height g →
      ∀ v ∈ L, 0 ≤ v → v < (width : Int) →
        gget width height
          (L.foldl (fun g (xn : Int) =>
            gset width height (gset width height g xn 0 '#') xn
              ((height : Int) - 1) '#') g) v 0 = some '#' ∧
        gget width height
          (L.foldl (fun g (xn : Int) =>
            gset width height (gset width height g xn 0 '#') xn
              ((height : Int) - 1) '#') g) v ((height : Int) - 1) =
          some '#' := by
  intro L
  induction L with
  | nil => intro g hwf v hmem; exact absurd hmem (List.not_mem_nil v)
  | cons x rest ih =>
    intro g hwf v hmem hv0 hvw
    by_cases hvr : v ∈ rest
    · exact ih _ (gwfGset _ _ _ _ _ _ (gwfGset _ _ _ _ _ _ hwf)) v hvr hv0 hvw
    · have hx : v = x := by
        rcases List.mem_cons.mp hmem with h | h
        · exact h
        · exact absurd h hvr
      subst hx
      rw [List.foldl_cons]
      have hfr : ∀ c : Int,
          gget width height
            (rest.foldl (fun g (xn : Int) =>
              gset width height (gset width height g xn 0 '#') xn
                ((height : Int) - 1) '#')
              (gset width height (gset width height g v 0 '#') v
                ((height : Int) - 1) '#')) v c =
          gget width height
            (gset width height (gset width height g v 0 '#') v
              ((height : Int) - 1) '#') v c := by
        intro c
        refine foldlFrame width height id _ (fun m => ¬(m = v)) v c ?_ rest _
          (fun m hmr hc => hvr (hc ▸ hmr))
        intro s m hm
        simp only [id]
        rw [ggetGsetOther _ _ _ _ _ _ _ _ (fun hc => hm hc.1),
          ggetGsetOther _ _ _ _ _ _ _ _ (fun hc => hm hc.1)]
      constructor
      · rw [hfr 0,
          ggetGsetOther _ _ _ _ _ _ _ _ (by intro hc; omega),
          ggetGsetSame _ _ _ _ _ _ hwf hv0 hvw (by omega) (by omega)]
      · rw [hfr ((height : Int) - 1),
          ggetGsetSame _ _ _ _ _ _ (gwfGset _ _ _ _ _ _ hwf) hv0 hvw
            (by omega) (by omega)]

theorem borderFold2Frame (width height : Nat) (L : List Int) (g : GenGrid)
    (a b : Int) (ha : ¬(a = 0 ∨ a = (width : Int) - 1)) :
    gget width height
      (L.foldl (fun g (yn : Int) =>
        gset width height (gset width height g 0 yn '#')
          ((width : Int) - 1) yn '#') g) a b =
      gget width height g a b := by
  refine foldlFrame width height id _ (fun _ => True) a b ?_ L g
    (fun _ _ => trivial)
  intro s yn _
  simp only [id]
  rw [ggetGsetOther _ _ _ _ _ _ _ _ (by intro hc; exact ha (Or.inr hc.1.symm)),
    ggetGsetOther _ _ _ _ _ _ _ _ (by intro hc; exact ha (Or.inl hc.1.symm))]

theorem borderFold2Sets (width height : Nat) (hw2 : 2 ≤ width) :
    ∀ (L : List Int) (g : GenGrid), GWf width height g →
      ∀ v ∈ L, 0 ≤ v → v < (height : Int) →
        gget width height
          (L.foldl (fun g (yn : Int) =>
            gset width height (gset width height g 0 yn '#')
              ((width : Int) - 1) yn '#') g) 0 v = some '#' ∧
        gget width height
          (L.foldl (fun g (yn : Int) =>
            gset width height (gset width height g 0 yn '#')
              ((width : Int) - 1) yn '#') g) ((width : Int) - 1) v =
          some '#' := by
  intro L
  induction L with
  | nil => intro g hwf v hmem; exact absurd hmem (List.not_mem_nil v)
  | cons x rest ih =>
    intro g hwf v hmem hv0 hvh
    by_cases hvr : v ∈ rest
    · exact ih _ (gwfGset _ _ _ _ _ _ (gwfGset _ _ _ _ _ _ hwf)) v hvr hv0 hvh
    · have hx : v = x := by
        rcases List.mem_cons.mp hmem with h | h
        · exact h
        · exact absurd h hvr
      subst hx
      rw [List.foldl_cons]
      have hfr : ∀ c : Int,
          gget width height
            (rest.foldl (fun g (yn : Int) =>
              gset width height (gset width height g 0 yn '#')
                ((width : Int) - 1) yn '#')
              (gset width height (gset width height g 0 v '#')
                ((width : Int) - 1) v '#')) c v =
          gget width height
            (gset width height (gset width height g 0 v '#')
              ((width : Int) - 1) v '#') c v := by
        intro c
        refine foldlFrame width height id _ (fun m => ¬(m = v)) c v ?_ rest _
          (fun m hmr hc => hvr (hc ▸ hmr))
        intro s m hm
        simp only [id]
        rw [ggetGsetOther _ _ _ _ _ _ _ _ (fun hc => hm hc.2),
          ggetGsetOther _ _ _ _ _ _ _ _ (fun hc => hm hc.2)]
      constructor
      · rw [hfr 0,
          ggetGsetOther _ _ _ _ _ _ _ _ (by intro hc; omega),
          ggetGsetSame _ _ _ _ _ _ hwf (by omega) (by omega) hv0 hvh]
      · rw [hfr ((width : Int) - 1),
          ggetGsetSame _ _ _ _ _ _ (gwfGset _ _ _ _ _ _ hwf) (by omega)
            (by omega) hv0 hvh]

theorem enforceBorderSpec (width height : Nat) (g : GenGrid)
    (hwf : GWf width height g) (hw2 : 2 ≤ width) (hh2 : 2 ≤ height) :
    (∀ x y : Int, 0 ≤ x → x < (width : Int) → 0 ≤ y → y < (height : Int) →
      (x = 0 ∨ x = (width : Int) - 1 ∨ y = 0 ∨ y = (height : Int) - 1) →
      gget width height (enforceBorderWalls width height g) x y =
        some '#') ∧
    (∀ x y : Int, 0 < x → x < (width : Int) - 1 → 0 < y →
      y < (height : Int) - 1 →
      gget width height (enforceBorderWalls width height g) x y =
        gget width height g x y) := by
  unfold enforceBorderWalls
  simp only []
  have hwf1 := borderFold1Gwf width height
    (do let a ← List.range width; pure ((a : Int)) : List Int) g hwf
  constructor
  · intro x y hx0 hxw hy0 hyh hborder
    by_cases hxe : x = 0 ∨ x = (width : Int) - 1
    · have hmem := mem_intCastRange height y hy0 hyh
      have := borderFold2Sets width height hw2 _ _ hwf1 y hmem hy0 hyh
      rcases hxe with rfl | rfl
      · exact this.1
      · exact this.2
    · have hye : y = 0 ∨ y = (height : Int) - 1 := by
        rcases hborder with h | h | h | h
        · exact absurd (Or.inl h) hxe
        · exact absurd (Or.inr h) hxe
        · exact Or.inl h
        · exact Or.inr h
      rw [borderFold2Frame width height _ _ x y hxe]
      have hmem := mem_intCastRange width x hx0 hxw
      have := borderFold1Sets width height hh2 _ g hwf x hmem hx0 hxw
      rcases hye with rfl | rfl
      · exact this.1
      · exact this.2
  · intro x y hx0 hxw hy0 hyh
    rw [borderFold2Frame width height _ _ x y (by omega),
      borderFold1Frame width height _ _ x y (by omega)]

/-! Positive characterization of the ghost-box fill: strictly interior
box cells end as `' '` (the door/corridor writes stay on or above the
top edge). -/

theorem carveInnerGwf (width height : Nat) (x0 x1 y0 y1 y : Int)
    (xs : List Int) (st : GenGrid × List GridPos)
    (hwf : GWf width height st.1) :
    GWf width height
      (xs.foldl (fun (st : GenGrid × List GridPos) x =>
        let onBorder := x = x0 ∨ x = x1 ∨ y = y0 ∨ y = y1
        let g' := gset width height st.1 x y (if onBorder then '#' else ' ')
        if onBorder then (g', st.2) else (g', st.2 ++ [⟨x, y⟩])) st).1 := by
  refine foldlPres (fun st : GenGrid × List GridPos => GWf width height st.1)
    _ ?_ xs st hwf
  intro s x hs
  simp only []
  split
  · exact gwfGset _ _ _ _ _ _ hs
  · exact gwfGset _ _ _ _ _ _ hs

theorem carveInnerFrame (width height : Nat) (x0 x1 y0 y1 y : Int)
    (xs : List Int) (st : GenGrid × List GridPos) (a c : Int)
    (hc : ¬(c = y)) :
    gget width height
      (xs.foldl (fun (st : GenGrid × List GridPos) x =>
        let onBorder := x = x0 ∨ x = x1 ∨ y = y0 ∨ y = y1
        let g' := gset width height st.1 x y (if onBorder then '#' else ' ')
        if onBorder then (g', st.2) else (g', st.2 ++ [⟨x, y⟩])) st).1 a c =
    gget width height st.1 a c := by
  refine foldlFrame width height Prod.fst _ (fun _ => True) a c ?_ xs st
    (fun _ _ => trivial)
  intro s x _
  simp only []
  split
  · exact ggetGsetOther _ _ _ _ _ _ _ _ (fun h => hc h.2.symm)
  · exact ggetGsetOther _ _ _ _ _ _ _ _ (fun h => hc h.2.symm)

theorem carveInnerFrameX (width height : Nat) (x0 x1 y0 y1 y : Int)
    (xs : List Int) (st : GenGrid × List GridPos) (a c : Int)
    (ha : ∀ m ∈ xs, ¬(m = a)) :
    gget width height
      (xs.foldl (fun (st : GenGrid × List GridPos) x =>
        let onBorder := x = x0 ∨ x = x1 ∨ y = y0 ∨ y = y1
        let g' := gset width height st.1 x y (if onBorder then '#' else ' ')
        if onBorder then (g', st.2) else (g', st.2 ++ [⟨x, y⟩])) st).1 a c =
    gget width height st.1 a c := by
  refine foldlFrame width height Prod.fst _ (fun m => ¬(m = a)) a c ?_ xs st
    ha
  intro s x hx
  simp only []
  split
  · exact ggetGsetOther _ _ _ _ _ _ _ _ (fun h => hx h.1)
  · exact ggetGsetOther _ _ _ _ _ _ _ _ (fun h => hx h.1)

theorem carveInnerSets (width height : Nat) (x0 x1 y0 y1 y : Int)
    (hyy0 : ¬(y = y0)) (hyy1 : ¬(y = y1)) (hy0 : 0 ≤ y)
    (hyh : y < (height : Int)) :
    ∀ (xs : List Int) (st : GenGrid × List GridPos),
      GWf width height st.1 →
      ∀ a ∈ xs, ¬(a = x0) → ¬(a = x1) → 0 ≤ a → a < (width : Int) →
        gget width height
          (xs.foldl (fun (st : GenGrid × List GridPos) x =>
            let onBorder := x = x0 ∨ x = x1 ∨ y = y0 ∨ y = y1
            let g' := gset width height st.1 x y
              (if onBorder then '#' else ' ')
            if onBorder then (g', st.2) else (g', st.2 ++ [⟨x, y⟩])) st).1
          a y = some ' ' := by
  intro xs
  induction xs with
  | nil => intro st hwf a hmem; exact absurd hmem (List.not_mem_nil a)
  | cons x rest ih =>
    intro st hwf a hmem hax0 hax1 ha0 haw
    by_cases har : a ∈ rest
    · refine ih _ ?_ a har hax0 hax1 ha0 haw
      simp only []
      split
      · exact gwfGset _ _ _ _ _ _ hwf
      · exact gwfGset _ _ _ _ _ _ hwf
    · have hax : a = x := by
        rcases List.mem_cons.mp hmem with h | h
        · exact h
        · exact absurd h har
      subst hax
      rw [List.foldl_cons]
      rw [carveInnerFrameX width height x0 x1 y0 y1 y rest _ a y
        (fun m hmr hc => har (hc ▸ hmr))]
      simp only []
      split
      · rename_i hob
        rcases hob with h | h | h | h
        · exact absurd h hax0
        · exact absurd h hax1
        · exact absurd h hyy0
        · exact absurd h hyy1
      · exact ggetGsetSame _ _ _ _ _ _ hwf ha0 haw hy0 hyh

theorem carveOuterGwf (width height : Nat) (x0 x1 y0 y1 : Int)
    (ys : List Int) (st : GenGrid × List GridPos)
    (hwf : GWf width height st.1) :
    GWf width height
      (ys.foldl (fun (st : GenGrid × List GridPos) y =>
        (intRange x0 x1).foldl (fun (st : GenGrid × List GridPos) x =>
          let onBorder := x = x0 ∨ x = x1 ∨ y = y0 ∨ y = y1
          let g' := gset width height st.1 x y
            (if onBorder then '#' else ' ')
          if onBorder then (g', st.2) else (g', st.2 ++ [⟨x, y⟩])) st)
        st).1 := by
  refine foldlPres (fun st : GenGrid × List GridPos => GWf width height st.1)
    _ ?_ ys st hwf
  intro s y hs
  exact carveInnerGwf width height x0 x1 y0 y1 y _ s hs

theorem carveOuterFrameRow (width height : Nat) (x0 x1 y0 y1 : Int)
    (ys : List Int) (st : GenGrid × List GridPos) (a c : Int)
    (hc : ∀ m ∈ ys, ¬(c = m)) :
    gget width height
      (ys.foldl (fun (st : GenGrid × List GridPos) y =>
        (intRange x0 x1).foldl (fun (st : GenGrid × List GridPos) x =>
          let onBorder := x = x0 ∨ x = x1 ∨ y = y0 ∨ y = y1
          let g' := gset width height st.1 x y
            (if onBorder then '#' else ' ')
          if onBorder then (g', st.2) else (g', st.2 ++ [⟨x, y⟩])) st)
        st).1 a c = gget width height st.1 a c := by
  refine foldlFrame width height Prod.fst _ (fun m => ¬(c = m)) a c ?_ ys st
    hc
  intro s y hy
  exact carveInnerFrame width height x0 x1 y0 y1 y _ s a c hy

theorem carveOuterSets (width height : Nat) (x0 x1 y0 y1 : Int) :
    ∀ (ys : List Int) (st : GenGrid × List GridPos),
      GWf width height st.1 →
      ∀ b ∈ ys, ¬(b = y0) → ¬(b = y1) → 0 ≤ b → b < (height : Int) →
      ∀ a, x0 < a → a < x1 → 0 ≤ a → a < (width : Int) →
        gget width height
          (ys.foldl (fun (st : GenGrid × List GridPos) y =>
            (intRange x0 x1).foldl (fun (st : GenGrid × List GridPos) x =>
              let onBorder := x = x0 ∨ x = x1 ∨ y = y0 ∨ y = y1
              let g' := gset width height st.1 x y
                (if onBorder then '#' else ' ')
              if onBorder then (g', st.2) else (g', st.2 ++ [⟨x, y⟩])) st)
            st).1 a b = some ' ' := by
  intro ys
  induction ys with
  | nil => intro st hwf b hmem; exact absurd hmem (List.not_mem_nil b)
  | cons y rest ih =>
    intro st hwf b hmem hby0 hby1 hb0 hbh a hax0 hax1 ha0 haw
    by_cases hbr : b ∈ rest
    · exact ih _ (carveInnerGwf width height x0 x1 y0 y1 y _ st hwf) b hbr
        hby0 hby1 hb0 hbh a hax0 hax1 ha0 haw
    · have hby : b = y := by
        rcases List.mem_cons.mp hmem with h | h
        · exact h
        · exact absurd h hbr
      subst hby
      rw [List.foldl_cons]
      rw [carveOuterFrameRow width height x0 x1 y0 y1 rest _ a b
        (fun m hmr hc => hbr (hc ▸ hmr))]
      exact carveInnerSets width height x0 x1 y0 y1 b hby0 hby1 hb0 hbh
        (intRange x0 x1) st hwf a
        (intRange_mem (by omega) (by omega)) (by omega) (by omega) ha0 haw

theorem carveGhostBoxOpens (width height : Nat) (g : GenGrid)
    (hwf : GWf width height g) (a b : Int)
    (hax0 : (ghostBoxRect width height).x0 < a)
    (hax1 : a < (ghostBoxRect width height).x1)
    (hby0 : (ghostBoxRect width height).y0 < b)
    (hby1 : b < (ghostBoxRect width height).y1)
    (ha0 : 0 ≤ a) (haw : a < (width : Int)) (hb0 : 0 ≤ b)
    (hbh : b < (height : Int)) :
    gget width height (carveGhostBox width height g).1 a b = some ' ' := by
  unfold carveGhostBox
  simp only []
  rw [ggetGsetOther _ _ _ _ _ _ _ _ (fun h => by omega),
    ggetGsetOther _ _ _ _ _ _ _ _ (fun h => by omega),
    ggetGsetOther _ _ _ _ _ _ _ _ (fun h => by omega)]
  exact carveOuterSets width height (ghostBoxRect width height).x0
    (ghostBoxRect width height).x1 (ghostBoxRect width height).y0
    (ghostBoxRect width height).y1 _ (g, []) hwf b
    (intRange_mem (by omega) (by omega)) (by omega) (by omega) hb0 hbh a
    hax0 hax1 ha0 haw

/-- Where the chosen player start can lie: always in bounds, and never
on the ghost-slot row (it is either below both scan bands or outside
the box entirely). -/
def spawnAvoidOk (width height : Nat) (box : GhostBox) (p : Int × Int) :
    Prop :=
  0 ≤ p.1 ∧ p.1 < (width : Int) ∧ 0 ≤ p.2 ∧ p.2 < (height : Int) ∧
    (p.2 ≤ max 2 box.y0 - 1 ∨ p.2 ≤ min ((height : Int) - 2) 8 - 1 ∨
      ¬(box.x0 ≤ p.1 ∧ p.1 ≤ box.x1 ∧ box.y0 ≤ p.2 ∧ p.2 ≤ box.y1))

set_option maxHeartbeats 1000000 in
theorem spawnPlayerPosAvoid (width height : Nat) (box : GhostBox)
    (g : GenGrid) (hw : 1 ≤ width) (hh : 3 ≤ height)
    (hby : box.y0 ≤ (height : Int) - 2) :
    spawnAvoidOk width height box (spawnPlayerPos width height box g) := by
  have hp0 : spawnAvoidOk width height box
      (((width : Int) / 2 : Int),
        ((intRange 1 (max 2 box.y0 - 1)).find? fun y =>
          match gget width height g ((width : Int) / 2) y with
          | some c => c ≠ '#'
          | none => false).getD 1) := by
    cases hf : (intRange 1 (max 2 box.y0 - 1)).find? fun y =>
        match gget width height g ((width : Int) / 2) y with
        | some c => c ≠ '#'
        | none => false with
    | none =>
      simp only [hf, Option.getD_none]
      exact ⟨by omega, by omega, by omega, by omega, Or.inl (by omega)⟩
    | some yv =>
      simp only [hf, Option.getD_some]
      have hmem := mem_intRange (List.mem_of_find?_eq_some hf)
      exact ⟨by omega, by omega, by omega, by omega, Or.inl (by omega)⟩
  have hstep1 : ∀ q : Int × Int, spawnAvoidOk width height box q →
      spawnAvoidOk width height box
        (if gget width height g q.1 q.2 == some '#' then
          (((intRange 1 (min ((height : Int) - 2) 8 - 1)).flatMap fun y =>
            ((intRange (-8) 8).filterMap fun dx =>
              let x := ((width : Int) / 2 : Int) + dx
              if x ≤ 0 ∨ (width : Int) - 1 ≤ x then none
              else some (x, y))).find? fun p =>
            gget width height g p.1 p.2 ≠ some '#').getD q
        else q) := by
    intro q hq
    split
    · cases hf : ((intRange 1 (min ((height : Int) - 2) 8 - 1)).flatMap
          fun y =>
            ((intRange (-8) 8).filterMap fun dx =>
              let x := ((width : Int) / 2 : Int) + dx
              if x ≤ 0 ∨ (width : Int) - 1 ≤ x then none
              else some (x, y))).find? fun p =>
          gget width height g p.1 p.2 ≠ some '#' with
      | none => simp only [hf, Option.getD_none]; exact hq
      | some p =>
        simp only [hf, Option.getD_some]
        have hmem := List.mem_of_find?_eq_some hf
        rw [List.mem_flatMap] at hmem
        obtain ⟨y, hy, hpy⟩ := hmem
        have hyb := mem_intRange hy
        rw [List.mem_filterMap] at hpy
        obtain ⟨dx, hdx, hfx⟩ := hpy
        simp only [] at hfx
        split at hfx
        · exact Option.noConfusion hfx
        · have hp := Option.some.inj hfx
          subst hp
          exact ⟨by omega, by omega, by omega, by omega,
            Or.inr (Or.inl (by omega))⟩
    · exact hq
  have hstep2 : ∀ q : Int × Int, spawnAvoidOk width height box q →
      spawnAvoidOk width height box
        (if gget width height g q.1 q.2 == some '#' then
          (((intRange 1 ((height : Int) - 2)).flatMap fun y =>
            (intRange 1 ((width : Int) - 2)).filterMap fun x =>
              if box.x0 ≤ x && x ≤ box.x1 && box.y0 ≤ y && y ≤ box.y1 then
                none
              else some (x, y)).find? fun p =>
            gget width height g p.1 p.2 ≠ some '#').getD q
        else q) := by
    intro q hq
    split
    · cases hf : ((intRange 1 ((height : Int) - 2)).flatMap fun y =>
          (intRange 1 ((width : Int) - 2)).filterMap fun x =>
            if box.x0 ≤ x && x ≤ box.x1 && box.y0 ≤ y && y ≤ box.y1 then
              none
            else some (x, y)).find? fun p =>
          gget width height g p.1 p.2 ≠ some '#' with
      | none => simp only [hf, Option.getD_none]; exact hq
      | some p =>
        simp only [hf, Option.getD_some]
        have hmem := List.mem_of_find?_eq_some hf
        rw [List.mem_flatMap] at hmem
        obtain ⟨y, hy, hpy⟩ := hmem
        have hyb := mem_intRange hy
        rw [List.mem_filterMap] at hpy
        obtain ⟨x, hx, hfx⟩ := hpy
        have hxb := mem_intRange hx
        split at hfx
        · exact Option.noConfusion hfx
        · rename_i hcond
          have hp := Option.some.inj hfx
          subst hp
          refine ⟨by omega, by omega, by omega, by omega,
            Or.inr (Or.inr ?_)⟩
          intro hin
          apply hcond
          simp only [Bool.and_eq_true, decide_eq_true_eq]
          exact ⟨⟨⟨hin.1, hin.2.1⟩, hin.2.2.1⟩, hin.2.2.2⟩
    · exact hq
  unfold spawnPlayerPos
  simp only []
  exact hstep2 _ (hstep1 _ hp0)

/-- `placeSpawns` on a ghost-ready grid: exactly `ghostWanted` `'G'`
tiles are created, all on the slot row at the box center. -/
theorem placeSpawnsSpec (width height : Nat) (difficulty : Difficulty)
    (box : GhostBox) (g : GenGrid) (hwf : GWf width height g)
    (hGN : GNone width height 'G' g)
    (hw : 1 ≤ width) (hh : 3 ≤ height)
    (hby : box.y0 ≤ (height : Int) - 2)
    (hband1 : max 2 box.y0 - 1 < boxCy box)
    (hband2 : min ((height : Int) - 2) 8 - 1 < boxCy box)
    (hbx1 : box.x0 ≤ boxCx box - 1) (hbx2 : boxCx box + 1 ≤ box.x1)
    (hby3 : box.y0 ≤ boxCy box) (hby2 : boxCy box ≤ box.y1)
    (hb1 : 0 ≤ boxCx box - 1) (hb2 : boxCx box + 1 < (width : Int))
    (hb3 : 0 ≤ boxCy box) (hb4 : boxCy box < (height : Int))
    (c1 c2 c3 : Char)
    (hc1 : gget width height g (boxCx box - 1) (boxCy box) = some c1)
    (hc1n : c1 ≠ '#')
    (hc2 : gget width height g (boxCx box) (boxCy box) = some c2)
    (hc2n : c2 ≠ '#')
    (hc3 : gget width height g (boxCx box + 1) (boxCy box) = some c3)
    (hc3n : c3 ≠ '#') :
    gcount (placeSpawns width height difficulty box g) 'G' =
      ghostWanted difficulty ∧
    (∀ x y : Int,
      gget width height (placeSpawns width height difficulty box g) x y =
        some 'G' →
      y = boxCy box ∧ boxCx box - 1 ≤ x ∧ x ≤ boxCx box + 1) ∧
    GWf width height (placeSpawns width height difficulty box g) := by
  have havoid := spawnPlayerPosAvoid width height box g hw hh hby
  simp only [boxCx, boxCy] at hband1 hband2 hbx1 hbx2 hby3 hby2
  simp only [boxCx, boxCy] at hb1 hb2 hb3 hb4 hc1 hc2 hc3
  unfold placeSpawns
  simp only []
  set p2 := spawnPlayerPos width height box g with hp2def
  set gx := (box.x0 + box.x1) / 2 with hgxdef
  set gy := (box.y0 + box.y1) / 2 with hgydef
  obtain ⟨hpb1, hpb2, hpb3, hpb4, hpcase⟩ := havoid
  have hne : ∀ xi : Int, box.x0 ≤ xi → xi ≤ box.x1 →
      ¬(p2.1 = xi ∧ p2.2 = gy) := by
    intro xi hxi1 hxi2 ⟨hpx, hpy⟩
    rcases hpcase with hcase | hcase | hcase
    · omega
    · omega
    · exact hcase ⟨by omega, by omega, by omega, by omega⟩
  have hne1 := hne (gx - 1) hbx1 (by omega)
  have hne2 := hne gx (by omega) (by omega)
  have hne3 := hne (gx + 1) (by omega) hbx2
  have hwfP : GWf width height (gset width height g p2.1 p2.2 'P') :=
    gwfGset _ _ _ _ _ _ hwf
  have hGNP : GNone width height 'G' (gset width height g p2.1 p2.2 'P') :=
    gnoneGset _ _ _ _ _ _ _ (by decide) hGN
  have hcnt0 : gcount (gset width height g p2.1 p2.2 'P') 'G' = 0 :=
    gnoneGcountZero _ _ _ hwfP _ hGNP
  have hc1P : gget width height (gset width height g p2.1 p2.2 'P') (gx - 1)
      gy = some c1 := by
    rw [ggetGsetOther _ _ _ _ _ _ _ _ hne1]; exact hc1
  have hc2P : gget width height (gset width height g p2.1 p2.2 'P') gx gy =
      some c2 := by
    rw [ggetGsetOther _ _ _ _ _ _ _ _ hne2]; exact hc2
  have hc3P : gget width height (gset width height g p2.1 p2.2 'P') (gx + 1)
      gy = some c3 := by
    rw [ggetGsetOther _ _ _ _ _ _ _ _ hne3]; exact hc3
  have hc1G : c1 ≠ 'G' := hGN _ _ _ hc1
  have hc2G : c2 ≠ 'G' := hGN _ _ _ hc2
  have hc3G : c3 ≠ 'G' := hGN _ _ _ hc3
  -- Facts about the written grids.
  have hc2Q : gget width height
      (gset width height (gset width height g p2.1 p2.2 'P') (gx - 1) gy 'G')
      gx gy = some c2 := by
    rw [ggetGsetOther _ _ _ _ _ _ _ _ (by intro hc; omega)]; exact hc2P
  have hc3Q : gget width height
      (gset width height
        (gset width height (gset width height g p2.1 p2.2 'P') (gx - 1) gy
          'G') gx gy 'G') (gx + 1) gy = some c3 := by
    rw [ggetGsetOther _ _ _ _ _ _ _ _ (by intro hc; omega),
      ggetGsetOther _ _ _ _ _ _ _ _ (by intro hc; omega)]
    exact hc3P
  have hposP : ∀ x y : Int,
      gget width height (gset width height g p2.1 p2.2 'P') x y =
        some 'G' → False := by
    intro x y h
    exact hGNP x y 'G' h rfl
  have hcnt1 : gcount (gset width height
      (gset width height g p2.1 p2.2 'P') (gx - 1) gy 'G') 'G' = 1 := by
    have h := gcountGset width height _ (gx - 1) gy 'G' c1 hc1P 'G'
    rw [if_neg hc1G, if_pos rfl, hcnt0] at h
    omega
  have hcnt2 : gcount (gset width height (gset width height
      (gset width height g p2.1 p2.2 'P') (gx - 1) gy 'G') gx gy 'G') 'G' =
      2 := by
    have h := gcountGset width height _ gx gy 'G' c2 hc2Q 'G'
    rw [if_neg hc2G, if_pos rfl, hcnt1] at h
    omega
  have hcnt3 : gcount (gset width height (gset width height
      (gset width height (gset width height g p2.1 p2.2 'P') (gx - 1) gy
        'G') gx gy 'G') (gx + 1) gy 'G') 'G' = 3 := by
    have h := gcountGset width height _ (gx + 1) gy 'G' c3 hc3Q 'G'
    rw [if_neg hc3G, if_pos rfl, hcnt2] at h
    omega
  have hpos1 : ∀ x y : Int,
      gget width height (gset width height
        (gset width height g p2.1 p2.2 'P') (gx - 1) gy 'G') x y =
        some 'G' → y = gy ∧ gx - 1 ≤ x ∧ x ≤ gx + 1 := by
    intro x y h
    by_cases hxy : gx - 1 = x ∧ gy = y
    · exact ⟨hxy.2.symm, by omega, by omega⟩
    · rw [ggetGsetOther _ _ _ _ _ _ _ _ hxy] at h
      exact absurd h (fun hc => hposP x y hc)
  have hpos2 : ∀ x y : Int,
      gget width height (gset width height (gset width height
        (gset width height g p2.1 p2.2 'P') (gx - 1) gy 'G') gx gy 'G') x y =
        some 'G' → y = gy ∧ gx - 1 ≤ x ∧ x ≤ gx + 1 := by
    intro x y h
    by_cases hxy : gx = x ∧ gy = y
    · exact ⟨hxy.2.symm, by omega, by omega⟩
    · rw [ggetGsetOther _ _ _ _ _ _ _ _ hxy] at h
      exact hpos1 x y h
  have hpos3 : ∀ x y : Int,
      gget width height (gset width height (gset width height
        (gset width height (gset width height g p2.1 p2.2 'P') (gx - 1) gy
          'G') gx gy 'G') (gx + 1) gy 'G') x y =
        some 'G' → y = gy ∧ gx - 1 ≤ x ∧ x ≤ gx + 1 := by
    intro x y h
    by_cases hxy : gx + 1 = x ∧ gy = y
    · exact ⟨hxy.2.symm, by omega, by omega⟩
    · rw [ggetGsetOther _ _ _ _ _ _ _ _ hxy] at h
      exact hpos2 x y h
  cases difficulty with
  | easy =>
    simp only [ghostWanted]
    have e1 : spawnStep width height 1
        (gset width height g p2.1 p2.2 'P', 0) (gx - 1, gy) =
        (gset width height (gset width height g p2.1 p2.2 'P') (gx - 1) gy
          'G', 0 + 1) := by
      unfold spawnStep
      rw [if_neg (by omega),
        if_neg (fun hc => hc1n (Option.some.inj (hc1P ▸ hc)))]
    have e2 : ∀ q : Int × Int, spawnStep width height 1
        (gset width height (gset width height g p2.1 p2.2 'P') (gx - 1) gy
          'G', 0 + 1) q =
        (gset width height (gset width height g p2.1 p2.2 'P') (gx - 1) gy
          'G', 0 + 1) := by
      intro q
      unfold spawnStep
      rw [if_pos (by omega)]
    rw [List.foldl_cons, e1, List.foldl_cons, e2, List.foldl_cons, e2,
      List.foldl_cons, e2, List.foldl_nil, if_neg (by omega)]
    exact ⟨hcnt1, hpos1, gwfGset _ _ _ _ _ _ hwfP⟩
  | normal =>
    simp only [ghostWanted]
    have e1 : spawnStep width height 2
        (gset width height g p2.1 p2.2 'P', 0) (gx - 1, gy) =
        (gset width height (gset width height g p2.1 p2.2 'P') (gx - 1) gy
          'G', 0 + 1) := by
      unfold spawnStep
      rw [if_neg (by omega),
        if_neg (fun hc => hc1n (Option.some.inj (hc1P ▸ hc)))]
    have e2 : spawnStep width height 2
        (gset width height (gset width height g p2.1 p2.2 'P') (gx - 1) gy
          'G', 0 + 1) (gx, gy) =
        (gset width height (gset width height
          (gset width height g p2.1 p2.2 'P') (gx - 1) gy 'G') gx gy 'G',
          0 + 1 + 1) := by
      unfold spawnStep
      rw [if_neg (by omega),
        if_neg (fun hc => hc2n (Option.some.inj (hc2Q ▸ hc)))]
    have e3 : ∀ q : Int × Int, spawnStep width height 2
        (gset width height (gset width height
          (gset width height g p2.1 p2.2 'P') (gx - 1) gy 'G') gx gy 'G',
          0 + 1 + 1) q =
        (gset width height (gset width height
          (gset width height g p2.1 p2.2 'P') (gx - 1) gy 'G') gx gy 'G',
          0 + 1 + 1) := by
      intro q
      unfold spawnStep
      rw [if_pos (by omega)]
    rw [List.foldl_cons, e1, List.foldl_cons, e2, List.foldl_cons, e3,
      List.foldl_cons, e3, List.foldl_nil, if_neg (by omega)]
    exact ⟨hcnt2, hpos2,
      gwfGset _ _ _ _ _ _ (gwfGset _ _ _ _ _ _ hwfP)⟩
  | hard =>
    simp only [ghostWanted]
    have e1 : spawnStep width height 3
        (gset width height g p2.1 p2.2 'P', 0) (gx - 1, gy) =
        (gset width height (gset width height g p2.1 p2.2 'P') (gx - 1) gy
          'G', 0 + 1) := by
      unfold spawnStep
      rw [if_neg (by omega),
        if_neg (fun hc => hc1n (Option.some.inj (hc1P ▸ hc)))]
    have e2 : spawnStep width height 3
        (gset width height (gset width height g p2.1 p2.2 'P') (gx - 1) gy
          'G', 0 + 1) (gx, gy) =
        (gset width height (gset width height
          (gset width height g p2.1 p2.2 'P') (gx - 1) gy 'G') gx gy 'G',
          0 + 1 + 1) := by
      unfold spawnStep
      rw [if_neg (by omega),
        if_neg (fun hc => hc2n (Option.some.inj (hc2Q ▸ hc)))]
    have e3 : spawnStep width height 3
        (gset width height (gset width height
          (gset width height g p2.1 p2.2 'P') (gx - 1) gy 'G') gx gy 'G',
          0 + 1 + 1) (gx + 1, gy) =
        (gset width height (gset width height (gset width height
          (gset width height g p2.1 p2.2 'P') (gx - 1) gy 'G') gx gy 'G')
          (gx + 1) gy 'G', 0 + 1 + 1 + 1) := by
      unfold spawnStep
      rw [if_neg (by omega),
        if_neg (fun hc => hc3n (Option.some.inj (hc3Q ▸ hc)))]
    have e4 : ∀ q : Int × Int, spawnStep width height 3
        (gset width height (gset width height (gset width height
          (gset width height g p2.1 p2.2 'P') (gx - 1) gy 'G') gx gy 'G')
          (gx + 1) gy 'G', 0 + 1 + 1 + 1) q =
        (gset width height (gset width height (gset width height
          (gset width height g p2.1 p2.2 'P') (gx - 1) gy 'G') gx gy 'G')
          (gx + 1) gy 'G', 0 + 1 + 1 + 1) := by
      intro q
      unfold spawnStep
      rw [if_pos (by omega)]
    rw [List.foldl_cons, e1, List.foldl_cons, e2, List.foldl_cons, e3,
      List.foldl_cons, e4, List.foldl_nil, if_neg (by omega)]
    exact ⟨hcnt3, hpos3,
      gwfGset _ _ _ _ _ _
        (gwfGset _ _ _ _ _ _ (gwfGset _ _ _ _ _ _ hwfP))⟩

theorem mem_intCastRangeBounds {n : Nat} {x : Int}
    (h : x ∈ (do let a ← List.range n; pure ((a : Int)) : List Int)) :
    0 ≤ x ∧ x < (n : Int) := by
  simp at h
  obtain ⟨m, hm, rfl⟩ := h
  omega

/-- Writing `'#'` on a non-interior cell preserves the `'G'` census and
the interior localization of `'G'`. -/
theorem gcountBorderStep (width height : Nat) (g : GenGrid) (n : Nat)
    (a b : Int) (ha0 : 0 ≤ a) (haw : a < (width : Int)) (hb0 : 0 ≤ b)
    (hbh : b < (height : Int))
    (hnint : ¬(0 < a ∧ a < (width : Int) - 1 ∧ 0 < b ∧
      b < (height : Int) - 1))
    (hq : (gcount g 'G' = n ∧
      (∀ x y : Int, gget width height g x y = some 'G' →
        0 < x ∧ x < (width : Int) - 1 ∧ 0 < y ∧ y < (height : Int) - 1)) ∧
      GWf width height g) :
    (gcount (gset width height g a b '#') 'G' = n ∧
      (∀ x y : Int, gget width height (gset width height g a b '#') x y =
          some 'G' →
        0 < x ∧ x < (width : Int) - 1 ∧ 0 < y ∧ y < (height : Int) - 1)) ∧
      GWf width height (gset width height g a b '#') := by
  obtain ⟨⟨hcnt, hpos⟩, hwf⟩ := hq
  obtain ⟨w, hw⟩ := ggetIsSome width height g hwf a b ha0 haw hb0 hbh
  have hwG : w ≠ 'G' := by
    intro hwg
    subst hwg
    exact hnint (hpos a b hw)
  refine ⟨⟨?_, ?_⟩, gwfGset _ _ _ _ _ _ hwf⟩
  · have h := gcountGset width height g a b '#' w hw 'G'
    rw [if_neg hwG, if_neg (by decide)] at h
    omega
  · intro x y h
    rcases ggetGsetCases width height g a b x y '#' 'G' h with hc | hc
    · exact absurd hc (by decide)
    · exact hpos x y hc

/-- `enforceBorderWalls` neither creates nor destroys interior-located
`'G'` tiles. -/
theorem enforceBorderGcount (width height : Nat) (g : GenGrid) (n : Nat)
    (hwf : GWf width height g) (hcnt : gcount g 'G' = n)
    (hpos : ∀ x y : Int, gget width height g x y = some 'G' →
      0 < x ∧ x < (width : Int) - 1 ∧ 0 < y ∧ y < (height : Int) - 1)
    (hw2 : 2 ≤ width) (hh2 : 2 ≤ height) :
    gcount (enforceBorderWalls width height g) 'G' = n := by
  unfold enforceBorderWalls
  simp only []
  have hstep1 : ∀ (s : GenGrid) (v : Int),
      v ∈ (do let a ← List.range width; pure ((a : Int)) : List Int) →
      ((gcount s 'G' = n ∧
        (∀ x y : Int, gget width height s x y = some 'G' →
          0 < x ∧ x < (width : Int) - 1 ∧ 0 < y ∧
            y < (height : Int) - 1)) ∧ GWf width height s) →
      ((gcount (gset width height (gset width height s v 0 '#') v
          ((height : Int) - 1) '#') 'G' = n ∧
        (∀ x y : Int, gget width height
            (gset width height (gset width height s v 0 '#') v
              ((height : Int) - 1) '#') x y = some 'G' →
          0 < x ∧ x < (width : Int) - 1 ∧ 0 < y ∧
            y < (height : Int) - 1)) ∧
        GWf width height (gset width height (gset width height s v 0 '#') v
          ((height : Int) - 1) '#')) := by
    intro s v hv hs
    have hb := mem_intCastRangeBounds hv
    exact gcountBorderStep width height _ n v ((height : Int) - 1)
      (by omega) (by omega) (by omega) (by omega) (by omega)
      (gcountBorderStep width height _ n v 0 (by omega) (by omega)
        (by omega) (by omega) (by omega) hs)
  have h1 := foldlPresMem
    (fun g2 : GenGrid => (gcount g2 'G' = n ∧
      (∀ x y : Int, gget width height g2 x y = some 'G' →
        0 < x ∧ x < (width : Int) - 1 ∧ 0 < y ∧
          y < (height : Int) - 1)) ∧ GWf width height g2)
    (fun g2 (xn : Int) => gset width height (gset width height g2 xn 0 '#')
      xn ((height : Int) - 1) '#')
    (do let a ← List.range width; pure ((a : Int)) : List Int) hstep1 g
    ⟨⟨hcnt, hpos⟩, hwf⟩
  have hstep2 : ∀ (s : GenGrid) (v : Int),
      v ∈ (do let a ← List.range height; pure ((a : Int)) : List Int) →
      ((gcount s 'G' = n ∧
        (∀ x y : Int, gget width height s x y = some 'G' →
          0 < x ∧ x < (width : Int) - 1 ∧ 0 < y ∧
            y < (height : Int) - 1)) ∧ GWf width height s) →
      ((gcount (gset width height (gset width height s 0 v '#')
          ((width : Int) - 1) v '#') 'G' = n ∧
        (∀ x y : Int, gget width height
            (gset width height (gset width height s 0 v '#')
              ((width : Int) - 1) v '#') x y = some 'G' →
          0 < x ∧ x < (width : Int) - 1 ∧ 0 < y ∧
            y < (height : Int) - 1)) ∧
        GWf width height (gset width height (gset width height s 0 v '#')
          ((width : Int) - 1) v '#')) := by
    intro s v hv hs
    have hb := mem_intCastRangeBounds hv
    exact gcountBorderStep width height _ n ((width : Int) - 1) v
      (by omega) (by omega) (by omega) (by omega) (by omega)
      (gcountBorderStep width height _ n 0 v (by omega) (by omega)
        (by omega) (by omega) (by omega) hs)
  have h2 := foldlPresMem
    (fun g2 : GenGrid => (gcount g2 'G' = n ∧
      (∀ x y : Int, gget width height g2 x y = some 'G' →
        0 < x ∧ x < (width : Int) - 1 ∧ 0 < y ∧
          y < (height : Int) - 1)) ∧ GWf width height g2)
    (fun g2 (yn : Int) => gset width height (gset width height g2 0 yn '#')
      ((width : Int) - 1) yn '#')
    (do let a ← List.range height; pure ((a : Int)) : List Int) hstep2 _ h1
  exact h2.1.1

/-- The generated grid (before stringification): well-formed, fully
wall-bordered, with exactly the difficulty-scaled number of `'G'` tiles,
all strictly inside the ghost-box rectangle. -/
theorem genFromGroupsSpec (width height gw gh : Nat)
    (difficulty : Difficulty) (groupDefs : List (List Shape))
    (hw1 : 15 ≤ width) (hw2 : width ≤ 41) (hh1 : 15 ≤ height)
    (hh2 : height ≤ 45) :
    GWf width height
      (genFromGroups width height gw gh difficulty groupDefs) ∧
    (∀ x y : Int, 0 ≤ x → x < (width : Int) → 0 ≤ y → y < (height : Int) →
      (x = 0 ∨ x = (width : Int) - 1 ∨ y = 0 ∨ y = (height : Int) - 1) →
      gget width height
        (genFromGroups width height gw gh difficulty groupDefs) x y =
        some '#') ∧
    gcount (genFromGroups width height gw gh difficulty groupDefs) 'G' =
      ghostWanted difficulty ∧
    (∀ x y : Int,
      gget width height
        (genFromGroups width height gw gh difficulty groupDefs) x y =
        some 'G' →
      (ghostBoxRect width height).x0 < x ∧
        x < (ghostBoxRect width height).x1 ∧
        (ghostBoxRect width height).y0 < y ∧
        y < (ghostBoxRect width height).y1) := by
  obtain ⟨f1, f2, f3, f4, f5, f6, f7, f8, f9, f10⟩ :=
    boxFacts width height hw1 hw2 hh1 hh2
  unfold genFromGroups
  simp only []
  set g0 : GenGrid := List.replicate height (List.replicate width '#')
    with hg0
  set g1 := expandGroups width height gw gh groupDefs g0 with hg1
  set g2 := mirrorLeftToRight width height g1 with hg2
  set g3 := enforceBorderWalls width height g2 with hg3
  rw [show (carveGhostBox width height g3).2.2 = ghostBoxRect width height
    from rfl]
  set g4 := (carveGhostBox width height g3).1 with hg4
  set gsp := (carveGhostBox width height g3).2.1 with hgsp
  set g5 := addMissingPellets width height g4 with hg5
  set g6 := removeIncorrectTiles width height gsp g5 with hg6
  set g7 := connectivityLoop width height gsp 80 g6 with hg7
  set g8 := removeIncorrectTiles width height gsp g7 with hg8
  set g9 := placePowerPellets width height (ghostBoxRect width height) g8
    with hg9
  set g10 := fillPelletsOutsideGhostBox width height
    (ghostBoxRect width height) g9 with hg10
  set g11 := placeSpawns width height difficulty
    (ghostBoxRect width height) g10 with hg11
  -- Stage invariants.
  have hwf0 : GWf width height g0 := gwfReplicate width height
  have hGN0 : GNone width height 'G' g0 :=
    gnoneReplicate width height 'G' (by decide)
  have h1 : PassOk width height ['.', '#'] g0 g1 := by
    rw [hg1]
    exact expandGroupsPassOk width height gw gh groupDefs g0 _ (by decide)
      (by decide) hwf0
  have hGN1 : GNone width height 'G' g1 :=
    gnoneOfWrites h1.2 (by decide) hGN0
  have hm : GWf width height g2 ∧ GNone width height 'G' g2 := by
    rw [hg2]
    exact mirrorPres width height g1 'G' h1.1 hGN1
  have h3 : PassOk width height ['#'] g2 g3 := by
    rw [hg3]
    exact enforceBorderWallsPassOk width height g2 _ (by decide) hm.1
  have hGN3 : GNone width height 'G' g3 :=
    gnoneOfWrites h3.2 (by decide) hm.2
  have h4 : PassOk width height ['#', ' ', '.'] g3 g4 := by
    rw [hg4]
    exact carveGhostBoxPassOk width height g3 _ (by decide) (by decide)
      (by decide) h3.1
  have hGN4 : GNone width height 'G' g4 :=
    gnoneOfWrites h4.2 (by decide) hGN3
  -- The three ghost slots are open after the carve.
  have hs1g4 : gget width height g4
      (boxCx (ghostBoxRect width height) - 1)
      (boxCy (ghostBoxRect width height)) = some ' ' := by
    rw [hg4]
    exact carveGhostBoxOpens width height g3 h3.1 _ _ (by omega) (by omega)
      (by omega) (by omega) (by omega) (by omega) (by omega) (by omega)
  have hs2g4 : gget width height g4 (boxCx (ghostBoxRect width height))
      (boxCy (ghostBoxRect width height)) = some ' ' := by
    rw [hg4]
    exact carveGhostBoxOpens width height g3 h3.1 _ _ (by omega) (by omega)
      (by omega) (by omega) (by omega) (by omega) (by omega) (by omega)
  have hs3g4 : gget width height g4
      (boxCx (ghostBoxRect width height) + 1)
      (boxCy (ghostBoxRect width height)) = some ' ' := by
    rw [hg4]
    exact carveGhostBoxOpens width height g3 h3.1 _ _ (by omega) (by omega)
      (by omega) (by omega) (by omega) (by omega) (by omega) (by omega)
  -- Steps 4-9 write only pellets and power pellets.
  have h5 : PassOk width height ['.', 'o'] g4 g5 := by
    rw [hg5]
    exact addMissingPelletsPassOk width height g4 _ (by decide) h4.1
  have h6 : PassOk width height ['.', 'o'] g5 g6 := by
    rw [hg6]
    exact removeIncorrectTilesPassOk width height gsp g5 _ (by decide) h5.1
  have h7 : PassOk width height ['.', 'o'] g6 g7 := by
    rw [hg7]
    exact connectivityLoopPassOk width height gsp _ (by decide) 80 g6 h6.1
  have h8 : PassOk width height ['.', 'o'] g7 g8 := by
    rw [hg8]
    exact removeIncorrectTilesPassOk width height gsp g7 _ (by decide) h7.1
  have h9 : PassOk width height ['.', 'o'] g8 g9 := by
    rw [hg9]
    exact placePowerPelletsPassOk width height _ g8 _ (by decide) h8.1
  have h10 : PassOk width height ['.', 'o'] g9 g10 := by
    rw [hg10]
    exact fillPelletsPassOk width height _ g9 _ (by decide) h9.1
  have hchain : PassOk width height ['.', 'o'] g4 g10 :=
    passOkTrans (passOkTrans (passOkTrans (passOkTrans
      (passOkTrans h5 h6) h7) h8) h9) h10
  have hGN10 : GNone width height 'G' g10 :=
    gnoneOfWrites hchain.2 (by decide) hGN4
  have hS2ne : ∀ c : Char, c ∈ (['.', 'o'] : List Char) → c ≠ '#' := by
    intro c hc
    rcases List.mem_cons.mp hc with rfl | hc2
    · decide
    · rcases List.mem_cons.mp hc2 with rfl | hc3
      · decide
      · exact absurd hc3 (List.not_mem_nil c)
  have hslot : ∀ a b : Int, 0 ≤ a → a < (width : Int) → 0 ≤ b →
      b < (height : Int) → gget width height g4 a b = some ' ' →
      ∃ c, gget width height g10 a b = some c ∧ c ≠ '#' := by
    intro a b ha0 haw hb0 hbh hopen
    obtain ⟨c, hc⟩ := ggetIsSome width height g10 hchain.1 a b ha0 haw hb0
      hbh
    rcases hchain.2 a b c hc with hcS | hcold
    · exact ⟨c, hc, hS2ne c hcS⟩
    · refine ⟨c, hc, ?_⟩
      rw [hopen] at hcold
      have := Option.some.inj hcold
      subst this
      decide
  obtain ⟨c1, hc1, hc1n⟩ := hslot _ _ (by omega) (by omega) (by omega)
    (by omega) hs1g4
  obtain ⟨c2, hc2, hc2n⟩ := hslot _ _ (by omega) (by omega) (by omega)
    (by omega) hs2g4
  obtain ⟨c3, hc3, hc3n⟩ := hslot _ _ (by omega) (by omega) (by omega)
    (by omega) hs3g4
  have hspec := placeSpawnsSpec width height difficulty
    (ghostBoxRect width height) g10 hchain.1 hGN10 (by omega) (by omega)
    (by omega) f9 f10 (by omega) (by omega) (by omega) (by omega)
    (by omega) (by omega) (by omega) (by omega) c1 c2 c3 hc1 hc1n hc2 hc2n
    hc3 hc3n
  rw [← hg11] at hspec
  have hposint : ∀ x y : Int, gget width height g11 x y = some 'G' →
      0 < x ∧ x < (width : Int) - 1 ∧ 0 < y ∧ y < (height : Int) - 1 := by
    intro x y h
    obtain ⟨hy, hx1, hx2⟩ := hspec.2.1 x y h
    omega
  have h12 : PassOk width height ['#'] g11
      (enforceBorderWalls width height g11) :=
    enforceBorderWallsPassOk width height g11 _ (by decide) hspec.2.2
  refine ⟨h12.1, ?_, ?_, ?_⟩
  · exact (enforceBorderSpec width height g11 hspec.2.2 (by omega)
      (by omega)).1
  · exact enforceBorderGcount width height g11 (ghostWanted difficulty)
      hspec.2.2 hspec.1 hposint (by omega) (by omega)
  · intro x y h
    rcases h12.2 x y 'G' h with hS | hold
    · rcases List.mem_cons.mp hS with hG | hG
      · exact absurd hG (by decide)
      · exact absurd hG (List.not_mem_nil 'G')
    · obtain ⟨hy, hx1, hx2⟩ := hspec.2.1 x y hold
      omega

/-- Tiles at mask-protected positions survive any `applyReorgShift`
call unchanged (candidates at protected tiles are never collected). -/
theorem applyReorgShiftProtected (lvl : ParsedLevel) (rng : Nat → Nat)
    (cfg : ReorgShiftConfig) (mask : List (List Bool))
    (starts critical : List GridPos) (hwf : Wf lvl) :
    ∀ q : GridPos, hasProtected mask q.x q.y = true →
      tileAt (applyReorgShift lvl rng cfg mask starts critical).2 q.x q.y =
        tileAt lvl q.x q.y := by
  have hstate := runShiftState rng cfg mask starts critical cfg.mutations
    ⟨lvl, [], [], [], 0⟩ hwf (by intro p hp; simp at hp)
  intro q hq
  unfold applyReorgShift
  simp only []
  by_cases hr : (runShift rng cfg mask starts critical cfg.mutations
      ⟨lvl, [], [], [], 0⟩).1 = true
  · rw [if_pos hr]
    exact hstate.2.2 q hq
  · rw [if_neg hr]
    exact hstate.2.2 q hq

/-- The character matrix of an emitted level (rows top to bottom). -/
def gridChars (j : LevelJson) : List (List Char) :=
  j.grid.map String.data

theorem gridCharsGen (params : PacRogueParams) :
    gridChars (generatePacRogueLevel params) =
      genFromGroups (clampInt (params.width.getD 22) 15 41).toNat
        (clampInt (params.height.getD 31) 15 45).toNat
        (max 1 ((clampInt (params.width.getD 22) 15 41).toNat / 6))
        (max 1 ((clampInt (params.height.getD 31) 15 45).toNat / 3))
        params.difficulty
        (generateTileGroups
          (max 1 ((clampInt (params.width.getD 22) 15 41).toNat / 6))
          (max 1 ((clampInt (params.height.getD 31) 15 45).toNat / 3))
          params.difficulty
          (fnvSeed (jsToLower (jsTrim (params.difficulty.str ++ "|" ++
            params.seed))))).1 := by
  unfold generatePacRogueLevel gridChars
  simp only []
  rw [List.map_map]
  have hid : String.data ∘ String.mk = id := funext fun l => rfl
  rw [hid, List.map_id]

/-- Decidable check: every `'G'` cell lies strictly inside the box. -/
def gAllInBox (width height : Nat) (b : GhostBox) (g : GenGrid) : Bool :=
  (List.range height).all fun (yn : Nat) =>
    (List.range width).all fun (xn : Nat) =>
      match gget width height g (xn : Int) (yn : Int) with
      | some c => c ≠ 'G' ||
          (decide (b.x0 < (xn : Int)) && decide ((xn : Int) < b.x1) &&
            decide (b.y0 < (yn : Int)) && decide ((yn : Int) < b.y1))
      | none => true

theorem gAllInBoxOf (width height : Nat) (b : GhostBox) (g : GenGrid)
    (h : ∀ x y : Int, gget width height g x y = some 'G' →
      b.x0 < x ∧ x < b.x1 ∧ b.y0 < y ∧ y < b.y1) :
    gAllInBox width height b g = true := by
  unfold gAllInBox
  rw [List.all_eq_true]
  intro yn hyn
  rw [List.all_eq_true]
  intro xn hxn
  cases hc : gget width height g (xn : Int) (yn : Int) with
  | none => rfl
  | some c =>
    by_cases hcg : c = 'G'
    · subst hcg
      obtain ⟨h1, h2, h3, h4⟩ := h _ _ hc
      simp [h1, h2, h3, h4]
    · simp [hcg]

/-- Decidable check: the whole border ring of the grid is walls. -/
def gBorderWalls (width height : Nat) (g : GenGrid) : Bool :=
  (List.range height).all fun (yn : Nat) =>
    (List.range width).all fun (xn : Nat) =>
      if xn = 0 ∨ xn = width - 1 ∨ yn = 0 ∨ yn = height - 1 then
        gget width height g (xn : Int) (yn : Int) == some '#'
      else true

theorem gBorderWallsOf (width height : Nat) (g : GenGrid)
    (hw : 1 ≤ width) (hh : 1 ≤ height)
    (h : ∀ x y : Int, 0 ≤ x → x < (width : Int) → 0 ≤ y →
      y < (height : Int) →
      (x = 0 ∨ x = (width : Int) - 1 ∨ y = 0 ∨ y = (height : Int) - 1) →
      gget width height g x y = some '#') :
    gBorderWalls width height g = true := by
  unfold gBorderWalls
  rw [List.all_eq_true]
  intro yn hyn
  rw [List.all_eq_true]
  intro xn hxn
  have hxw := List.mem_range.mp hxn
  have hyh := List.mem_range.mp hyn
  split
  · rename_i hb
    have hb2 : (xn : Int) = 0 ∨ (xn : Int) = (width : Int) - 1 ∨
        (yn : Int) = 0 ∨ (yn : Int) = (height : Int) - 1 := by
      rcases hb with h1 | h1 | h1 | h1
      · exact Or.inl (by omega)
      · exact Or.inr (Or.inl (by omega))
      · exact Or.inr (Or.inr (Or.inl (by omega)))
      · exact Or.inr (Or.inr (Or.inr (by omega)))
    rw [h (xn : Int) (yn : Int) (by omega) (by omega) (by omega) (by omega)
      hb2]
    rfl
  · rfl

/-- Decidable check: the mask protects the whole border ring. -/
def borderProtected (mask : List (List Bool)) (width height : Nat) :
    Bool :=
  ((List.range width).all fun (xn : Nat) =>
    hasProtected mask (xn : Int) 0 &&
      hasProtected mask (xn : Int) ((height : Int) - 1)) &&
  ((List.range height).all fun (yn : Nat) =>
    hasProtected mask 0 (yn : Int) &&
      hasProtected mask ((width : Int) - 1) (yn : Int))

/-- A 5x5 mask protecting exactly the border ring. -/
def borderMask5 : List (List Bool) :=
  [[true, true, true, true, true],
   [true, false, false, false, true],
   [true, false, false, false, true],
   [true, false, false, false, true],
   [true, true, true, true, true]]

/-! ### Claim C9: ghost spawn guarantee -/

/-- C9: for every seed string, difficulty and requested size, the grid
returned by `generatePacRogueLevel` contains exactly the
difficulty-scaled number of ghost-start `'G'` tiles (easy 1, normal 2,
hard 3) — hence between 1 and 3, and at least one — and every `'G'`
tile lies strictly inside the ghost-house rectangle (its interior). -/
theorem claimC9_ghost_spawn_guarantee (params : PacRogueParams) :
    gcount (gridChars (generatePacRogueLevel params)) 'G' =
      ghostWanted params.difficulty ∧
    1 ≤ ghostWanted params.difficulty ∧
    ghostWanted params.difficulty ≤ 3 ∧
    gAllInBox (clampInt (params.width.getD 22) 15 41).toNat
      (clampInt (params.height.getD 31) 15 45).toNat
      (ghostBoxRect (clampInt (params.width.getD 22) 15 41).toNat
        (clampInt (params.height.getD 31) 15 45).toNat)
      (gridChars (generatePacRogueLevel params)) = true := by
  have hW : 15 ≤ (clampInt (params.width.getD 22) 15 41).toNat ∧
      (clampInt (params.width.getD 22) 15 41).toNat ≤ 41 := by
    unfold clampInt; omega
  have hH : 15 ≤ (clampInt (params.height.getD 31) 15 45).toNat ∧
      (clampInt (params.height.getD 31) 15 45).toNat ≤ 45 := by
    unfold clampInt; omega
  have hspec := genFromGroupsSpec
    (clampInt (params.width.getD 22) 15 41).toNat
    (clampInt (params.height.getD 31) 15 45).toNat
    (max 1 ((clampInt (params.width.getD 22) 15 41).toNat / 6))
    (max 1 ((clampInt (params.height.getD 31) 15 45).toNat / 3))
    params.difficulty
    (generateTileGroups
      (max 1 ((clampInt (params.width.getD 22) 15 41).toNat / 6))
      (max 1 ((clampInt (params.height.getD 31) 15 45).toNat / 3))
      params.difficulty
      (fnvSeed (jsToLower (jsTrim (params.difficulty.str ++ "|" ++
        params.seed))))).1
    hW.1 hW.2 hH.1 hH.2
  rw [gridCharsGen params]
  refine ⟨hspec.2.2.1, ?_, ?_, gAllInBoxOf _ _ _ _ hspec.2.2.2⟩
  · cases params.difficulty <;> decide
  · cases params.difficulty <;> decide

/-! ### Claim C5: border/tunnel invariant -/

/-- C5 counterexample: the border/tunnel pairing does **not** survive a
successful mutation when the protected mask does not cover the border.
On `lvlTunnel` (border tunnel pair `(0,2)`/`(4,2)`, both pellets) a
one-mutation shift with an all-false mask succeeds (`ok:true`) yet
leaves `(0,2)` a wall while its opposite-edge mirror `(4,2)` stays
walkable, breaking the same-wall-status pairing; the engine itself
never inspects border mirroring. -/
theorem claimC5_counterexample :
    (applyReorgShift lvlTunnel rngFive ⟨1, 1, 10⟩ (falseGrid 5 5)
      [⟨1, 1⟩] []).1.ok = true ∧
    tileAt lvlTunnel 0 2 = TileType.pellet ∧
    tileAt lvlTunnel 4 2 = TileType.pellet ∧
    tileAt (applyReorgShift lvlTunnel rngFive ⟨1, 1, 10⟩ (falseGrid 5 5)
      [⟨1, 1⟩] []).2 0 2 = TileType.wall ∧
    tileAt (applyReorgShift lvlTunnel rngFive ⟨1, 1, 10⟩ (falseGrid 5 5)
      [⟨1, 1⟩] []).2 4 2 = TileType.pellet := by
  decide

/-- C5 (amended): (a) every grid returned by `generatePacRogueLevel`
has its whole border ring forced to walls — so each border tile trivially
pairs with its opposite-edge mirror as same-wall-status and no non-wall
border tile exists at all; (b) the mutation engine preserves border
tiles exactly when the caller's protected mask covers the border ring
(as `GameScene.buildProtectedMaskForShift` builds it): under such a mask
every border tile of the level returned by `applyReorgShift` — whether
it succeeds or fails — equals the corresponding pre-call tile, so the
border/tunnel invariant of the input is preserved.  Without that mask
the engine itself does not maintain the invariant (see the
counterexample). -/
theorem claimC5_border_tunnel_invariant :
    (∀ params : PacRogueParams,
      gBorderWalls (clampInt (params.width.getD 22) 15 41).toNat
        (clampInt (params.height.getD 31) 15 45).toNat
        (gridChars (generatePacRogueLevel params)) = true) ∧
    (∀ (lvl : ParsedLevel) (rng : Nat → Nat) (cfg : ReorgShiftConfig)
      (mask : List (List Bool)) (starts critical : List GridPos),
      Wf lvl → borderProtected mask lvl.width lvl.height = true →
      ∀ q : GridPos, InB lvl q →
        (q.x = 0 ∨ q.x = (lvl.width : Int) - 1 ∨ q.y = 0 ∨
          q.y = (lvl.height : Int) - 1) →
        tileAt (applyReorgShift lvl rng cfg mask starts critical).2 q.x
          q.y = tileAt lvl q.x q.y) := by
  constructor
  · intro params
    have hW : 15 ≤ (clampInt (params.width.getD 22) 15 41).toNat ∧
        (clampInt (params.width.getD 22) 15 41).toNat ≤ 41 := by
      unfold clampInt; omega
    have hH : 15 ≤ (clampInt (params.height.getD 31) 15 45).toNat ∧
        (clampInt (params.height.getD 31) 15 45).toNat ≤ 45 := by
      unfold clampInt; omega
    have hspec := genFromGroupsSpec
      (clampInt (params.width.getD 22) 15 41).toNat
      (clampInt (params.height.getD 31) 15 45).toNat
      (max 1 ((clampInt (params.width.getD 22) 15 41).toNat / 6))
      (max 1 ((clampInt (params.height.getD 31) 15 45).toNat / 3))
      params.difficulty
      (generateTileGroups
        (max 1 ((clampInt (params.width.getD 22) 15 41).toNat / 6))
        (max 1 ((clampInt (params.height.getD 31) 15 45).toNat / 3))
        params.difficulty
        (fnvSeed (jsToLower (jsTrim (params.difficulty.str ++ "|" ++
          params.seed))))).1
      hW.1 hW.2 hH.1 hH.2
    rw [gridCharsGen params]
    exact gBorderWallsOf _ _ _ (by omega) (by omega) hspec.2.1
  · intro lvl rng cfg mask starts critical hwf hbp q hin hb
    apply applyReorgShiftProtected lvl rng cfg mask starts critical hwf q
    unfold borderProtected at hbp
    rw [Bool.and_eq_true] at hbp
    obtain ⟨hA, hB⟩ := hbp
    rw [List.all_eq_true] at hA hB
    obtain ⟨hx0, hxw, hy0, hyh⟩ := hin
    rcases hb with hx | hx | hy | hy
    · have hm : q.y.toNat ∈ List.range lvl.height :=
        List.mem_range.mpr (by omega)
      have h2 := hB _ hm
      rw [Bool.and_eq_true] at h2
      have h0 := h2.1
      have hyy : ((q.y.toNat : Nat) : Int) = q.y := by omega
      rw [hyy] at h0
      rw [hx]
      exact h0
    · have hm : q.y.toNat ∈ List.range lvl.height :=
        List.mem_range.mpr (by omega)
      have h2 := hB _ hm
      rw [Bool.and_eq_true] at h2
      have h0 := h2.2
      have hyy : ((q.y.toNat : Nat) : Int) = q.y := by omega
      rw [hyy] at h0
      rw [hx]
      exact h0
    · have hm : q.x.toNat ∈ List.range lvl.width :=
        List.mem_range.mpr (by omega)
      have h2 := hA _ hm
      rw [Bool.and_eq_true] at h2
      have h0 := h2.1
      have hxx : ((q.x.toNat : Nat) : Int) = q.x := by omega
      rw [hxx] at h0
      rw [hy]
      exact h0
    · have hm : q.x.toNat ∈ List.range lvl.width :=
        List.mem_range.mpr (by omega)
      have h2 := hA _ hm
      rw [Bool.and_eq_true] at h2
      have h0 := h2.2
      have hxx : ((q.x.toNat : Nat) : Int) = q.x := by omega
      rw [hxx] at h0
      rw [hy]
      exact h0

/-- C5 witness: on `lvlTunnel` with the border-ring mask, the border
tunnel tile `(0,2)` is untouched by a one-mutation reorg shift. -/
theorem claimC5_border_tunnel_invariant_witness :
    Wf lvlTunnel ∧
      borderProtected borderMask5 lvlTunnel.width lvlTunnel.height =
        true ∧
      InB lvlTunnel ⟨0, 2⟩ ∧
      tileAt (applyReorgShift lvlTunnel rngFive ⟨1, 1, 10⟩ borderMask5
        [⟨1, 1⟩] []).2 0 2 = tileAt lvlTunnel 0 2 :=
  ⟨by decide, by decide, by decide,
    claimC5_border_tunnel_invariant.2 lvlTunnel rngFive ⟨1, 1, 10⟩
      borderMask5 [⟨1, 1⟩] [] (by decide) (by decide) ⟨0, 2⟩ (by decide)
      (by decide)⟩

/-! ### Claim C3: generator determinism -/

/-- C3: the generator is a pure function of `(seed, difficulty, width,
height)` — two calls with identical inputs yield identical results (in
particular byte-identical grid arrays and identical ids) — and the only
randomness it consumes is the stream derived from its seed string: the
output grid depends on the seed exclusively through the 32-bit state
`fnvSeed(toLower(trim(difficulty ++ "|" ++ seed)))` that seeds the
xorshift stream, so any two seeds mixing to the same state generate the
same grid. -/
theorem claimC3_generator_determinism :
    (∀ p1 p2 : PacRogueParams, p1.seed = p2.seed →
      p1.difficulty = p2.difficulty → p1.width = p2.width →
      p1.height = p2.height →
      generatePacRogueLevel p1 = generatePacRogueLevel p2) ∧
    (∀ p1 p2 : PacRogueParams, p1.difficulty = p2.difficulty →
      p1.width = p2.width → p1.height = p2.height →
      fnvSeed (jsToLower (jsTrim (p1.difficulty.str ++ "|" ++ p1.seed))) =
        fnvSeed (jsToLower (jsTrim (p2.difficulty.str ++ "|" ++
          p2.seed))) →
      (generatePacRogueLevel p1).grid =
        (generatePacRogueLevel p2).grid) := by
  constructor
  · intro p1 p2 hs hd hw hh
    obtain ⟨s1, d1, w1, h1⟩ := p1
    obtain ⟨s2, d2, w2, h2⟩ := p2
    simp only [] at hs hd hw hh
    subst hs; subst hd; subst hw; subst hh
    rfl
  · intro p1 p2 hd hw hh hmix
    obtain ⟨s1, d1, w1, h1⟩ := p1
    obtain ⟨s2, d2, w2, h2⟩ := p2
    simp only [] at hd hw hh hmix
    subst hd; subst hw; subst hh
    unfold generatePacRogueLevel
    simp only []
    rw [hmix]

/-- C3 witness: the determinism theorem applied at two syntactically
identical concrete calls. -/
theorem claimC3_generator_determinism_witness :
    generatePacRogueLevel ⟨"abc", Difficulty.normal, none, none⟩ =
      generatePacRogueLevel ⟨"abc", Difficulty.normal, none, none⟩ ∧
    (generatePacRogueLevel ⟨"abc", Difficulty.normal, some 22,
        some 31⟩).grid =
      (generatePacRogueLevel ⟨"abc", Difficulty.normal, some 22,
        some 31⟩).grid :=
  ⟨claimC3_generator_determinism.1 ⟨"abc", Difficulty.normal, none, none⟩
      ⟨"abc", Difficulty.normal, none, none⟩ rfl rfl rfl rfl,
    claimC3_generator_determinism.2 ⟨"abc", Difficulty.normal, some 22,
        some 31⟩
      ⟨"abc", Difficulty.normal, some 22, some 31⟩ rfl rfl rfl rfl⟩

/-! ### Claim C6: shared PRNG construction -/

/-- C6 counterexample: the stream consumed by the level generator is
**not** the Seeded PRNG component (`createRng` = xmur3 + mulberry32):
already at seed `"a"` the two string hashes differ, and so do the two
first floats — brought to the common denominator
`(2^32 - 1) * 2^32`, the generator float has numerator
`1142599352 * 2^32` while the `createRng` float has numerator
`472471181 * (2^32 - 1)`, and these are different naturals.  The
generator mixes with an FNV-1a-style hash (`0x811c9dc5`/`0x01000193`)
and steps xorshift32 dividing by `2^32 - 1`, while `createRng` mixes
with xmur3 and steps mulberry32 dividing by `2^32`. -/
theorem claimC6_counterexample :
    fnvSeed "a" = 3826002220 ∧
    stringToSeed32 "a" = 519299066 ∧
    xorshiftState "a" 1 = 1142599352 ∧
    mulberry32Out (stringToSeed32 "a") 0 = 472471181 ∧
    seededRngFloat "a" 0 * ((u32 - 1 : Nat) : ℚ) * (u32 : ℚ) =
      (1142599352 : ℚ) * (u32 : ℚ) ∧
    createRngFloat "a" 0 * (u32 : ℚ) * ((u32 - 1 : Nat) : ℚ) =
      (472471181 : ℚ) * ((u32 - 1 : Nat) : ℚ) ∧
    decide ((1142599352 : Nat) * u32 = 472471181 * (u32 - 1)) = false := by
  refine ⟨by decide, by decide, by decide, by decide, ?_, ?_, by decide⟩
  · unfold seededRngFloat u32
    rw [show xorshiftState "a" (0 + 1) = 1142599352 from by decide]
    norm_num
  · unfold createRngFloat u32
    rw [show mulberry32Out (stringToSeed32 "a") 0 = 472471181 from by
      decide]
    norm_num

theorem shiftRightLe (m k : Nat) : m >>> k ≤ m := by
  rw [Nat.shiftRight_eq_div_pow]
  exact Nat.div_le_self m (2 ^ k)

theorem xorLtU32 (a b : Nat) (ha : a < u32) (hb : b < u32) :
    Nat.xor a b < u32 := by
  have h32 : u32 = 2 ^ 32 := rfl
  rw [h32] at ha hb ⊢
  exact Nat.xor_lt_two_pow ha hb

theorem xorshiftStepLt (x : Nat) (hx : x < u32) : xorshiftStep x < u32 := by
  unfold xorshiftStep shl32
  simp only []
  have hmod : ∀ a : Nat, a % u32 < u32 := fun a => Nat.mod_lt _ (by decide)
  have h1 : Nat.xor x ((x <<< 13) % u32) < u32 := xorLtU32 _ _ hx (hmod _)
  have h2 : Nat.xor (Nat.xor x ((x <<< 13) % u32))
      (Nat.xor x ((x <<< 13) % u32) >>> 17) < u32 :=
    xorLtU32 _ _ h1 (lt_of_le_of_lt (shiftRightLe _ _) h1)
  exact xorLtU32 _ _ h2 (hmod _)

theorem fnvSeedLt (s : String) : fnvSeed s < u32 := by
  unfold fnvSeed
  simp only []
  split
  · decide
  · refine foldlPres (fun x => x < u32) _ ?_ (charCodes s) 0x811c9dc5
      (by decide)
    intro x c _
    exact Nat.mod_lt _ (by decide)

theorem xorshiftStateLt (s : String) (n : Nat) :
    xorshiftState s n < u32 := by
  induction n with
  | zero => exact fnvSeedLt s
  | succ n ih => exact xorshiftStepLt _ ih

theorem mulberry32OutLt (seed n : Nat) :
    mulberry32Out seed n < u32 := by
  unfold mulberry32Out mulberry32Step imul32
  simp only []
  have hmod : ∀ a : Nat, a % u32 < u32 := fun a => Nat.mod_lt _ (by decide)
  refine xorLtU32 _ _ (xorLtU32 _ _ (hmod _) (hmod _))
    (lt_of_le_of_lt (shiftRightLe _ _) (xorLtU32 _ _ (hmod _) (hmod _)))

/-- C6 (amended): generation and mutation each use a deterministic
two-stage string-seeded PRNG (32-bit string hash, then a bit-mixing
32-bit generator scaled to a float), and the stream
`generatePacRogueLevel` threads is exactly the FNV-1a + xorshift32
`seededRng` stream — but this is a *different* construction from the
Seeded PRNG component `createRng` (xmur3 + mulberry32): the two streams
disagree already on their first float at seed `"a"`, so generation and
mutation do **not** reproduce each other's sequences. -/
theorem claimC6_prng_construction :
    (∀ (s : String) (n : Nat),
      (genRngStep (xorshiftState s n)).1 = seededRngFloat s n ∧
      (genRngStep (xorshiftState s n)).2 = xorshiftState s (n + 1) ∧
      xorshiftState s n < u32 ∧
      mulberry32Out (stringToSeed32 s) n < u32 ∧
      createRngFloat s n =
        (mulberry32Out (stringToSeed32 s) n : ℚ) / (u32 : ℚ) ∧
      seededRngFloat s n =
        (xorshiftState s (n + 1) : ℚ) / ((u32 - 1 : Nat) : ℚ)) ∧
    seededRngFloat "a" 0 * ((u32 - 1 : Nat) : ℚ) * (u32 : ℚ) =
      (1142599352 : ℚ) * (u32 : ℚ) ∧
    createRngFloat "a" 0 * (u32 : ℚ) * ((u32 - 1 : Nat) : ℚ) =
      (472471181 : ℚ) * ((u32 - 1 : Nat) : ℚ) ∧
    decide ((1142599352 : Nat) * u32 = 472471181 * (u32 - 1)) = false := by
  refine ⟨fun s n => ⟨rfl, rfl, xorshiftStateLt s n, mulberry32OutLt _ n,
    rfl, rfl⟩, ?_, ?_, by decide⟩
  · unfold seededRngFloat u32
    rw [show xorshiftState "a" (0 + 1) = 1142599352 from by decide]
    norm_num
  · unfold createRngFloat u32
    rw [show mulberry32Out (stringToSeed32 "a") 0 = 472471181 from by
      decide]
    norm_num

/-! ### Claim C8: complete error collection -/

/-- C8 counterexample: the validator does **not** list every violated
rule.  On the 2-wide grid `["#.", "..", ".."]` the row-0 border pair
`(0,0)`/`(1,0)` is `'#'` versus `'.'` — a tunnel-mismatch violation
(`checkPair` produces its error) — but `validateLevel` reports only the
minimum-size error for it: `borderRules` returns early on grids smaller
than 3x3 and the pairing violation message never appears in the
output. -/
theorem claimC8_counterexample :
    (validateLevel smallJson).ok = false ∧
    checkPair (strGet (smallJson.grid.headD "") 0) 0 0
      (strGet (smallJson.grid.headD "") 1) 1 0 "horizontal" =
      [tunnelMismatchMsg "horizontal" '#' 0 0 '.' 1 0] ∧
    decide (tunnelMismatchMsg "horizontal" '#' 0 0 '.' 1 0 ∈
      (validateLevel smallJson).errors) = false ∧
    (validateLevel smallJson).errors =
      ["Level must be at least 3x3, got 2x3.",
        "Expected 1 or 2 PlayerStart " ++ sq ++ "P" ++ sq ++ ", found 0.",
        "Expected at least 1 GhostStart " ++ sq ++ "G" ++ sq ++ "."] := by
  decide

/-- C8 (amended): (a) the parser half of the claim holds as stated: when
`parseLevel` fails on a non-empty grid its error list is exactly the
full collection — the empty-row check plus, for **every** row, that
row's length error and an error for **every** invalid character (it
never stops at the first).  (b) the validator half holds for grids of
at least 3x3 (below that `borderRules` early-returns with only the size
error, see the counterexample): `ok` is false exactly when the error
list is non-empty, every border-rule error — in particular the
horizontal and vertical `checkPair` output of every row/column pair —
appears in the output, and each violated start-count / pellet-count /
ghost-count rule contributes its message, as does every unreachable
pellet whenever the reachability pass runs (it runs only when there is
at least one player start and one pellet). -/
theorem claimC8_complete_error_collection :
    (∀ (level : LevelJson) (errs : List String), level.grid.length ≠ 0 →
      parseLevel level = Except.error errs →
      errs = (if (level.grid.headD "").length = 0 then
          ["Level.grid rows must not be empty."] else []) ++
        level.grid.enum.flatMap (fun rowIdx =>
          rowErrors (level.grid.headD "").length rowIdx.1 rowIdx.2)) ∧
    (∀ (level : LevelJson) (parsed : ParsedLevel),
      parseLevel level = Except.ok parsed → 3 ≤ parsed.width →
      3 ≤ parsed.height →
      ((validateLevel level).ok = false ↔
        (validateLevel level).errors ≠ []) ∧
      (∀ e ∈ borderRules parsed.rawGrid parsed.width parsed.height,
        e ∈ (validateLevel level).errors) ∧
      (∀ y : Nat, y < parsed.height →
        ∀ e ∈ checkPair (strGet (parsed.rawGrid.getD y "") 0) 0 y
          (strGet (parsed.rawGrid.getD y "") (parsed.width - 1))
          (parsed.width - 1) y "horizontal",
        e ∈ (validateLevel level).errors) ∧
      (∀ x : Nat, x < parsed.width →
        ∀ e ∈ checkPair (strGet (parsed.rawGrid.headD "") x) x 0
          (strGet (parsed.rawGrid.getD (parsed.height - 1) "") x) x
          (parsed.height - 1) "vertical",
        e ∈ (validateLevel level).errors) ∧
      ((parsed.playerStartCount < 1 ∨ 2 < parsed.playerStartCount) →
        ("Expected 1 or 2 PlayerStart " ++ sq ++ "P" ++ sq ++ ", found " ++
          toString parsed.playerStartCount ++ ".") ∈
          (validateLevel level).errors) ∧
      (parsed.pelletCount < 1 →
        ("Expected at least 1 Pellet " ++ sq ++ "." ++ sq ++ ".") ∈
          (validateLevel level).errors) ∧
      (parsed.ghostStarts.length < 1 →
        ("Expected at least 1 GhostStart " ++ sq ++ "G" ++ sq ++ ".") ∈
          (validateLevel level).errors) ∧
      (0 < parsed.playerStarts.length → 0 < parsed.pelletCount →
        ∀ e ∈ pelletsReachableFromStart parsed parsed.playerStarts
          parsed.pelletPositions,
        e ∈ (validateLevel level).errors)) := by
  constructor
  · intro level errs hlen hparse
    unfold parseLevel at hparse
    rw [if_neg hlen] at hparse
    simp only [] at hparse
    split at hparse
    · rename_i h0
      rw [if_pos h0]
      exact (Except.error.inj hparse).symm
    · rename_i h0
      rw [if_neg h0]
      split at hparse
      · exact (Except.error.inj hparse).symm
      · exact Except.noConfusion hparse
  · intro level parsed hparse hw3 hh3
    have herr : (validateLevel level).errors =
        (((borderRules parsed.rawGrid parsed.width parsed.height ++
          (if parsed.playerStartCount < 1 ∨ 2 < parsed.playerStartCount
            then ["Expected 1 or 2 PlayerStart " ++ sq ++ "P" ++ sq ++
              ", found " ++ toString parsed.playerStartCount ++ "."]
            else [])) ++
          (if parsed.pelletCount < 1 then
            ["Expected at least 1 Pellet " ++ sq ++ "." ++ sq ++ "."]
          else [])) ++
          (if parsed.ghostStarts.length < 1 then
            ["Expected at least 1 GhostStart " ++ sq ++ "G" ++ sq ++ "."]
          else [])) ++
          (if 0 < parsed.playerStarts.length ∧ 0 < parsed.pelletCount then
            pelletsReachableFromStart parsed parsed.playerStarts
              parsed.pelletPositions
          else []) := by
      unfold validateLevel
      rw [hparse]
    have hok : (validateLevel level).ok =
        decide ((validateLevel level).errors.length = 0) := by
      unfold validateLevel
      rw [hparse]
    have hborder : ∀ e ∈ borderRules parsed.rawGrid parsed.width
        parsed.height, e ∈ (validateLevel level).errors := by
      intro e he
      rw [herr]
      exact List.mem_append_left _ (List.mem_append_left _
        (List.mem_append_left _ (List.mem_append_left _ he)))
    refine ⟨?_, hborder, ?_, ?_, ?_, ?_, ?_, ?_⟩
    · rw [hok]
      constructor
      · intro hd he
        rw [he] at hd
        simp at hd
      · intro hne
        simp only [decide_eq_false_iff_not]
        intro hlen0
        exact hne (List.length_eq_zero.mp hlen0)
    · intro y hy e he
      refine hborder e ?_
      unfold borderRules
      rw [if_neg (by omega)]
      refine List.mem_append_left _ ?_
      rw [List.mem_flatMap]
      exact ⟨y, List.mem_range.mpr hy, he⟩
    · intro x hx e he
      refine hborder e ?_
      unfold borderRules
      rw [if_neg (by omega)]
      refine List.mem_append_right _ ?_
      rw [List.mem_flatMap]
      exact ⟨x, List.mem_range.mpr hx, he⟩
    · intro hcond
      have hm : ("Expected 1 or 2 PlayerStart " ++ sq ++ "P" ++ sq ++
          ", found " ++ toString parsed.playerStartCount ++ ".") ∈
          (if parsed.playerStartCount < 1 ∨ 2 < parsed.playerStartCount
            then ["Expected 1 or 2 PlayerStart " ++ sq ++ "P" ++ sq ++
              ", found " ++ toString parsed.playerStartCount ++ "."]
            else []) := by
        rw [if_pos hcond]
        exact List.mem_cons_self _ _
      rw [herr]
      exact List.mem_append_left _ (List.mem_append_left _
        (List.mem_append_left _ (List.mem_append_right _ hm)))
    · intro hcond
      have hm : ("Expected at least 1 Pellet " ++ sq ++ "." ++ sq ++
          ".") ∈ (if parsed.pelletCount < 1 then
            ["Expected at least 1 Pellet " ++ sq ++ "." ++ sq ++ "."]
          else []) := by
        rw [if_pos hcond]
        exact List.mem_cons_self _ _
      rw [herr]
      exact List.mem_append_left _ (List.mem_append_left _
        (List.mem_append_right _ hm))
    · intro hcond
      have hm : ("Expected at least 1 GhostStart " ++ sq ++ "G" ++ sq ++
          ".") ∈ (if parsed.ghostStarts.length < 1 then
            ["Expected at least 1 GhostStart " ++ sq ++ "G" ++ sq ++ "."]
          else []) := by
        rw [if_pos hcond]
        exact List.mem_cons_self _ _
      rw [herr]
      exact List.mem_append_left _ (List.mem_append_right _ hm)
    · intro h1 h2 e he
      have hm : e ∈ (if 0 < parsed.playerStarts.length ∧
          0 < parsed.pelletCount then
            pelletsReachableFromStart parsed parsed.playerStarts
              parsed.pelletPositions
          else []) := by
        rw [if_pos ⟨h1, h2⟩]
        exact he
      rw [herr]
      exact List.mem_append_right _ hm

/-- C8 witness: the parse half applied to a ragged two-row grid (its
error list is exactly the collected row errors), and the validator half
applied to the 5x5 tunnel level (its missing-ghost violation is
listed, and `ok=false` coincides with a non-empty error list). -/
theorem claimC8_complete_error_collection_witness :
    ((⟨none, ["#", "##"]⟩ : LevelJson).grid.length ≠ 0 ∧
      parseLevel ⟨none, ["#", "##"]⟩ =
        Except.error ["Level.grid[1] length 2 does not match width 1."] ∧
      ["Level.grid[1] length 2 does not match width 1."] =
        (if ((⟨none, ["#", "##"]⟩ : LevelJson).grid.headD "").length = 0
          then ["Level.grid rows must not be empty."] else []) ++
          (⟨none, ["#", "##"]⟩ : LevelJson).grid.enum.flatMap
            (fun rowIdx =>
              rowErrors
                ((⟨none, ["#", "##"]⟩ : LevelJson).grid.headD "").length
                rowIdx.1 rowIdx.2)) ∧
    parseLevel ⟨none, ["#####", "#P..#", ".#...", "#...#", "#####"]⟩ =
      Except.ok lvlTunnel ∧
    3 ≤ lvlTunnel.width ∧ 3 ≤ lvlTunnel.height ∧
    lvlTunnel.ghostStarts.length < 1 ∧
    ((validateLevel ⟨none, ["#####", "#P..#", ".#...", "#...#",
        "#####"]⟩).ok = false ↔
      (validateLevel ⟨none, ["#####", "#P..#", ".#...", "#...#",
        "#####"]⟩).errors ≠ []) ∧
    ("Expected at least 1 GhostStart " ++ sq ++ "G" ++ sq ++ ".") ∈
      (validateLevel ⟨none, ["#####", "#P..#", ".#...", "#...#",
        "#####"]⟩).errors :=
  ⟨⟨by decide, by rfl,
      claimC8_complete_error_collection.1 ⟨none, ["#", "##"]⟩
        ["Level.grid[1] length 2 does not match width 1."] (by decide)
        (by rfl)⟩,
    by rfl, by decide, by decide, by decide,
    (claimC8_complete_error_collection.2
      ⟨none, ["#####", "#P..#", ".#...", "#...#", "#####"]⟩ lvlTunnel
      (by rfl) (by decide) (by decide)).1,
    (claimC8_complete_error_collection.2
      ⟨none, ["#####", "#P..#", ".#...", "#...#", "#####"]⟩ lvlTunnel
      (by rfl) (by decide) (by decide)).2.2.2.2.2.2.1 (by decide)⟩

end RaiMan
